import Mathlib

/-!
Mixman DM2 stateful MIDI driver: slider calibration and MIDI codec.

A shallow embedding of the stateful interpretation layer of `dm2.c` / `dm2.h`.
Bytes (`u8`) are natural numbers below 256; every place where the C code
truncates an `int` to `u8` is an explicit reduction modulo 256.  C `int`
arithmetic is `Int` arithmetic with truncating division (`Int.tdiv`).
A division whose divisor is zero has no result: the functions that divide
return `Option`.
-/

namespace DM2

/-! ## Machine bytes -/

/-- Truncation of a C `int` to `u8`. -/
def u8 (x : Int) : Nat := (x % 256).toNat

/-- The byte `~x` restricted to eight bits. -/
def not8 (x : Nat) : Nat := 255 - x % 256

/-! ## Data model (dm2.h) -/

/-- The `struct dm2_params` record: a complete parameter set for a DM2. -/
structure dm2_params where
  sliderparam : List Nat
  sliderdeadzone : Nat
  paramthresh : Nat
  cursorthresh : Nat
  wheel0jogparam : Nat
  wheel1jogparam : Nat
  wheel0notes : List Nat
  wheel0params : List Nat
  wheel1notes : List Nat
  wheel1params : List Nat
  relparams0 : Nat
  relparams1 : Nat
  notoggle0 : Nat
  notoggle1 : Nat
  buttons0 : List Nat
  buttons1 : List Nat
  midup0 : Nat
  middown0 : Nat
  midup1 : Nat
  middown1 : Nat
  midrel0 : Nat
  midrel1 : Nat
  excl0 : Nat
  excl1 : Nat
  led0notes : List Nat
  led1notes : List Nat
  led0idle : Nat
  led1idle : Nat
deriving DecidableEq, Repr

/-- The constant `DM2_NUMPRESETS`. -/
def DM2_NUMPRESETS : Nat := 3

/-- Program 0: default program (for Mixxx). -/
def dm2_params_0 : dm2_params :=
  { sliderparam := [4, 5, 2]
    sliderdeadzone := 5
    paramthresh := 4
    cursorthresh := 12
    wheel0jogparam := 1
    wheel1jogparam := 3
    wheel0notes := [16, 17, 18, 0, 20, 21, 22, 0]
    wheel0params := [16, 17, 18, 0, 20, 21, 22, 23]
    wheel1notes := [32, 33, 34, 0, 36, 37, 38, 0]
    wheel1params := [32, 33, 34, 0, 36, 37, 38, 39]
    relparams0 := 0
    relparams1 := 0
    notoggle0 := 0x3f
    notoggle1 := 0x3f
    buttons0 := [48, 49, 50, 51, 52, 53, 54, 55]
    buttons1 := [0, 0, 58, 59, 60, 61, 62, 63]
    midup0 := 65
    midup1 := 65
    middown0 := 66
    middown1 := 66
    midrel0 := 67
    midrel1 := 68
    excl0 := 1
    excl1 := 1
    led0notes := [64, 65, 66, 67, 68, 69, 70, 71]
    led1notes := [80, 81, 82, 83, 84, 85, 86, 87]
    led0idle := 88
    led1idle := 89 }

/-- Program 1: simple program (only CC multiplexing with toggle switches). -/
def dm2_params_1 : dm2_params :=
  { sliderparam := [4, 5, 2]
    sliderdeadzone := 5
    paramthresh := 4
    cursorthresh := 12
    wheel0jogparam := 1
    wheel1jogparam := 3
    wheel0notes := [0, 0, 0, 0, 0, 0, 0, 0]
    wheel0params := [16, 17, 18, 0, 20, 21, 22, 23]
    wheel1notes := [0, 0, 0, 0, 0, 0, 0, 0]
    wheel1params := [32, 33, 34, 0, 36, 37, 38, 39]
    relparams0 := 0
    relparams1 := 0
    notoggle0 := 0x00
    notoggle1 := 0x00
    buttons0 := [48, 49, 50, 51, 52, 53, 54, 55]
    buttons1 := [0, 0, 58, 59, 60, 61, 62, 63]
    midup0 := 65
    midup1 := 65
    middown0 := 66
    middown1 := 66
    midrel0 := 67
    midrel1 := 68
    excl0 := 0
    excl1 := 0
    led0notes := [64, 65, 66, 67, 68, 69, 70, 71]
    led1notes := [80, 81, 82, 83, 84, 85, 86, 87]
    led0idle := 88
    led1idle := 89 }

/-- Program 2: Cinelerra, only relative controls. -/
def dm2_params_2 : dm2_params :=
  { sliderparam := [4, 5, 2]
    sliderdeadzone := 5
    paramthresh := 6
    cursorthresh := 20
    wheel0jogparam := 1
    wheel1jogparam := 3
    wheel0notes := [16, 17, 18, 0, 20, 21, 22, 23]
    wheel0params := [16, 17, 18, 0, 20, 21, 22, 23]
    wheel1notes := [32, 33, 34, 0, 36, 37, 38, 39]
    wheel1params := [32, 33, 34, 0, 36, 37, 38, 39]
    relparams0 := 0x7f
    relparams1 := 0x7f
    notoggle0 := 0x7f
    notoggle1 := 0x7f
    buttons0 := [48, 49, 50, 51, 52, 53, 54, 55]
    buttons1 := [0, 0, 58, 59, 60, 61, 62, 63]
    midup0 := 65
    midup1 := 66
    middown0 := 67
    middown1 := 68
    midrel0 := 69
    midrel1 := 70
    excl0 := 0
    excl1 := 0
    led0notes := [64, 65, 66, 67, 68, 69, 70, 71]
    led1notes := [80, 81, 82, 83, 84, 85, 86, 87]
    led0idle := 88
    led1idle := 89 }

/-- The table `dm2_params[DM2_NUMPRESETS]`. -/
def dm2_params_table : List dm2_params := [dm2_params_0, dm2_params_1, dm2_params_2]

/-- The entry `dm2_params[i]` of the table (only read with `i < DM2_NUMPRESETS`). -/
def dm2_params_at (i : Nat) : dm2_params := dm2_params_table.getD i dm2_params_0

/-- The MIDI part of `struct dm2midi`.  `input` tells whether a consumer
substream is attached (the pointer is non-NULL). -/
structure dm2midi where
  input : Bool
  chan : Nat
  out_rstatus : Nat
  in_rstatus : Nat
  in_arg1 : Nat
deriving DecidableEq, Repr

/-- The `struct dm2slider` record. -/
structure dm2slider where
  pos : Nat
  min : Nat
  max : Nat
  mid : Nat
  dead : Nat
  param : Nat
  midival : Nat
deriving DecidableEq, Repr

/-- The constant `DM2_MIDINDEX`. -/
def DM2_MIDINDEX : Nat := 3
/-- The constant `DM2_MIDMASK`. -/
def DM2_MIDMASK : Nat := 0x02
/-- The constant `DM2_CLR`. -/
def DM2_CLR : Nat := 0x08

/-- The `struct dm2wheel` record. -/
structure dm2wheel where
  pressed : Nat
  light : Nat
  whenreleased : Nat
  notes : List Nat
  params : List Nat
  midivals : List Nat
  relparams : Nat
  notoggle : Nat
  exclusive : Nat
  paramthresh : Nat
  cursorthresh : Nat
  jogparam : Nat
  jogmidival : Nat
  midpressed : Nat
  midup : Nat
  middown : Nat
  midrel : Nat
  wheelused : Nat
  showlight : Int
  turnacc : Int
deriving DecidableEq, Repr

/-- The `struct dm2buttons` record. -/
structure dm2buttons where
  pressed : Nat
  notes : List Nat
deriving DecidableEq, Repr

/-- The constant `DM2_LEDIDLEINT`. -/
def DM2_LEDIDLEINT : Int := 20
/-- The constant `DM2_LEDTIMEOUT`. -/
def DM2_LEDTIMEOUT : Int := 100

/-- The `struct dm2leds` record. -/
structure dm2leds where
  timeout : Int
  wheeltimeout : Int
  idletimeout : Int
  curr : Nat
  wheel : Nat
  mask : Nat
  light : Nat
  idlelight : Nat
  notes : List Nat
  idlenote : Nat
deriving DecidableEq, Repr

/-- The `struct dm2` record.  The arrays `sliders[3]`, `wheels[2]`,
`buttons[2]` and `leds[2]` are one field per element; `initcount` is the
source's countdown field that signals that the pots have to be calibrated. -/
structure dm2 where
  prev_state : List Nat
  curr_state : List Nat
  sliders_0 : dm2slider
  sliders_1 : dm2slider
  sliders_2 : dm2slider
  initcount : Int
  wheels_0 : dm2wheel
  wheels_1 : dm2wheel
  buttons_0 : dm2buttons
  buttons_1 : dm2buttons
  leds_0 : dm2leds
  leds_1 : dm2leds
deriving DecidableEq, Repr

/-- The part of `struct usb_dm2` that the interpretation layer owns. -/
structure usb_dm2 where
  dm2 : dm2
  dm2midi : dm2midi
deriving DecidableEq, Repr

/-- A call `dm2_midi_send(dev, cmd, param, value)`. -/
structure midi_call where
  cmd : Nat
  param : Nat
  value : Nat
deriving DecidableEq, Repr

/-! ## Sliders -/

/-- The function `dm2_slider_reset`. -/
def dm2_slider_reset (slider : dm2slider) (value : Nat) : dm2slider :=
  { slider with
    pos := value
    mid := value
    min := u8 ((value : Int) - slider.dead - 1)
    max := if slider.max ≠ 0 then u8 ((value : Int) + slider.dead + 1) else 0
    midival := 64 }

/-- The function `dm2_slider_init`. -/
def dm2_slider_init (slider : dm2slider) (param dead usemax : Nat) : dm2slider :=
  let slider := { slider with param := param, max := usemax, dead := dead }
  dm2_slider_reset slider (if slider.mid ≠ 0 then slider.mid else 80)

/-- The function `dm2_slider_set`. -/
def dm2_slider_set (slider : dm2slider) (value : Nat) : dm2slider :=
  let slider := if value < slider.min then { slider with min := value } else slider
  let slider :=
    if slider.max ≠ 0 ∧ value > slider.max then { slider with max := value } else slider
  { slider with pos := value }

/-- The final clamping of `dm2_slider_get` to the range 0..127. -/
def clamp127 (value : Int) : Int :=
  let value := if value < 0 then 0 else value
  if value > 127 then 127 else value

/-- The function `dm2_slider_get`; `none` when the divisor of the branch taken is zero. -/
def dm2_slider_get (slider : dm2slider) : Option Int :=
  let max : Nat := if slider.max = 0 then u8 (2 * (slider.mid : Int) - slider.min) else slider.max
  if slider.pos < slider.mid then
    let d : Int := (slider.mid : Int) - slider.dead - slider.min
    if d = 0 then none
    else
      let value := Int.tdiv (((slider.pos : Int) - slider.min) * 64) d
      let value := if value > 64 then 64 else value
      some (clamp127 value)
  else
    let d : Int := (max : Int) - slider.dead - slider.mid
    if d = 0 then none
    else
      let value := 127 - Int.tdiv (((max : Int) - slider.pos) * 63) d
      let value := if value < 64 then 64 else value
      some (clamp127 value)

/-- The function `dm2_slider_update`: the new slider and the calls of
`dm2_midi_send` it makes, in order; `none` when `dm2_slider_get` divides by zero. -/
def dm2_slider_update (slider : dm2slider) (curr : Nat) :
    Option (dm2slider × List midi_call) :=
  let slider := dm2_slider_set slider curr
  match dm2_slider_get slider with
  | none => none
  | some value =>
    if value = slider.midival then some (slider, [])
    else some ({ slider with midival := u8 value }, [⟨0xb0, slider.param, u8 value⟩])

/-! ## Wheels, buttons and LEDs: initialisation -/

/-- The function `dm2_wheel_init`. -/
def dm2_wheel_init (_wheel : dm2wheel) (notes params : List Nat)
    (jogparam midup middown midrel exclusive relparams notoggle paramthresh cursorthresh : Nat) :
    dm2wheel :=
  { turnacc := 0
    showlight := 0
    pressed := 0
    light := 0
    whenreleased := 0
    midpressed := 0
    jogparam := jogparam
    jogmidival := 64
    notes := (List.range 8).map (fun i => notes.getD i 0)
    params := (List.range 8).map (fun i => params.getD i 0)
    midivals := (List.range 8).map (fun _ => 64)
    relparams := (((relparams * 2) &&& 0xf0) ||| (relparams &&& 0x07)) % 256
    notoggle := (((notoggle * 2) &&& 0xf0) ||| (notoggle &&& 0x07)) % 256
    wheelused := 0
    midup := midup
    middown := middown
    midrel := midrel
    exclusive := exclusive
    paramthresh := paramthresh
    cursorthresh := cursorthresh }

/-- The function `dm2_buttons_init`. -/
def dm2_buttons_init (_buttons : dm2buttons) (notes : List Nat) : dm2buttons :=
  { pressed := 0
    notes := (List.range 8).map (fun i => notes.getD i 0) }

/-- The function `dm2_leds_init`. -/
def dm2_leds_init (_leds : dm2leds) (notes : List Nat) (idlenote : Nat) : dm2leds :=
  { timeout := 0
    idletimeout := 0
    wheeltimeout := 0
    curr := 0
    mask := 0
    light := 0
    notes := (List.range 8).map (fun i => notes.getD i 0)
    idlelight := 0
    wheel := 0
    idlenote := idlenote }

/-- One iteration of the loop of `dm2_leds_update`, for slot `i` with `mask = 1 << i`. -/
def dm2_leds_update_step (note vel : Nat) (leds : dm2leds) (i : Nat) : dm2leds :=
  let mask := 2 ^ i
  if leds.notes.getD i 0 ≠ note then leds
  else
    let leds :=
      if vel ≠ 0 then { leds with light := leds.light ||| mask }
      else { leds with light := leds.light &&& not8 mask }
    { leds with mask := leds.mask ||| mask }

/-- The function `dm2_leds_update`. -/
def dm2_leds_update (leds : dm2leds) (note vel : Nat) : dm2leds :=
  let leds := { leds with timeout := DM2_LEDTIMEOUT }
  let leds := (List.range 8).foldl (dm2_leds_update_step note vel) leds
  if note = leds.idlenote then { leds with idlelight := if vel ≠ 0 then 0x80 else 0 }
  else leds

/-! ## Initialisation of the DM2 structure -/

/-- The function `dm2_internal_init`. -/
def dm2_internal_init (d : dm2) (params : dm2_params) : dm2 :=
  { d with
    prev_state := List.replicate 10 0
    initcount := 50
    sliders_0 := dm2_slider_init d.sliders_0 (params.sliderparam.getD 0 0) params.sliderdeadzone 1
    sliders_1 := dm2_slider_init d.sliders_1 (params.sliderparam.getD 1 0) params.sliderdeadzone 1
    sliders_2 := dm2_slider_init d.sliders_2 (params.sliderparam.getD 2 0) params.sliderdeadzone 0
    wheels_0 := dm2_wheel_init d.wheels_0 params.wheel0notes params.wheel0params
      params.wheel0jogparam params.midup0 params.middown0 params.midrel0 params.excl0
      params.relparams0 params.notoggle0 params.paramthresh params.cursorthresh
    wheels_1 := dm2_wheel_init d.wheels_1 params.wheel1notes params.wheel1params
      params.wheel1jogparam params.midup1 params.middown1 params.midrel1 params.excl1
      params.relparams1 params.notoggle1 params.paramthresh params.cursorthresh
    buttons_0 := dm2_buttons_init d.buttons_0 params.buttons0
    buttons_1 := dm2_buttons_init d.buttons_1 params.buttons1
    leds_0 := dm2_leds_init d.leds_0 params.led0notes params.led0idle
    leds_1 := dm2_leds_init d.leds_1 params.led1notes params.led1idle }

/-! ## MIDI codec -/

/-- The parse state of the decoder cleared: `in_rstatus = in_arg1 = 0`. -/
def clear_in (dev : usb_dm2) : usb_dm2 :=
  { dev with dm2midi := { dev.dm2midi with in_rstatus := 0, in_arg1 := 0 } }

/-- The function `dm2_midi_process` on one received byte. -/
def dm2_midi_process (dev : usb_dm2) (byte : Nat) : usb_dm2 :=
  let dm2midi := dev.dm2midi
  if byte = 0xff then
    { dm2midi := { dm2midi with in_rstatus := 0, in_arg1 := 0, out_rstatus := 0 }
      dm2 := dm2_internal_init dev.dm2 (dm2_params_at 0) }
  else if byte &&& 0x80 ≠ 0 then
    if dm2midi.chan ≠ 0 ∧ (byte &&& 0x0f) ≠ dm2midi.chan then clear_in dev
    else
      let cmd := byte &&& 0xf0
      if cmd < 0x80 ∨ cmd > 0xc0 ∨ cmd = 0xa0 then clear_in dev
      else { dev with dm2midi := { dm2midi with in_rstatus := byte, in_arg1 := 0 } }
  else
    let cmd := dm2midi.in_rstatus &&& 0xf0
    if cmd = 0 then dev
    else
      let args_required : Nat := if cmd = 0xc0 then 1 else 2
      -- Fill argument in and check for completion
      let in_arg1 := if dm2midi.in_arg1 = 0 then byte else dm2midi.in_arg1
      let arg2 := if dm2midi.in_arg1 = 0 then 0 else byte
      let args : Nat := if dm2midi.in_arg1 = 0 then 1 else 2
      let arg1 := in_arg1
      if args < args_required then
        { dev with dm2midi := { dm2midi with in_arg1 := in_arg1 } }
      else
        let dev := { dev with dm2midi := { dm2midi with in_arg1 := 0 } }
        if cmd = 0x80 then
          { dev with dm2 := { dev.dm2 with
              leds_0 := dm2_leds_update dev.dm2.leds_0 arg1 0
              leds_1 := dm2_leds_update dev.dm2.leds_1 arg1 0 } }
        else if cmd = 0x90 ∨ cmd = 0xb0 then
          { dev with dm2 := { dev.dm2 with
              leds_0 := dm2_leds_update dev.dm2.leds_0 arg1 arg2
              leds_1 := dm2_leds_update dev.dm2.leds_1 arg1 arg2 } }
        else if cmd = 0xc0 then
          if arg1 < DM2_NUMPRESETS then
            { dev with dm2 := dm2_internal_init dev.dm2 (dm2_params_at arg1) }
          else dev
        else dev

/-- The bytes received one after the other by `dm2_midi_process`
(the loop of `dm2_midi_output_trigger`). -/
def dm2_midi_output_trigger (dev : usb_dm2) (bytes : List Nat) : usb_dm2 :=
  bytes.foldl dm2_midi_process dev

/-- The function `dm2_midi_send`: the new codec state and the buffers handed
to `snd_rawmidi_receive`, in order. -/
def dm2_midi_send (m : dm2midi) (cmd param value : Nat) : dm2midi × List (List Nat) :=
  if m.input = false then (m, [])
  else
    let status := (cmd % 256 + m.chan) % 256
    let out :=
      if status = m.out_rstatus then [param % 256, value % 256]
      else [status, param % 256, value % 256]
    ({ m with out_rstatus := status }, [out])

/-- The state in which `dm2_midi_init` and the zeroing allocation leave the codec. -/
def dm2_midi_init (m : dm2midi) : dm2midi :=
  { m with chan := 0, in_arg1 := 0, in_rstatus := 0, out_rstatus := 0 }


/-! ## Wheel rings -/

/-- The macro `DM2_MID(v)`, `((v) & DM2_MIDMASK) << 2`. -/
def DM2_MID (v : Nat) : Nat := (v &&& DM2_MIDMASK) * 4

/-- The body of the note loop of `dm2_wheel_update` for slot `i` (`mask = 1 << i`):
the calls of `dm2_midi_send` it makes. -/
def dm2_wheel_update_note (wheel : dm2wheel) (releases flagson flagsoff : Nat) (i : Nat) :
    List midi_call :=
  let mask := 2 ^ i
  if wheel.notes.getD i 0 = 0 then []
  else if wheel.params.getD i 0 = 0 then
    (if mask &&& flagson ≠ 0 then [⟨0x90, wheel.notes.getD i 0, 0x7f⟩] else []) ++
      (if mask &&& flagsoff ≠ 0 then [⟨0x90, wheel.notes.getD i 0, 0x00⟩] else [])
  else if (wheel.wheelused ≠ 0 ∧
        ((mask &&& releases) &&& not8 wheel.notoggle) &&& not8 wheel.whenreleased ≠ 0) ∨
      (wheel.wheelused = 0 ∧ (mask &&& releases) &&& wheel.notoggle ≠ 0) then
    [⟨0x90, wheel.notes.getD i 0, 0x7f⟩]
  else []

/-- The body of the reset loop of `dm2_wheel_update` for slot `i`. -/
def dm2_wheel_update_reset (newlight : Nat) (st : dm2wheel × List midi_call) (i : Nat) :
    dm2wheel × List midi_call :=
  let wheel := st.1
  let mask := 2 ^ i
  if mask &&& newlight = 0 then st
  else if wheel.params.getD i 0 = 0 then st
  else if wheel.midivals.getD i 0 = 64 then st
  else
    ({ wheel with midivals := wheel.midivals.set i 64 },
      st.2 ++ [⟨0xb0, wheel.params.getD i 0, 64⟩])

/-- The function `dm2_wheel_update`: the new wheel and the calls of
`dm2_midi_send` it makes, in order. -/
def dm2_wheel_update (wheel : dm2wheel) (curr currmid : Nat) : dm2wheel × List midi_call :=
  let currmid := currmid &&& DM2_MIDMASK
  if wheel.pressed = curr ∧ wheel.midpressed = currmid then (wheel, [])
  else
    let wheel := { wheel with turnacc := 0 }
    -- Calculate note on/off
    let presses := not8 wheel.pressed &&& curr
    let releases := wheel.pressed &&& not8 curr
    let flagson := presses &&& (wheel.notoggle ||| not8 wheel.light)
    let flagsoff := releases &&& (wheel.notoggle ||| not8 wheel.whenreleased)
    let evs1 := (List.range 8).flatMap (dm2_wheel_update_note wheel releases flagson flagsoff)
    -- Mid key
    let evs2 : List midi_call :=
      if wheel.midpressed &&& not8 currmid ≠ 0 ∧ wheel.midrel ≠ 0 ∧ wheel.wheelused ≠ 0 then
        [⟨0x90, wheel.midrel, 0x7f⟩]
      else []
    -- Releases
    let releases := releases &&& not8 DM2_CLR
    let newlight := wheel.whenreleased &&& releases
    let newlight :=
      if ¬ (wheel.exclusive ≠ 0 ∧ newlight ≠ 0) then newlight ||| (wheel.light &&& not8 releases)
      else newlight
    let newlight := (newlight &&& not8 DM2_CLR) ||| DM2_MID currmid
    let whenreleased := wheel.whenreleased &&& not8 releases
    -- Keys which are masked out as toggles
    let newlight := (newlight &&& not8 wheel.notoggle) ||| (curr &&& wheel.notoggle)
    -- Bottom keypress: reset values
    let reset := presses &&& DM2_CLR
    let wheelused :=
      if flagson ≠ 0 ∨ currmid &&& not8 wheel.midpressed ≠ 0 then 0 else wheel.wheelused
    let wheelused := if (wheel.pressed ^^^ curr) &&& DM2_CLR ≠ 0 then 1 else wheelused
    -- Other presses
    let presses := (presses &&& not8 DM2_CLR) ||| DM2_MID (not8 wheel.midpressed &&& currmid)
    let whenreleased := (whenreleased &&& not8 presses) ||| (not8 newlight &&& presses)
    let newlight := newlight ||| presses
    let wheel :=
      { wheel with
        whenreleased := whenreleased
        wheelused := wheelused
        light := newlight
        pressed := curr
        midpressed := currmid }
    -- Reset values
    if reset = 0 then (wheel, evs1 ++ evs2)
    else (List.range 8).foldl (dm2_wheel_update_reset newlight) (wheel, evs1 ++ evs2)

/-- The chunk `trnc` that one pass of the do-while loop of `dm2_wheel_turn` takes
off `reldiff`. -/
def dm2_turn_chunk (reldiff : Int) : Int :=
  if reldiff < -64 then -64 else if reldiff > 63 then 63 else reldiff

/-- The do-while loop of `dm2_wheel_turn`: the chunks taken off `reldiff`, in
order.  `fuel` bounds the number of passes; the loop is always run with
`fuel = |reldiff|`, which it never exhausts. -/
def dm2_turn_loop : Nat → Int → List Int
  | 0, _ => []
  | fuel + 1, reldiff =>
    let trnc := dm2_turn_chunk reldiff
    trnc :: (if reldiff - trnc ≠ 0 then dm2_turn_loop fuel (reldiff - trnc) else [])

/-- The chunks that the do-while loop of `dm2_wheel_turn` sends for `reldiff`. -/
def dm2_turn_chunks (reldiff : Int) : List Int := dm2_turn_loop reldiff.natAbs reldiff

/-- The signed turn `diff` that `dm2_wheel_turn` computes from the raw step byte. -/
def dm2_turn_diff (step : Nat) : Int :=
  - (if step &&& 0x80 ≠ 0 then (step : Int) - 256 else (step : Int))

/-- The body of the parameter loop of `dm2_wheel_turn` for slot `i`. -/
def dm2_wheel_turn_param (params : Nat) (diff midiadd : Int)
    (st : dm2wheel × List midi_call) (i : Nat) : dm2wheel × List midi_call :=
  let wheel := st.1
  let mask := 2 ^ i
  if params &&& mask = 0 then st
  else if wheel.params.getD i 0 = 0 then st
  else if wheel.relparams &&& mask ≠ 0 then
    if diff ≠ 0 then
      let chunks := dm2_turn_chunks diff
      ({ wheel with midivals := wheel.midivals.set i (u8 (chunks.getLastD 0 + 64)) },
        st.2 ++ chunks.map (fun trnc => ⟨0xb0, wheel.params.getD i 0, u8 (trnc + 64)⟩))
    else
      ({ wheel with midivals := wheel.midivals.set i 64 },
        st.2 ++ (if wheel.midivals.getD i 0 ≠ 64 then [⟨0xb0, wheel.params.getD i 0, 64⟩]
          else []))
  else
    let value := clamp127 ((wheel.midivals.getD i 0 : Int) + midiadd)
    if value ≠ (wheel.midivals.getD i 0 : Int) ∧ wheel.params.getD i 0 ≠ 0 then
      ({ wheel with midivals := wheel.midivals.set i (u8 value) },
        st.2 ++ [⟨0xb0, wheel.params.getD i 0, u8 value⟩])
    else st

/-- The function `dm2_wheel_turn`: the new wheel and the calls of `dm2_midi_send`
it makes, in order; `none` when the threshold it divides by is zero. -/
def dm2_wheel_turn (wheel : dm2wheel) (step : Nat) : Option (dm2wheel × List midi_call) :=
  let diff := dm2_turn_diff step
  -- Jog wheel mode
  if wheel.pressed = 0 ∧ wheel.light = 0 ∧ wheel.midpressed = 0 then
    if diff ≠ 0 then
      let chunks := dm2_turn_chunks diff
      some ({ wheel with jogmidival := u8 (chunks.getLastD 0 + 64) },
        chunks.map (fun trnc => ⟨0xb0, wheel.jogparam, u8 (trnc + 64)⟩))
    else
      some ({ wheel with jogmidival := 64 },
        if wheel.jogmidival ≠ 64 then [⟨0xb0, wheel.jogparam, 64⟩] else [])
  else
    -- Adjust stepping accumulator (for absolute CCs and cursor motion)
    let thresh : Int :=
      if wheel.midpressed ≠ 0 ∧ (wheel.midup ≠ 0 ∨ wheel.middown ≠ 0) then wheel.cursorthresh
      else wheel.paramthresh
    if thresh = 0 then none
    else
      let acc := wheel.turnacc + diff
      let midiadd := Int.tdiv acc thresh
      let wheel := { wheel with turnacc := Int.tmod acc thresh, showlight := 1, wheelused := 1 }
      -- Mid key pressed: only mid parameter / cursor
      if wheel.midpressed ≠ 0 ∧ (wheel.midup ≠ 0 ∨ wheel.middown ≠ 0) then
        some (wheel,
          (if midiadd < 0 ∧ wheel.middown ≠ 0 then
              List.replicate (-midiadd).toNat ⟨0x90, wheel.middown, 0x7f⟩
            else []) ++
          (if midiadd > 0 ∧ wheel.midup ≠ 0 then
              List.replicate midiadd.toNat ⟨0x90, wheel.midup, 0x7f⟩
            else []))
      else if wheel.midpressed ≠ 0 ∧ wheel.params.getD DM2_MIDINDEX 0 ≠ 0 then
        let value := clamp127 ((wheel.midivals.getD DM2_MIDINDEX 0 : Int) + midiadd)
        if value ≠ (wheel.midivals.getD DM2_MIDINDEX 0 : Int) then
          some ({ wheel with midivals := wheel.midivals.set DM2_MIDINDEX (u8 value) },
            [⟨0xb0, wheel.params.getD DM2_MIDINDEX 0, u8 value⟩])
        else some (wheel, [])
      else
        -- Use presses, then lights
        let params := if wheel.pressed ≠ 0 then wheel.pressed else wheel.light
        let wheel :=
          if wheel.pressed ≠ 0 then
            { wheel with whenreleased := wheel.light &&& not8 wheel.pressed }
          else wheel
        -- Transmit params
        if params = 0 then some (wheel, [])
        else some ((List.range 8).foldl (dm2_wheel_turn_param params diff midiadd) (wheel, []))

/-! ## Button banks -/

/-- The body of the loop of `dm2_buttons_update` for slot `i`. -/
def dm2_buttons_update_note (buttons : dm2buttons) (presses releases : Nat) (i : Nat) :
    List midi_call :=
  let mask := 2 ^ i
  if buttons.notes.getD i 0 = 0 then []
  else
    (if mask &&& presses ≠ 0 then [⟨0x90, buttons.notes.getD i 0, 0x7f⟩] else []) ++
      (if mask &&& releases ≠ 0 then [⟨0x90, buttons.notes.getD i 0, 0x00⟩] else [])

/-- The function `dm2_buttons_update`: the new bank and the calls of
`dm2_midi_send` it makes, in order. -/
def dm2_buttons_update (buttons : dm2buttons) (curr : Nat) : dm2buttons × List midi_call :=
  if buttons.pressed = curr then (buttons, [])
  else
    let presses := not8 buttons.pressed &&& curr
    let releases := buttons.pressed &&& not8 curr
    ({ buttons with pressed := curr },
      (List.range 8).flatMap (dm2_buttons_update_note buttons presses releases))

/-! ## LED layers: timers and merge -/

/-- The function `dm2_leds_timer`. -/
def dm2_leds_timer (leds : dm2leds) : dm2leds :=
  -- Handle idle loop
  let leds :=
    if leds.idlelight ≠ 0 then
      let leds :=
        if leds.idletimeout = 0 then
          let leds := { leds with idletimeout := DM2_LEDIDLEINT, idlelight := leds.idlelight / 2 }
          if leds.idlelight = 0 then { leds with idlelight := 0x80 } else leds
        else leds
      { leds with idletimeout := leds.idletimeout - 1 }
    else leds
  -- Handle mask timeout
  let leds :=
    if leds.wheeltimeout ≠ 0 then { leds with wheeltimeout := leds.wheeltimeout - 1 } else leds
  if leds.timeout = 0 then leds
  else
    let leds := { leds with timeout := leds.timeout - 1 }
    if leds.timeout ≠ 0 then leds else { leds with mask := 0, light := 0 }

/-- One pass of the loop of `dm2_leds_send` for a half: the wheel, the LED layer,
the byte `new[i]` and whether it differs from `curr`. -/
def dm2_leds_send_half (wheel : dm2wheel) (leds : dm2leds) :
    dm2wheel × dm2leds × Nat × Bool :=
  -- Handle timing of LED layers
  let rearm : Bool :=
    decide (wheel.light ≠ leds.wheel) || decide (wheel.showlight ≠ 0) || decide (wheel.light ≠ 0)
  let leds :=
    if rearm then { leds with wheeltimeout := DM2_LEDTIMEOUT, wheel := wheel.light } else leds
  let wheel := if rearm then { wheel with showlight := 0 } else wheel
  -- Merge layers
  let new := if leds.wheeltimeout ≠ 0 then leds.wheel else leds.idlelight
  let new := (new &&& not8 leds.mask) ||| (leds.light &&& leds.mask)
  if leds.curr = new then (wheel, leds, new, false)
  else (wheel, { leds with curr := new }, new, true)

/-- The function `dm2_leds_send`: the new state and the call
`dm2_set_leds(dev, new[0], new[1])` when it is made. -/
def dm2_leds_send (d : dm2) : dm2 × Option (Nat × Nat) :=
  let h0 := dm2_leds_send_half d.wheels_0 d.leds_0
  let h1 := dm2_leds_send_half d.wheels_1 d.leds_1
  let d := { d with wheels_0 := h0.1, leds_0 := h0.2.1, wheels_1 := h1.1, leds_1 := h1.2.1 }
  (d, if h0.2.2.2 || h1.2.2.2 then some (h0.2.2.1, h1.2.2.1) else none)

/-! ## Main event handler -/

/-- The result of one tick: the new state, the calls of `dm2_midi_send` in
order, and the LED write when one is requested. -/
structure tick_result where
  dm2 : dm2
  midi : List midi_call
  leds : Option (Nat × Nat)
deriving DecidableEq, Repr

/-- A component update that runs only when `cond` holds. -/
def run_if {σ : Type} (cond : Bool) (f : σ → Option (σ × List midi_call)) (s : σ) :
    Option (σ × List midi_call) :=
  if cond then f s else some (s, [])

/-- The function `dm2_tasklet` on the report held in `curr_state`; `none` when a
slider or wheel update divides by zero. -/
def dm2_tasklet (d : dm2) : Option tick_result :=
  let curr := fun i => d.curr_state.getD i 0
  let prev := fun i => d.prev_state.getD i 0
  -- byte 0, 1: handle right and left shift buttons.
  let w0 :=
    if curr 1 ≠ prev 1 ∨ curr 3 ≠ prev 3 then dm2_wheel_update d.wheels_0 (curr 1) (curr 3)
    else (d.wheels_0, [])
  let w1 :=
    if curr 0 ≠ prev 0 ∨ curr 3 ≠ prev 3 then dm2_wheel_update d.wheels_1 (curr 0) (curr 3)
    else (d.wheels_1, [])
  -- byte 2, 3: handle top and bottom normal buttons.
  let b0 := if curr 2 ≠ prev 2 then dm2_buttons_update d.buttons_0 (curr 2) else (d.buttons_0, [])
  let b1 := if curr 3 ≠ prev 3 then dm2_buttons_update d.buttons_1 (curr 3) else (d.buttons_1, [])
  -- bytes 5, 6, 7: handle sliders.
  match run_if (curr 5 ≠ prev 5) (fun s => dm2_slider_update s (curr 5)) d.sliders_0 with
  | none => none
  | some s0 =>
  match run_if (curr 6 ≠ prev 6) (fun s => dm2_slider_update s (curr 6)) d.sliders_1 with
  | none => none
  | some s1 =>
  match run_if (curr 7 ≠ prev 7) (fun s => dm2_slider_update s (curr 7)) d.sliders_2 with
  | none => none
  | some s2 =>
  -- bytes 8, 9: handle wheels.
  match run_if (curr 8 ≠ 0 ∨ prev 8 ≠ 0) (fun w => dm2_wheel_turn w (curr 8)) w0.1 with
  | none => none
  | some t0 =>
  match run_if (curr 9 ≠ 0 ∨ prev 9 ≠ 0) (fun w => dm2_wheel_turn w (curr 9)) w1.1 with
  | none => none
  | some t1 =>
    -- Update LEDs
    let d :=
      { d with
        wheels_0 := t0.1, wheels_1 := t1.1, buttons_0 := b0.1, buttons_1 := b1.1
        sliders_0 := s0.1, sliders_1 := s1.1, sliders_2 := s2.1
        leds_0 := dm2_leds_timer d.leds_0, leds_1 := dm2_leds_timer d.leds_1 }
    let l := dm2_leds_send d
    some
      { dm2 := { l.1 with prev_state := d.curr_state }
        midi := w0.2 ++ w1.2 ++ b0.2 ++ b1.2 ++ s0.2 ++ s1.2 ++ s2.2 ++ t0.2 ++ t1.2
        leds := l.2 }

/-- One tick on the report `r`: `dm2_update_status` (after the calibration
countdown) stores the report in `curr_state` and schedules `dm2_tasklet`. -/
def dm2_tick (d : dm2) (r : List Nat) : Option tick_result :=
  dm2_tasklet { d with curr_state := r }

/-- A sequence of ticks: the final state and all calls of `dm2_midi_send`, in
order; `none` when one of the ticks divides by zero. -/
def dm2_ticks (d : dm2) : List (List Nat) → Option (dm2 × List midi_call)
  | [] => some (d, [])
  | r :: rs =>
    match dm2_tick d r with
    | none => none
    | some t =>
      match dm2_ticks t.dm2 rs with
      | none => none
      | some (d2, evs) => some (d2, t.midi ++ evs)

/-! ## Device attach -/

/-- The zero-filled `struct dm2slider`. -/
def dm2slider_zero : dm2slider := ⟨0, 0, 0, 0, 0, 0, 0⟩

/-- The zero-filled `struct dm2wheel`. -/
def dm2wheel_zero : dm2wheel :=
  { pressed := 0, light := 0, whenreleased := 0
    notes := List.replicate 8 0, params := List.replicate 8 0, midivals := List.replicate 8 0
    relparams := 0, notoggle := 0, exclusive := 0, paramthresh := 0, cursorthresh := 0
    jogparam := 0, jogmidival := 0, midpressed := 0, midup := 0, middown := 0, midrel := 0
    wheelused := 0, showlight := 0, turnacc := 0 }

/-- The zero-filled `struct dm2buttons`. -/
def dm2buttons_zero : dm2buttons := ⟨0, List.replicate 8 0⟩

/-- The zero-filled `struct dm2leds`. -/
def dm2leds_zero : dm2leds :=
  { timeout := 0, wheeltimeout := 0, idletimeout := 0, curr := 0, wheel := 0, mask := 0
    light := 0, idlelight := 0, notes := List.replicate 8 0, idlenote := 0 }

/-- The zero-filled `struct dm2`. -/
def dm2_zero : dm2 :=
  { prev_state := List.replicate 10 0, curr_state := List.replicate 10 0
    sliders_0 := dm2slider_zero, sliders_1 := dm2slider_zero, sliders_2 := dm2slider_zero
    initcount := 0
    wheels_0 := dm2wheel_zero, wheels_1 := dm2wheel_zero
    buttons_0 := dm2buttons_zero, buttons_1 := dm2buttons_zero
    leds_0 := dm2leds_zero, leds_1 := dm2leds_zero }

/-- The device state that `kzalloc` returns in `dm2_probe`. -/
def usb_dm2_zero : usb_dm2 := ⟨dm2_zero, ⟨false, 0, 0, 0, 0⟩⟩

/-- The device state at the end of `dm2_probe`: zero-filled, then `dm2_midi_init`,
then `dm2_internal_init` with program 0. -/
def dm2_probe : usb_dm2 :=
  { dm2midi := dm2_midi_init usb_dm2_zero.dm2midi
    dm2 := dm2_internal_init usb_dm2_zero.dm2 (dm2_params_at 0) }

/-- The function `dm2_midi_input_open`: a consumer is attached and the running
status of the encoder is reset. -/
def dm2_midi_input_open (dev : usb_dm2) : usb_dm2 :=
  { dev with dm2midi := { dev.dm2midi with input := true, out_rstatus := 0 } }

/-! ## Predicates used in the statements -/

/-- The status byte `B` is one the decoder accepts: a Note-Off, Note-On,
Control-Change or Program-Change on the configured channel (any channel when
`chan = 0`). -/
def accepted_status (chan B : Nat) : Prop :=
  (B &&& 0xf0 = 0x80 ∨ B &&& 0xf0 = 0x90 ∨ B &&& 0xf0 = 0xb0 ∨ B &&& 0xf0 = 0xc0) ∧
    (chan = 0 ∨ B &&& 0x0f = chan)

/-- The slider, wheel-ring, button-bank and LED-layer part of the device state. -/
def dm2_controls (d : dm2) :
    dm2slider × dm2slider × dm2slider × dm2wheel × dm2wheel × dm2buttons × dm2buttons ×
      dm2leds × dm2leds :=
  (d.sliders_0, d.sliders_1, d.sliders_2, d.wheels_0, d.wheels_1, d.buttons_0, d.buttons_1,
    d.leds_0, d.leds_1)

/-- The zero-filled `struct dm2` in which only the `mid` fields of the three
sliders are set. -/
def dm2_zero_mid (mid0 mid1 mid2 : Nat) : dm2 :=
  { dm2_zero with
    sliders_0 := { dm2slider_zero with mid := mid0 }
    sliders_1 := { dm2slider_zero with mid := mid1 }
    sliders_2 := { dm2slider_zero with mid := mid2 } }

/-- The calibration at the end of the countdown in `dm2_update_status`: the three
sliders are reset to the bytes 5, 6 and 7 of the report. -/
def dm2_update_status_reset (d : dm2) (buf : List Nat) : dm2 :=
  { d with
    sliders_0 := dm2_slider_reset d.sliders_0 (buf.getD 5 0)
    sliders_1 := dm2_slider_reset d.sliders_1 (buf.getD 6 0)
    sliders_2 := dm2_slider_reset d.sliders_2 (buf.getD 7 0) }

/-- The attached device after its sliders were calibrated at the raw value 100. -/
def dm2_calibrated_100 : usb_dm2 :=
  { dm2_probe with
    dm2 := dm2_update_status_reset dm2_probe.dm2 [0, 0, 0, 0, 0, 100, 100, 100, 0, 0] }

/-- The merged output byte of one LED half in the words of the specification:
`base` is the wheel layer if `wheeltimeout > 0` after re-arming and the idle byte
otherwise, and `output = (base AND NOT mask) OR (light AND mask)`.  The wheel layer
is re-armed (timeout 100, layer = the wheel's light mask) when the wheel's light
mask changed, is non-zero, or the wheel requests display. -/
def spec_led_output (wheel : dm2wheel) (leds : dm2leds) : Nat :=
  let rearmed := wheel.light ≠ leds.wheel ∨ wheel.showlight ≠ 0 ∨ wheel.light ≠ 0
  let wheeltimeout : Int := if rearmed then 100 else leds.wheeltimeout
  let wheellayer := if rearmed then wheel.light else leds.wheel
  let base := if wheeltimeout > 0 then wheellayer else leds.idlelight
  (base &&& not8 leds.mask) ||| (leds.light &&& leds.mask)

/-! ## Example configurations and runs -/

/-- A wheel whose slot 0 has the note 16, the absolute parameter 16 and toggling
enabled. -/
def dm2_wheel_toggle_example : dm2wheel :=
  dm2_wheel_init dm2wheel_zero [16, 0, 0, 0, 0, 0, 0, 0] [16, 0, 0, 0, 0, 0, 0, 0]
    1 0 0 0 0 0 0 4 12

/-- A call of `dm2_wheel_update` or of `dm2_wheel_turn`. -/
inductive wheel_op where
  | update (curr currmid : Nat)
  | turn (step : Nat)
deriving DecidableEq, Repr

/-- A sequence of `dm2_wheel_update` and `dm2_wheel_turn` calls on a wheel;
`none` when a turn divides by zero. -/
def dm2_wheel_run (wheel : dm2wheel) : List wheel_op → Option dm2wheel
  | [] => some wheel
  | wheel_op.update curr currmid :: ops =>
    dm2_wheel_run (dm2_wheel_update wheel curr currmid).1 ops
  | wheel_op.turn step :: ops =>
    match dm2_wheel_turn wheel step with
    | none => none
    | some r => dm2_wheel_run r.1 ops

/-- The attached device after the Note-On 88 that arms the idle animation of the
first LED half. -/
def dm2_armed : dm2 := (dm2_midi_output_trigger dm2_probe [0x90, 88, 127]).dm2

/-- The report with all controls at rest. -/
def dm2_report_zero : List Nat := [0, 0, 0, 0, 0, 0, 0, 0, 0, 0]

/-- A report with the sliders at 80 and the first wheel turned by one step. -/
def dm2_report_turn : List Nat := [0, 0, 0, 0, 0, 80, 80, 80, 1, 0]

/-- A call of `dm2_midi_send` is a Note-On or Control-Change with both data
bytes in 0..127. -/
def midi_call_ok (e : midi_call) : Prop :=
  (e.cmd = 0x90 ∨ e.cmd = 0xb0) ∧ e.param < 128 ∧ e.value < 128

/-- The notes, parameters and stored values of a wheel are in 0..127. -/
def dm2wheel_ok (wheel : dm2wheel) : Prop :=
  (∀ x ∈ wheel.notes, x < 128) ∧ (∀ x ∈ wheel.params, x < 128) ∧
    (∀ x ∈ wheel.midivals, x < 128) ∧ wheel.jogparam < 128 ∧ wheel.jogmidival < 128 ∧
    wheel.midup < 128 ∧ wheel.middown < 128 ∧ wheel.midrel < 128

/-- The notes and parameters of all controls are in 0..127. -/
def dm2_ok (d : dm2) : Prop :=
  dm2wheel_ok d.wheels_0 ∧ dm2wheel_ok d.wheels_1 ∧
    (∀ x ∈ d.buttons_0.notes, x < 128) ∧ (∀ x ∈ d.buttons_1.notes, x < 128) ∧
    d.sliders_0.param < 128 ∧ d.sliders_1.param < 128 ∧ d.sliders_2.param < 128

/-- The state and the calls of `dm2_midi_send` after the attached device has
processed the report `dm2_report_turn` twice. -/
def dm2_example_run : dm2 × List midi_call :=
  (dm2_ticks (dm2_internal_init dm2_zero (dm2_params_at 0))
    [dm2_report_turn, dm2_report_turn]).getD (dm2_zero, [])

/-- The result of the first tick of the attached device on the report with all
controls at rest. -/
def dm2_tick_example : tick_result :=
  (dm2_tick dm2_probe.dm2 dm2_report_zero).getD ⟨dm2_probe.dm2, [], none⟩

/-! ## Sliders: the specified value -/

/-- The slider value in the words of the specification, evaluated over the
integers with truncating division: with `effectiveMax = max` if `max != 0` and
`2*mid - min` otherwise, the value is `min(64, (pos-min)*64/(mid-dead-min))` when
`pos < mid` and `max(64, 127 - (effectiveMax-pos)*63/(effectiveMax-dead-mid))` when
`pos >= mid`, finally clamped to 0..127. -/
def spec_slider_value (slider : dm2slider) : Int :=
  let effectiveMax : Int :=
    if slider.max ≠ 0 then (slider.max : Int) else 2 * (slider.mid : Int) - slider.min
  let value : Int :=
    if slider.pos < slider.mid then
      min 64 (Int.tdiv (((slider.pos : Int) - slider.min) * 64)
        ((slider.mid : Int) - slider.dead - slider.min))
    else
      max 64 (127 - Int.tdiv ((effectiveMax - slider.pos) * 63)
        (effectiveMax - slider.dead - slider.mid))
  max 0 (min 127 value)

/-- A sequence of `dm2_slider_update` calls on a slider; `none` when one of them
divides by zero. -/
def dm2_slider_updates (slider : dm2slider) : List Nat → Option dm2slider
  | [] => some slider
  | v :: vs =>
    match dm2_slider_update slider v with
    | none => none
    | some r => dm2_slider_updates r.1 vs

/-! ## Wheel turns: threshold and step count -/

/-- The threshold `thresh` that `dm2_wheel_turn` divides by outside the jog mode:
`paramthresh`, or `cursorthresh` when the mid button is held and `midup` or
`middown` is configured. -/
def dm2_turn_thresh (wheel : dm2wheel) : Int :=
  if wheel.midpressed ≠ 0 ∧ (wheel.midup ≠ 0 ∨ wheel.middown ≠ 0) then wheel.cursorthresh
  else wheel.paramthresh

/-- The step count `midiadd = acc / thresh` that `dm2_wheel_turn` computes outside
the jog mode, with `acc = turnacc + diff`. -/
def dm2_turn_midiadd (wheel : dm2wheel) (step : Nat) : Int :=
  Int.tdiv (wheel.turnacc + dm2_turn_diff step) (dm2_turn_thresh wheel)

/-- A sequence of `dm2_wheel_turn` calls: the final wheel and the step counts
`midiadd` of the calls, in order; `none` when a call divides by zero. -/
def dm2_wheel_turns (wheel : dm2wheel) : List Nat → Option (dm2wheel × List Int)
  | [] => some (wheel, [])
  | step :: steps =>
    match dm2_wheel_turn wheel step with
    | none => none
    | some r =>
      match dm2_wheel_turns r.1 steps with
      | none => none
      | some (w, adds) => some (w, dm2_turn_midiadd wheel step :: adds)

/-- The slots that receive a wheel turn outside the jog mode and the mid-button
routing: "use presses, then lights". -/
def dm2_turn_active (wheel : dm2wheel) : Nat :=
  if wheel.pressed ≠ 0 then wheel.pressed else wheel.light

/-- The first wheel of the attached device after slot 0 was pressed and the wheel
turned by `d = 4` while the slot was held. -/
def dm2_wheel_turned_example : dm2wheel :=
  ((dm2_wheel_turn (dm2_wheel_update dm2_probe.dm2.wheels_0 0x01 0).1 0xfc).getD
    (dm2wheel_zero, [])).1

/-- The first wheel of the attached device after slot 0 was pressed, the wheel
turned by `d = 4`, and slot 0 released while slot 7 was pressed. -/
def dm2_wheel_run_example : dm2wheel :=
  (dm2_wheel_run dm2_probe.dm2.wheels_0
    [wheel_op.update 0x01 0, wheel_op.turn 0xfc, wheel_op.update 0x80 0]).getD dm2wheel_zero

/-! ## LED layers: runs -/

/-- A call of `dm2_leds_update` or of `dm2_leds_timer`. -/
inductive leds_op where
  | update (note vel : Nat)
  | timer
deriving DecidableEq, Repr

/-- A sequence of `dm2_leds_update` and `dm2_leds_timer` calls on an LED layer. -/
def dm2_leds_run (leds : dm2leds) : List leds_op → dm2leds
  | [] => leds
  | leds_op.update note vel :: ops => dm2_leds_run (dm2_leds_update leds note vel) ops
  | leds_op.timer :: ops => dm2_leds_run (dm2_leds_timer leds) ops

/-- The LED layer after `n` consecutive calls of `dm2_leds_timer`. -/
def dm2_leds_timers (leds : dm2leds) : Nat → dm2leds
  | 0 => leds
  | n + 1 => dm2_leds_timer (dm2_leds_timers leds n)

/-! ## Main event handler without the byte-diff gating -/

/-- The tick in the reading of the specification in which the byte-diff gating is
removed: every component update of `dm2_tasklet` is invoked unconditionally
(`dm2_wheel_update` for both wheels, `dm2_buttons_update` for both banks,
`dm2_slider_update` for the three sliders, `dm2_wheel_turn` for both wheels), then
the LED timers and the LED merge run as in `dm2_tasklet`. -/
def dm2_tasklet_ungated (d : dm2) : Option tick_result :=
  let curr := fun i => d.curr_state.getD i 0
  let w0 := dm2_wheel_update d.wheels_0 (curr 1) (curr 3)
  let w1 := dm2_wheel_update d.wheels_1 (curr 0) (curr 3)
  let b0 := dm2_buttons_update d.buttons_0 (curr 2)
  let b1 := dm2_buttons_update d.buttons_1 (curr 3)
  match dm2_slider_update d.sliders_0 (curr 5) with
  | none => none
  | some s0 =>
  match dm2_slider_update d.sliders_1 (curr 6) with
  | none => none
  | some s1 =>
  match dm2_slider_update d.sliders_2 (curr 7) with
  | none => none
  | some s2 =>
  match dm2_wheel_turn w0.1 (curr 8) with
  | none => none
  | some t0 =>
  match dm2_wheel_turn w1.1 (curr 9) with
  | none => none
  | some t1 =>
    let d :=
      { d with
        wheels_0 := t0.1, wheels_1 := t1.1, buttons_0 := b0.1, buttons_1 := b1.1
        sliders_0 := s0.1, sliders_1 := s1.1, sliders_2 := s2.1
        leds_0 := dm2_leds_timer d.leds_0, leds_1 := dm2_leds_timer d.leds_1 }
    let l := dm2_leds_send d
    some
      { dm2 := { l.1 with prev_state := d.curr_state }
        midi := w0.2 ++ w1.2 ++ b0.2 ++ b1.2 ++ s0.2 ++ s1.2 ++ s2.2 ++ t0.2 ++ t1.2
        leds := l.2 }

/-- One ungated tick on the report `r`. -/
def dm2_tick_ungated (d : dm2) (r : List Nat) : Option tick_result :=
  dm2_tasklet_ungated { d with curr_state := r }

/-- A report with the sliders at 80 and slot 0 of the first wheel's ring held. -/
def dm2_report_press : List Nat := [0, 1, 0, 0, 0, 80, 80, 80, 0, 0]

/-- A report with the sliders at 80 and all other controls at rest. -/
def dm2_report_rest : List Nat := [0, 0, 0, 0, 0, 80, 80, 80, 0, 0]

/-- The key masks stored in the wheels and button banks are those of the previous
report. -/
def dm2_synced (d : dm2) : Prop :=
  d.wheels_0.pressed = d.prev_state.getD 1 0 ∧
    d.wheels_0.midpressed = d.prev_state.getD 3 0 &&& DM2_MIDMASK ∧
    d.wheels_1.pressed = d.prev_state.getD 0 0 ∧
    d.wheels_1.midpressed = d.prev_state.getD 3 0 &&& DM2_MIDMASK ∧
    d.buttons_0.pressed = d.prev_state.getD 2 0 ∧
    d.buttons_1.pressed = d.prev_state.getD 3 0

/-- The slider rests at the raw value `v`: `v` is its position, lies within its
calibrated range, and the value computed for it is the stored one. -/
def dm2_slider_rest (slider : dm2slider) (v : Nat) : Prop :=
  slider.pos = v ∧ slider.min ≤ v ∧ (slider.max = 0 ∨ v ≤ slider.max) ∧
    dm2_slider_get slider = some (slider.midival : Int)

/-- The wheel is in jog mode with the jog value at the centre. -/
def dm2_wheel_idle (wheel : dm2wheel) : Prop :=
  wheel.pressed = 0 ∧ wheel.light = 0 ∧ wheel.midpressed = 0 ∧ wheel.jogmidival = 64

/-- The attached device after two ticks on `dm2_report_turn`, with the report
`dm2_report_rest` stored for the next tick. -/
def dm2_rest_example : dm2 :=
  { dm2_example_run.1 with curr_state := dm2_report_rest }


/-! ## Example wheels -/

/-- The first wheel of the attached device with slot 0 held. -/
def dm2_wheel_held_example : dm2wheel :=
  (dm2_wheel_update dm2_probe.dm2.wheels_0 0x01 0).1

/-- The example wheel with slot 0 held and the wheel turned by `d = 4`. -/
def dm2_wheel_used_example : dm2wheel :=
  ((dm2_wheel_turn (dm2_wheel_update dm2_wheel_toggle_example 0x01 0).1 0xfc).getD
    (dm2wheel_zero, [])).1

/-! ## Outbound byte stream -/

/-- A sequence of `dm2_midi_send` calls: the final codec state and the bytes of the
buffers handed to `snd_rawmidi_receive`, concatenated in order. -/
def dm2_midi_sends (m : dm2midi) : List midi_call → dm2midi × List Nat
  | [] => (m, [])
  | e :: es =>
    ((dm2_midi_sends (dm2_midi_send m e.cmd e.param e.value).1 es).1,
      (dm2_midi_send m e.cmd e.param e.value).2.foldr (fun b bs => b ++ bs) [] ++
        (dm2_midi_sends (dm2_midi_send m e.cmd e.param e.value).1 es).2)

/-- The status byte `midimsg[0]` that `dm2_midi_send` computes for the command
`cmd`: `cmd + chan` in `u8`. -/
def dm2_midi_status (m : dm2midi) (cmd : Nat) : Nat := (cmd % 256 + m.chan) % 256

/-- The state of a standard MIDI running-status decoder on the consumer side: the
running status (0 when there is none) and the first data byte of a message that
is not yet complete. -/
structure std_midi_decoder where
  rstatus : Nat
  arg1 : Option Nat
deriving DecidableEq, Repr

/-- The number of data bytes of a MIDI channel message: one for Program Change
(0xC0..0xCF) and Channel Pressure (0xD0..0xDF), two for the other channel
messages. -/
def std_midi_data_len (status : Nat) : Nat :=
  if 0xc0 ≤ status ∧ status < 0xe0 then 1 else 2

/-- One byte through a standard MIDI running-status decoder (this is the receiver
described by the MIDI standard, not code of the driver): a real-time byte
(0xF8..0xFF) changes nothing, a system-common byte (0xF0..0xF7) cancels the
running status, a channel status byte (0x80..0xEF) becomes the running status, and
a data byte is dropped without running status and otherwise completes a channel
message once the data bytes of the running status are there.  The result is the new
state and the channel messages (status, data bytes) completed by the byte. -/
def std_midi_decode_byte (s : std_midi_decoder) (b : Nat) :
    std_midi_decoder × List (Nat × List Nat) :=
  if 0xf8 ≤ b then (s, [])
  else if 0xf0 ≤ b then (⟨0, none⟩, [])
  else if 0x80 ≤ b then (⟨b, none⟩, [])
  else if s.rstatus = 0 then (s, [])
  else if std_midi_data_len s.rstatus = 1 then (s, [(s.rstatus, [b])])
  else
    match s.arg1 with
    | none => ({ s with arg1 := some b }, [])
    | some a => ({ s with arg1 := none }, [(s.rstatus, [a, b])])

/-- The standard decoder run over a byte sequence from the state `s`: the final
state and the channel messages, in order. -/
def std_midi_decode_run (s : std_midi_decoder) :
    List Nat → std_midi_decoder × List (Nat × List Nat)
  | [] => (s, [])
  | b :: bs =>
    ((std_midi_decode_run (std_midi_decode_byte s b).1 bs).1,
      (std_midi_decode_byte s b).2 ++ (std_midi_decode_run (std_midi_decode_byte s b).1 bs).2)

/-- The channel messages a standard running-status decoder recovers from a byte
sequence, starting without running status. -/
def std_midi_decode (bytes : List Nat) : List (Nat × List Nat) :=
  (std_midi_decode_run ⟨0, none⟩ bytes).2

/-- The message (status, [param, value]) that the call `e` of `dm2_midi_send` stands
for. -/
def dm2_midi_message (m : dm2midi) (e : midi_call) : Nat × List Nat :=
  (dm2_midi_status m e.cmd, [e.param, e.value])

/-- The status byte carries two data bytes: a channel message other than Program
Change and Channel Pressure. -/
def two_data_status (s : Nat) : Prop :=
  (0x80 ≤ s ∧ s < 0xc0) ∨ (0xe0 ≤ s ∧ s < 0xf0)

/-- The codec of the attached device once the input stream is opened. -/
def dm2_midi_open_example : dm2midi := (dm2_midi_input_open dm2_probe).dm2midi

/-- Two Note-Ons and a Control-Change. -/
def dm2_midi_events_example : List midi_call :=
  [⟨0x90, 60, 127⟩, ⟨0x90, 61, 127⟩, ⟨0xb0, 1, 63⟩]

/-! ## Example states for the LED merge and the repeated report -/

/-- The attached device after the Note-Ons 64 and 66 with velocity 127 and 65 and 67
with velocity 0 (external overlay of the first LED half: mask 0x0F, light 0x05),
with the seven ring keys and the mid button of the first wheel held (wheel light
0xFF): the state in which `dm2_tasklet` reaches `dm2_leds_send`. -/
def dm2_leds_example : dm2 :=
  { (dm2_midi_output_trigger dm2_probe [0x90, 64, 127, 65, 0, 66, 127, 67, 0]).dm2 with
    wheels_0 := (dm2_wheel_update dm2_probe.dm2.wheels_0 0xf7 0x02).1 }

/-- A report with the sliders at 80 and key 0 of the top button bank held. -/
def dm2_report_button : List Nat := [0, 0, 1, 0, 0, 80, 80, 80, 0, 0]

/-- The result of the first tick of the attached device on `dm2_report_button`. -/
def dm2_tick_button_example : tick_result :=
  (dm2_tick dm2_probe.dm2 dm2_report_button).getD ⟨dm2_probe.dm2, [], none⟩

/-! ## Facts about bytes -/

set_option maxRecDepth 100000 in
/-- A byte with the high bit set has a high nibble between 0x80 and 0xf0. -/
theorem status_byte_nibble : ∀ B < 256, 128 ≤ B →
    B &&& 0x80 ≠ 0 ∧
    (B &&& 0xf0 = 0x80 ∨ B &&& 0xf0 = 0x90 ∨ B &&& 0xf0 = 0xa0 ∨ B &&& 0xf0 = 0xb0 ∨
     B &&& 0xf0 = 0xc0 ∨ B &&& 0xf0 = 0xd0 ∨ B &&& 0xf0 = 0xe0 ∨ B &&& 0xf0 = 0xf0) := by
  decide

set_option maxRecDepth 100000 in
/-- A data byte has the high bit clear. -/
theorem data_byte_high_bit : ∀ p < 128, p &&& 0x80 = 0 := by
  decide

/-! ## The outbound encoder -/

/-- C1: with a consumer attached, `dm2_midi_send(cmd, param, value)` computes
`status = (cmd + chan) mod 256`, delivers `[param, value]` when `status` equals
`out_rstatus` and `[status, param, value]` otherwise, and leaves `out_rstatus = status`;
with `chan = 0` and `out_rstatus` different from 0x90, `send(0x90,60,127)` followed by
`send(0x90,61,127)` delivers `[0x90,60,127]` and then `[61,127]`. -/
theorem dm2_midi_send_running_status (m : dm2midi) (cmd param value : Nat)
    (hin : m.input = true) (hc : cmd < 256) (hp : param < 256) (hv : value < 256) :
    dm2_midi_send m cmd param value =
        ({ m with out_rstatus := (cmd + m.chan) % 256 },
         [if (cmd + m.chan) % 256 = m.out_rstatus then [param, value]
          else [(cmd + m.chan) % 256, param, value]]) ∧
      (m.chan = 0 → m.out_rstatus ≠ 0x90 →
        (dm2_midi_send m 0x90 60 127).2 = [[0x90, 60, 127]] ∧
        (dm2_midi_send (dm2_midi_send m 0x90 60 127).1 0x90 61 127).2 = [[61, 127]]) := by
  constructor
  · simp [dm2_midi_send, hin, Nat.mod_eq_of_lt hc, Nat.mod_eq_of_lt hp, Nat.mod_eq_of_lt hv]
  · intro h0 hne
    have hne2 : ¬ (144 = m.out_rstatus) := fun h => hne h.symm
    simp [dm2_midi_send, hin, h0, hne2]

/-- Witness of C1: a device on channel 0 whose last status was a Control-Change. -/
theorem dm2_midi_send_running_status_witness :
    dm2_midi_send ⟨true, 0, 0xb0, 0, 0⟩ 0x90 60 127 =
        ({ (⟨true, 0, 0xb0, 0, 0⟩ : dm2midi) with out_rstatus := (0x90 + 0) % 256 },
         [if (0x90 + 0) % 256 = 0xb0 then [60, 127] else [(0x90 + 0) % 256, 60, 127]]) ∧
      ((0 : Nat) = 0 → (0xb0 : Nat) ≠ 0x90 →
        (dm2_midi_send ⟨true, 0, 0xb0, 0, 0⟩ 0x90 60 127).2 = [[0x90, 60, 127]] ∧
        (dm2_midi_send (dm2_midi_send ⟨true, 0, 0xb0, 0, 0⟩ 0x90 60 127).1 0x90 61 127).2 =
          [[61, 127]]) :=
  dm2_midi_send_running_status ⟨true, 0, 0xb0, 0, 0⟩ 0x90 60 127 rfl (by decide) (by decide)
    (by decide)

/-! ## The inbound decoder -/

/-- What `dm2_midi_process` does with a status byte other than 0xFF. -/
theorem dm2_midi_process_status_byte (dev : usb_dm2) (B : Nat) (hlo : 128 ≤ B) (hhi : B < 255) :
    (accepted_status dev.dm2midi.chan B →
        dm2_midi_process dev B =
          { dev with dm2midi := { dev.dm2midi with in_rstatus := B, in_arg1 := 0 } }) ∧
      (¬ accepted_status dev.dm2midi.chan B →
        dm2_midi_process dev B =
          { dev with dm2midi := { dev.dm2midi with in_rstatus := 0, in_arg1 := 0 } }) ∧
      ((dm2_midi_process dev B).dm2midi.in_rstatus = B ↔ accepted_status dev.dm2midi.chan B) ∧
      (dm2_midi_process dev B).dm2midi.in_arg1 = 0 ∧
      (dm2_midi_process dev B).dm2 = dev.dm2 ∧
      (dm2_midi_process dev B).dm2midi.out_rstatus = dev.dm2midi.out_rstatus := by
  have hB := status_byte_nibble B (by omega) hlo
  have hff : B ≠ 255 := by omega
  have hpos : B ≠ 0 := by omega
  obtain ⟨hbit, hnib⟩ := hB
  by_cases hacc : accepted_status dev.dm2midi.chan B
  · have hch : ¬ (dev.dm2midi.chan ≠ 0 ∧ B &&& 0x0f ≠ dev.dm2midi.chan) := by
      rcases hacc.2 with h | h
      · simp [h]
      · simp [h]
    have hcmd : ¬ (B &&& 0xf0 < 0x80 ∨ B &&& 0xf0 > 0xc0 ∨ B &&& 0xf0 = 0xa0) := by
      rcases hacc.1 with h | h | h | h <;> simp [h]
    have hres : dm2_midi_process dev B =
        { dev with dm2midi := { dev.dm2midi with in_rstatus := B, in_arg1 := 0 } } := by
      unfold dm2_midi_process
      simp only [hff, hbit, hch, hcmd, if_false, if_true, ne_eq, not_false_eq_true]
    refine ⟨fun _ => hres, fun h => absurd hacc h, ?_, ?_, ?_, ?_⟩
    · rw [hres]; simp [hacc]
    · rw [hres]
    · rw [hres]
    · rw [hres]
  · have hres : dm2_midi_process dev B =
        { dev with dm2midi := { dev.dm2midi with in_rstatus := 0, in_arg1 := 0 } } := by
      unfold dm2_midi_process
      simp only [hff, hbit, if_false, if_true, ne_eq, not_false_eq_true]
      by_cases hch : dev.dm2midi.chan ≠ 0 ∧ B &&& 0x0f ≠ dev.dm2midi.chan
      · simp only [ne_eq] at hch
        simp only [hch, and_self, not_false_eq_true, if_true, clear_in]
      · have hch2 : dev.dm2midi.chan = 0 ∨ B &&& 0x0f = dev.dm2midi.chan := by
          by_contra hc
          push_neg at hc
          exact hch ⟨hc.1, hc.2⟩
        have hcmd : B &&& 0xf0 < 0x80 ∨ B &&& 0xf0 > 0xc0 ∨ B &&& 0xf0 = 0xa0 := by
          by_contra hc
          apply hacc
          refine ⟨?_, hch2⟩
          rcases hnib with h | h | h | h | h | h | h | h <;> simp [h] at hc ⊢
        simp only [ne_eq] at hch
        simp only [hch, hcmd, if_false, if_true, clear_in]
    refine ⟨fun h => absurd h hacc, fun _ => hres, ?_, ?_, ?_, ?_⟩
    · rw [hres]
      simp only [hacc, iff_false]
      exact fun h => hpos h.symm
    · rw [hres]
    · rw [hres]
    · rw [hres]

/-- C3: for a byte `B` with the high bit set and `B != 0xFF`, `dm2_midi_process`
sets `in_rstatus = B` and `in_arg1 = 0` exactly when the high nibble of `B` is
0x80, 0x90, 0xB0 or 0xC0 and the channel filter is off or matches; otherwise both
are cleared to 0.  In both cases the sliders, wheels, buttons and LEDs are unchanged
and no preset is activated. -/
theorem dm2_midi_process_status (dev : usb_dm2) (B : Nat) (hlo : 128 ≤ B) (hhi : B < 255) :
    (accepted_status dev.dm2midi.chan B →
        dm2_midi_process dev B =
          { dev with dm2midi := { dev.dm2midi with in_rstatus := B, in_arg1 := 0 } }) ∧
      (¬ accepted_status dev.dm2midi.chan B →
        dm2_midi_process dev B =
          { dev with dm2midi := { dev.dm2midi with in_rstatus := 0, in_arg1 := 0 } }) ∧
      ((dm2_midi_process dev B).dm2midi.in_rstatus = B ↔ accepted_status dev.dm2midi.chan B) ∧
      (dm2_midi_process dev B).dm2midi.in_arg1 = 0 ∧
      (dm2_midi_process dev B).dm2 = dev.dm2 ∧
      (dm2_midi_process dev B).dm2midi.out_rstatus = dev.dm2midi.out_rstatus :=
  dm2_midi_process_status_byte dev B hlo hhi

/-- Witness of C3: the Note-On status 0x93 received by the freshly attached device. -/
theorem dm2_midi_process_status_witness :
    (accepted_status dm2_probe.dm2midi.chan 0x93 →
        dm2_midi_process dm2_probe 0x93 =
          { dm2_probe with
            dm2midi := { dm2_probe.dm2midi with in_rstatus := 0x93, in_arg1 := 0 } }) ∧
      (¬ accepted_status dm2_probe.dm2midi.chan 0x93 →
        dm2_midi_process dm2_probe 0x93 =
          { dm2_probe with
            dm2midi := { dm2_probe.dm2midi with in_rstatus := 0, in_arg1 := 0 } }) ∧
      ((dm2_midi_process dm2_probe 0x93).dm2midi.in_rstatus = 0x93 ↔
        accepted_status dm2_probe.dm2midi.chan 0x93) ∧
      (dm2_midi_process dm2_probe 0x93).dm2midi.in_arg1 = 0 ∧
      (dm2_midi_process dm2_probe 0x93).dm2 = dm2_probe.dm2 ∧
      (dm2_midi_process dm2_probe 0x93).dm2midi.out_rstatus = dm2_probe.dm2midi.out_rstatus :=
  dm2_midi_process_status dm2_probe 0x93 (by decide) (by decide)

/-- C4: for every prior state, the byte 0xFF sets `in_rstatus`, `in_arg1` and
`out_rstatus` to 0 and re-initialises the device state from preset 0 by
`dm2_internal_init`; no pending Note, Control-Change or Program-Change is dispatched
(the LED layers are the freshly initialised ones). -/
theorem dm2_midi_process_reset (dev : usb_dm2) :
    dm2_midi_process dev 0xff =
      { dm2midi := { dev.dm2midi with in_rstatus := 0, in_arg1 := 0, out_rstatus := 0 }
        dm2 := dm2_internal_init dev.dm2 dm2_params_0 } ∧
    (dm2_midi_process dev 0xff).dm2.leds_0 =
      dm2_leds_init dev.dm2.leds_0 dm2_params_0.led0notes dm2_params_0.led0idle ∧
    (dm2_midi_process dev 0xff).dm2.leds_1 =
      dm2_leds_init dev.dm2.leds_1 dm2_params_0.led1notes dm2_params_0.led1idle := by
  refine ⟨?_, ?_, ?_⟩ <;> simp [dm2_midi_process, dm2_params_at, dm2_params_table, dm2_internal_init]

/-- A data byte received while a two-argument command is running and no first
argument is pending is stored as the first argument; nothing is dispatched. -/
theorem dm2_midi_process_first_arg (dev : usb_dm2) (a : Nat) (ha : a < 128)
    (hcmd : dev.dm2midi.in_rstatus &&& 0xf0 ≠ 0) (hpc : dev.dm2midi.in_rstatus &&& 0xf0 ≠ 0xc0)
    (harg : dev.dm2midi.in_arg1 = 0) :
    dm2_midi_process dev a = { dev with dm2midi := { dev.dm2midi with in_arg1 := a } } := by
  have hff : a ≠ 255 := by omega
  have hbit := data_byte_high_bit a ha
  unfold dm2_midi_process
  simp [hff, hbit, hcmd, hpc, harg]

/-- A data byte received while a two-argument command is running and a first
argument is pending completes the command: the LED layers are updated with the
pending note and the velocity (zero for a Note-Off). -/
theorem dm2_midi_process_second_arg (dev : usb_dm2) (b : Nat) (hb : b < 128)
    (hcmd : dev.dm2midi.in_rstatus &&& 0xf0 = 0x80 ∨ dev.dm2midi.in_rstatus &&& 0xf0 = 0x90 ∨
      dev.dm2midi.in_rstatus &&& 0xf0 = 0xb0)
    (harg : dev.dm2midi.in_arg1 ≠ 0) :
    dm2_midi_process dev b =
      { dm2midi := { dev.dm2midi with in_arg1 := 0 }
        dm2 := { dev.dm2 with
          leds_0 := dm2_leds_update dev.dm2.leds_0 dev.dm2midi.in_arg1
            (if dev.dm2midi.in_rstatus &&& 0xf0 = 0x80 then 0 else b)
          leds_1 := dm2_leds_update dev.dm2.leds_1 dev.dm2midi.in_arg1
            (if dev.dm2midi.in_rstatus &&& 0xf0 = 0x80 then 0 else b) } } := by
  have hff : b ≠ 255 := by omega
  have hbit := data_byte_high_bit b hb
  unfold dm2_midi_process
  rcases hcmd with h | h | h <;> simp [hff, hbit, h, harg]

/-- The part of C2 that the code satisfies: for an accepted status byte `S` with
high nibble 0x80, 0x90 or 0xB0, a first data byte `a` in 1..127 and a second data
byte `b` in 0..127, nothing is dispatched after `S` or `a`, and after `b` both LED
layers are updated once with `(a, b)`, or `(a, 0)` for a Note-Off. -/
theorem dm2_midi_process_note_dispatch (dev : usb_dm2) (S a b : Nat)
    (hlo : 128 ≤ S) (hhi : S < 255) (hacc : accepted_status dev.dm2midi.chan S)
    (hnib : S &&& 0xf0 = 0x80 ∨ S &&& 0xf0 = 0x90 ∨ S &&& 0xf0 = 0xb0)
    (ha0 : 0 < a) (ha : a < 128) (hb : b < 128) :
    (dm2_midi_process dev S).dm2 = dev.dm2 ∧
      (dm2_midi_process (dm2_midi_process dev S) a).dm2 = dev.dm2 ∧
      (dm2_midi_process (dm2_midi_process (dm2_midi_process dev S) a) b).dm2 =
        { dev.dm2 with
          leds_0 := dm2_leds_update dev.dm2.leds_0 a (if S &&& 0xf0 = 0x80 then 0 else b)
          leds_1 := dm2_leds_update dev.dm2.leds_1 a (if S &&& 0xf0 = 0x80 then 0 else b) } := by
  have h1 := (dm2_midi_process_status_byte dev S hlo hhi).1 hacc
  have hne0 : S &&& 0xf0 ≠ 0 := by rcases hnib with h | h | h <;> simp [h]
  have hnec : S &&& 0xf0 ≠ 0xc0 := by rcases hnib with h | h | h <;> simp [h]
  have h2 := dm2_midi_process_first_arg (dm2_midi_process dev S) a ha
    (by rw [h1]; exact hne0) (by rw [h1]; exact hnec) (by rw [h1])
  have h3 := dm2_midi_process_second_arg (dm2_midi_process (dm2_midi_process dev S) a) b hb
    (by rw [h2, h1]; exact hnib) (by rw [h2]; simp; omega)
  refine ⟨by rw [h1], by rw [h2, h1], ?_⟩
  rw [h3, h2, h1]

/-- C2 at the failing input: the bytes 0x90, 0x00, 0x7f (Note-On, note 0,
velocity 127) fed to the freshly attached device dispatch nothing: the device state
is unchanged although `dm2_leds_update(0, 127)` would change it, 0x7f is kept as a
pending first argument, and a following data byte 0x40 is dispatched as the velocity
of note 0x7f. -/
theorem dm2_midi_process_note_zero :
    (dm2_midi_output_trigger dm2_probe [0x90, 0x00, 0x7f]).dm2 = dm2_probe.dm2 ∧
      (dm2_midi_output_trigger dm2_probe [0x90, 0x00, 0x7f]).dm2midi.in_arg1 = 0x7f ∧
      dm2_leds_update dm2_probe.dm2.leds_0 0x00 0x7f ≠ dm2_probe.dm2.leds_0 ∧
      (dm2_midi_output_trigger dm2_probe [0x90, 0x00, 0x7f, 0x40]).dm2.leds_0 =
        dm2_leds_update dm2_probe.dm2.leds_0 0x7f 0x40 := by
  decide

/-- While a Program Change is the running status no first argument is pending:
the property is kept by every byte that `dm2_midi_process` receives. -/
theorem dm2_midi_process_pc_no_pending (dev : usb_dm2) (byte : Nat)
    (h : dev.dm2midi.in_rstatus &&& 0xf0 = 0xc0 → dev.dm2midi.in_arg1 = 0) :
    (dm2_midi_process dev byte).dm2midi.in_rstatus &&& 0xf0 = 0xc0 →
      (dm2_midi_process dev byte).dm2midi.in_arg1 = 0 := by
  unfold dm2_midi_process
  simp only []
  split_ifs <;> simp_all [clear_in]

/-- While a Program Change is the running status no first argument is pending,
in every state that the decoder reaches from a cleared parse state. -/
theorem dm2_midi_output_trigger_pc_no_pending (bytes : List Nat) (dev : usb_dm2)
    (h : dev.dm2midi.in_rstatus &&& 0xf0 = 0xc0 → dev.dm2midi.in_arg1 = 0) :
    (dm2_midi_output_trigger dev bytes).dm2midi.in_rstatus &&& 0xf0 = 0xc0 →
      (dm2_midi_output_trigger dev bytes).dm2midi.in_arg1 = 0 := by
  induction bytes generalizing dev with
  | nil => exact h
  | cons b bs ih =>
    have hstep := dm2_midi_process_pc_no_pending dev b h
    simpa [dm2_midi_output_trigger] using ih (dm2_midi_process dev b) hstep

/-- C5: in every state that the decoder reaches from a cleared parse state in
which the running status is a Program Change, a single data byte `p` in 0..127
completes the command: for `p < 3` the device state is re-initialised from preset
`p`, for `p >= 3` the device state is unchanged; in both cases `in_arg1` is 0
afterwards and `in_rstatus` (with the rest of the codec state) is retained. -/
theorem dm2_midi_process_program_change (dev0 : usb_dm2) (bytes : List Nat) (p : Nat)
    (h0 : dev0.dm2midi.in_rstatus = 0 ∧ dev0.dm2midi.in_arg1 = 0)
    (hpc : (dm2_midi_output_trigger dev0 bytes).dm2midi.in_rstatus &&& 0xf0 = 0xc0)
    (hp : p < 128) :
    (p < DM2_NUMPRESETS →
        (dm2_midi_process (dm2_midi_output_trigger dev0 bytes) p).dm2 =
          dm2_internal_init (dm2_midi_output_trigger dev0 bytes).dm2 (dm2_params_at p)) ∧
      (DM2_NUMPRESETS ≤ p →
        (dm2_midi_process (dm2_midi_output_trigger dev0 bytes) p).dm2 =
          (dm2_midi_output_trigger dev0 bytes).dm2) ∧
      (dm2_midi_process (dm2_midi_output_trigger dev0 bytes) p).dm2midi.in_arg1 = 0 ∧
      (dm2_midi_process (dm2_midi_output_trigger dev0 bytes) p).dm2midi =
        (dm2_midi_output_trigger dev0 bytes).dm2midi := by
  have harg := dm2_midi_output_trigger_pc_no_pending bytes dev0 (fun _ => h0.2) hpc
  generalize dm2_midi_output_trigger dev0 bytes = dev at hpc harg ⊢
  have hff : p ≠ 255 := by omega
  have hbit := data_byte_high_bit p hp
  have hm : { dev.dm2midi with in_arg1 := 0 } = dev.dm2midi := by
    cases hd : dev.dm2midi
    rw [hd] at harg
    simp only [dm2midi.mk.injEq, true_and, and_true]
    exact harg.symm
  by_cases hlt : p < DM2_NUMPRESETS
  · have hres : dm2_midi_process dev p =
        { dm2midi := dev.dm2midi, dm2 := dm2_internal_init dev.dm2 (dm2_params_at p) } := by
      unfold dm2_midi_process
      simp [hff, hbit, hpc, harg, hlt, hm]
    refine ⟨fun _ => by rw [hres], fun h => absurd hlt (by omega), ?_, ?_⟩
    · rw [hres]; exact harg
    · rw [hres]
  · have hres : dm2_midi_process dev p = dev := by
      unfold dm2_midi_process
      simp [hff, hbit, hpc, harg, hlt, hm]
    refine ⟨fun h => absurd h hlt, fun _ => by rw [hres], ?_, ?_⟩
    · rw [hres]; exact harg
    · rw [hres]

/-- Witness of C5: the freshly attached device receives the Program-Change status
0xC0 and then the program number 2. -/
theorem dm2_midi_process_program_change_witness :
    (2 < DM2_NUMPRESETS →
        (dm2_midi_process (dm2_midi_output_trigger dm2_probe [0xc0]) 2).dm2 =
          dm2_internal_init (dm2_midi_output_trigger dm2_probe [0xc0]).dm2 (dm2_params_at 2)) ∧
      (DM2_NUMPRESETS ≤ 2 →
        (dm2_midi_process (dm2_midi_output_trigger dm2_probe [0xc0]) 2).dm2 =
          (dm2_midi_output_trigger dm2_probe [0xc0]).dm2) ∧
      (dm2_midi_process (dm2_midi_output_trigger dm2_probe [0xc0]) 2).dm2midi.in_arg1 = 0 ∧
      (dm2_midi_process (dm2_midi_output_trigger dm2_probe [0xc0]) 2).dm2midi =
        (dm2_midi_output_trigger dm2_probe [0xc0]).dm2midi :=
  dm2_midi_process_program_change dm2_probe [0xc0] 2 (by decide) (by decide) (by decide)

/-- The controls that `dm2_internal_init` leaves depend on the prior state only
through the `mid` fields of the three sliders. -/
theorem dm2_internal_init_controls (d : dm2) (params : dm2_params) :
    dm2_controls (dm2_internal_init d params) =
      dm2_controls (dm2_internal_init
        (dm2_zero_mid d.sliders_0.mid d.sliders_1.mid d.sliders_2.mid) params) := by
  simp [dm2_controls, dm2_internal_init, dm2_zero_mid, dm2_slider_init, dm2_slider_reset,
    dm2_wheel_init, dm2_buttons_init, dm2_leds_init, dm2slider_zero]

/-- The Program Change 0xC0 0x01 received without channel filter re-initialises
the device state with program 1. -/
theorem dm2_midi_process_program_1 (dev : usb_dm2) (hchan : dev.dm2midi.chan = 0) :
    (dm2_midi_output_trigger dev [0xc0, 0x01]).dm2 = dm2_internal_init dev.dm2 dm2_params_1 := by
  have h1 := (dm2_midi_process_status_byte dev 0xc0 (by decide) (by decide)).1
    ⟨by decide, Or.inl hchan⟩
  have e1 : (0xc0 &&& 0xf0 : Nat) = 0xc0 := by decide
  have e2 : (1 &&& 0x80 : Nat) = 0 := by decide
  simp only [dm2_midi_output_trigger, List.foldl_cons, List.foldl_nil, h1]
  simp [dm2_midi_process, e1, e2, DM2_NUMPRESETS, dm2_params_at, dm2_params_table]

/-- C6 as stated fails: after 0xC0 0x01 the controls of a device whose sliders
were calibrated at 100 differ from those of a fresh all-zero device initialised with
preset 1 (the sliders stay centred at 100 instead of 80). -/
theorem dm2_program_change_not_fresh :
    ¬ (∀ dev : usb_dm2, dev.dm2midi.chan = 0 →
        dm2_controls (dm2_midi_output_trigger dev [0xc0, 0x01]).dm2 =
          dm2_controls (dm2_internal_init dm2_zero dm2_params_1)) := by
  intro h
  have h1 := congrArg Prod.fst (h dm2_calibrated_100 rfl)
  revert h1
  decide

/-- C6 amended: without channel filter, after 0xC0 0x01 the wheel rings, button
banks and LED layers equal those of a fresh all-zero device initialised with preset
1, and the complete controls equal those obtained by initialising with preset 1 a
device that is all-zero except for the `mid` fields of the three sliders, taken from
the prior state; when these are 0 or 80 the controls equal those of the fresh
device. -/
theorem dm2_program_change_controls (dev : usb_dm2) (hchan : dev.dm2midi.chan = 0) :
    dm2_controls (dm2_midi_output_trigger dev [0xc0, 0x01]).dm2 =
        dm2_controls (dm2_internal_init
          (dm2_zero_mid dev.dm2.sliders_0.mid dev.dm2.sliders_1.mid dev.dm2.sliders_2.mid)
          dm2_params_1) ∧
      (dm2_midi_output_trigger dev [0xc0, 0x01]).dm2.wheels_0 =
        (dm2_internal_init dm2_zero dm2_params_1).wheels_0 ∧
      (dm2_midi_output_trigger dev [0xc0, 0x01]).dm2.wheels_1 =
        (dm2_internal_init dm2_zero dm2_params_1).wheels_1 ∧
      (dm2_midi_output_trigger dev [0xc0, 0x01]).dm2.buttons_0 =
        (dm2_internal_init dm2_zero dm2_params_1).buttons_0 ∧
      (dm2_midi_output_trigger dev [0xc0, 0x01]).dm2.buttons_1 =
        (dm2_internal_init dm2_zero dm2_params_1).buttons_1 ∧
      (dm2_midi_output_trigger dev [0xc0, 0x01]).dm2.leds_0 =
        (dm2_internal_init dm2_zero dm2_params_1).leds_0 ∧
      (dm2_midi_output_trigger dev [0xc0, 0x01]).dm2.leds_1 =
        (dm2_internal_init dm2_zero dm2_params_1).leds_1 ∧
      ((dev.dm2.sliders_0.mid = 0 ∨ dev.dm2.sliders_0.mid = 80) →
        (dev.dm2.sliders_1.mid = 0 ∨ dev.dm2.sliders_1.mid = 80) →
        (dev.dm2.sliders_2.mid = 0 ∨ dev.dm2.sliders_2.mid = 80) →
        dm2_controls (dm2_midi_output_trigger dev [0xc0, 0x01]).dm2 =
          dm2_controls (dm2_internal_init dm2_zero dm2_params_1)) := by
  rw [dm2_midi_process_program_1 dev hchan]
  refine ⟨dm2_internal_init_controls _ _, rfl, rfl, rfl, rfl, rfl, rfl, ?_⟩
  intro h0 h1 h2
  rw [dm2_internal_init_controls]
  rcases h0 with h0 | h0 <;> rcases h1 with h1 | h1 <;> rcases h2 with h2 | h2 <;>
    rw [h0, h1, h2] <;> rfl

/-- Witness of C6 amended: the device calibrated at 100 has no channel filter. -/
theorem dm2_program_change_controls_witness :
    dm2_controls (dm2_midi_output_trigger dm2_calibrated_100 [0xc0, 0x01]).dm2 =
        dm2_controls (dm2_internal_init (dm2_zero_mid 100 100 100) dm2_params_1) ∧
      (dm2_midi_output_trigger dm2_calibrated_100 [0xc0, 0x01]).dm2.sliders_0 =
        ⟨100, 94, 106, 100, 5, 4, 64⟩ :=
  ⟨(dm2_program_change_controls dm2_calibrated_100 rfl).1, by decide⟩

/-! ## Sliders -/

/-- C7 at the failing input: the X slider of the attached device (dead zone 5,
bounded) is reset at the reference value 250; the upper bound 250 + 5 + 1 wraps to
0, and the update with the raw value 250 computes 66, not 64, and sends the
Control-Change (0xB0, 4, 66).  The unbounded fader reset at the reference value 3
computes 127 at 3. -/
theorem dm2_slider_update_reference_250 :
    dm2_slider_reset dm2_probe.dm2.sliders_0 250 = ⟨250, 244, 0, 250, 5, 4, 64⟩ ∧
      dm2_slider_update (dm2_slider_reset dm2_probe.dm2.sliders_0 250) 250 =
        some (⟨250, 244, 0, 250, 5, 4, 66⟩, [⟨0xb0, 4, 66⟩]) ∧
      dm2_slider_update (dm2_slider_reset dm2_probe.dm2.sliders_2 3) 3 =
        some (⟨3, 3, 0, 3, 5, 2, 127⟩, [⟨0xb0, 2, 127⟩]) := by
  decide

/-- C8 at the failing input: the X slider of the attached device (dead zone 5) is
reset at the reference value 5, so that `min` wraps to 255; the update with the raw
value 0 lowers `min` to 0 and takes the branch `pos < mid`, whose divisor
`mid - dead - min` is 5 - 5 - 0 = 0: `dm2_slider_get` divides by zero. -/
theorem dm2_slider_update_divides_by_zero :
    dm2_slider_reset dm2_probe.dm2.sliders_0 5 = ⟨5, 255, 11, 5, 5, 4, 64⟩ ∧
      dm2_slider_set (dm2_slider_reset dm2_probe.dm2.sliders_0 5) 0 =
        ⟨0, 0, 11, 5, 5, 4, 64⟩ ∧
      dm2_slider_get (dm2_slider_set (dm2_slider_reset dm2_probe.dm2.sliders_0 5) 0) = none ∧
      dm2_slider_update (dm2_slider_reset dm2_probe.dm2.sliders_0 5) 0 = none := by
  decide

/-- The explicit result of `dm2_slider_set`. -/
theorem dm2_slider_set_eq (slider : dm2slider) (value : Nat) :
    dm2_slider_set slider value =
      { pos := value
        min := if value < slider.min then value else slider.min
        max := if slider.max ≠ 0 ∧ value > slider.max then value else slider.max
        mid := slider.mid
        dead := slider.dead
        param := slider.param
        midival := slider.midival } := by
  obtain ⟨pos, mn, mx, mid, dead, param, midival⟩ := slider
  simp only [dm2_slider_set]
  split_ifs <;> simp_all

/-- After `dm2_slider_set` the invariant `min <= pos` holds, whatever the state before. -/
theorem dm2_slider_set_min_le_pos (slider : dm2slider) (value : Nat) :
    (dm2_slider_set slider value).min ≤ (dm2_slider_set slider value).pos := by
  rw [dm2_slider_set_eq]
  simp only []
  split_ifs <;> omega

/-- A second `dm2_slider_set` with the same value changes nothing. -/
theorem dm2_slider_set_idem (slider : dm2slider) (value : Nat) :
    dm2_slider_set (dm2_slider_set slider value) value = dm2_slider_set slider value := by
  rw [dm2_slider_set_eq (dm2_slider_set slider value), dm2_slider_set_eq slider]
  simp only [dm2slider.mk.injEq, true_and, and_true]
  constructor
  · split_ifs <;> omega
  · split_ifs <;> omega

/-- The value clamped by `clamp127` lies in 0..127. -/
theorem clamp127_range (value : Int) : 0 ≤ clamp127 value ∧ clamp127 value ≤ 127 := by
  unfold clamp127
  simp only []
  split_ifs <;> omega

/-- Every value that `dm2_slider_get` computes lies in 0..127. -/
theorem dm2_slider_get_range (slider : dm2slider) (v : Int)
    (h : dm2_slider_get slider = some v) : 0 ≤ v ∧ v ≤ 127 := by
  unfold dm2_slider_get at h
  simp only [] at h
  split_ifs at h <;> simp only [Option.some.injEq] at h <;>
    (rw [← h]; exact clamp127_range _)

/-- The value of `dm2_slider_get` does not depend on `midival`. -/
theorem dm2_slider_get_midival (slider : dm2slider) (m : Nat) :
    dm2_slider_get { slider with midival := m } = dm2_slider_get slider := rfl

/-- The result of `dm2_slider_set` does not depend on the prior `midival`. -/
theorem dm2_slider_set_midival (slider : dm2slider) (m value : Nat) :
    dm2_slider_set { slider with midival := m } value =
      { dm2_slider_set slider value with midival := m } := by
  rw [dm2_slider_set_eq, dm2_slider_set_eq]

/-- The explicit result of `dm2_slider_update` when `dm2_slider_get` computes `v`. -/
theorem dm2_slider_update_eq (slider : dm2slider) (curr : Nat) (v : Int)
    (hv : dm2_slider_get (dm2_slider_set slider curr) = some v) :
    dm2_slider_update slider curr =
      some ({ dm2_slider_set slider curr with midival := v.toNat },
        if v = slider.midival then [] else [⟨0xb0, slider.param, v.toNat⟩]) := by
  have hr := dm2_slider_get_range _ v hv
  have hu : u8 v = v.toNat := by unfold u8; congr 1; omega
  have hm : (dm2_slider_set slider curr).midival = slider.midival := by rw [dm2_slider_set_eq]
  have hp : (dm2_slider_set slider curr).param = slider.param := by rw [dm2_slider_set_eq]
  unfold dm2_slider_update
  simp only [hv]
  by_cases h : v = slider.midival
  · have h1 : v = (dm2_slider_set slider curr).midival := by rw [hm]; exact h
    have h2 : (dm2_slider_set slider curr).midival = v.toNat := by omega
    rw [if_pos h, if_pos h1, ← h2]
  · have h1 : ¬ v = (dm2_slider_set slider curr).midival := by rw [hm]; exact h
    rw [if_neg h, if_neg h1, hu, hp]

/-- C10: when `dm2_slider_get` computes the value `v` for the new raw position,
`dm2_slider_update` hands exactly the one call (0xB0, param, v) to `dm2_midi_send` if
`v` differs from `midival` and none otherwise, and afterwards `midival = v`; a second
`dm2_slider_update` with the same raw value emits nothing and leaves the slider
unchanged. -/
theorem dm2_slider_update_emits (slider : dm2slider) (curr : Nat) (v : Int)
    (hv : dm2_slider_get (dm2_slider_set slider curr) = some v) :
    ∃ s1 : dm2slider,
      dm2_slider_update slider curr =
          some (s1, if v = slider.midival then [] else [⟨0xb0, slider.param, v.toNat⟩]) ∧
        (s1.midival : Int) = v ∧
        s1 = { dm2_slider_set slider curr with midival := v.toNat } ∧
        dm2_slider_update s1 curr = some (s1, []) := by
  have hr := dm2_slider_get_range _ v hv
  refine ⟨{ dm2_slider_set slider curr with midival := v.toNat },
    dm2_slider_update_eq slider curr v hv, ?_, rfl, ?_⟩
  · simp only []; omega
  · have hset : dm2_slider_set { dm2_slider_set slider curr with midival := v.toNat } curr =
        { dm2_slider_set slider curr with midival := v.toNat } := by
      rw [dm2_slider_set_midival, dm2_slider_set_idem]
    have hget : dm2_slider_get
        (dm2_slider_set { dm2_slider_set slider curr with midival := v.toNat } curr) = some v := by
      rw [hset, dm2_slider_get_midival]; exact hv
    rw [dm2_slider_update_eq _ curr v hget, hset]
    have hmid : v = ((v.toNat : Nat) : Int) := by omega
    simp only []
    rw [if_pos hmid]

/-- Witness of C10: the X slider of the attached device, centred at 80, moved to 120. -/
theorem dm2_slider_update_emits_witness :
    ∃ s1 : dm2slider,
      dm2_slider_update dm2_probe.dm2.sliders_0 120 =
          some (s1, if (127 : Int) = dm2_probe.dm2.sliders_0.midival then []
            else [⟨0xb0, dm2_probe.dm2.sliders_0.param, (127 : Int).toNat⟩]) ∧
        (s1.midival : Int) = 127 ∧
        s1 = { dm2_slider_set dm2_probe.dm2.sliders_0 120 with midival := (127 : Int).toNat } ∧
        dm2_slider_update s1 120 = some (s1, []) :=
  dm2_slider_update_emits dm2_probe.dm2.sliders_0 120 127 (by decide)

/-- After every `dm2_slider_update` that computes a value the invariant `min <= pos` holds. -/
theorem dm2_slider_update_min_le_pos (slider : dm2slider) (curr : Nat) (v : Int)
    (hv : dm2_slider_get (dm2_slider_set slider curr) = some v) :
    ∃ s1 evs, dm2_slider_update slider curr = some (s1, evs) ∧ s1.min ≤ s1.pos :=
  ⟨_, _, dm2_slider_update_eq slider curr v hv, dm2_slider_set_min_le_pos slider curr⟩

/-- After `dm2_slider_reset(v)` with a reference byte above the dead zone the
invariant `min <= pos` holds. -/
theorem dm2_slider_reset_min_le_pos (slider : dm2slider) (v : Nat)
    (hv : slider.dead < v) (hv8 : v < 256) :
    (dm2_slider_reset slider v).min ≤ (dm2_slider_reset slider v).pos := by
  simp only [dm2_slider_reset, u8]
  omega

/-- C9 at the failing input: the X slider of the attached device (dead zone 5)
reset at the reference value 0 has `min = 250` and `pos = 0`: the subtraction
`value - dead - 1` wraps and `min <= pos` does not hold after the reset. -/
theorem dm2_slider_reset_min_above_pos :
    (dm2_slider_reset dm2_probe.dm2.sliders_0 0).min = 250 ∧
      (dm2_slider_reset dm2_probe.dm2.sliders_0 0).pos = 0 ∧
      ¬ ((dm2_slider_reset dm2_probe.dm2.sliders_0 0).min ≤
        (dm2_slider_reset dm2_probe.dm2.sliders_0 0).pos) := by
  decide

/-! ## Facts about bit masks -/

/-- The mask `1 << i` meets `x` exactly when bit `i` of `x` is set. -/
theorem two_pow_and_ne_zero (i x : Nat) : 2 ^ i &&& x ≠ 0 ↔ x.testBit i = true := by
  rw [Nat.two_pow_and]
  cases h : x.testBit i
  · simp
  · simp

/-- The mask `1 << i` misses `x` exactly when bit `i` of `x` is clear. -/
theorem two_pow_and_eq_zero (i x : Nat) : 2 ^ i &&& x = 0 ↔ x.testBit i = false := by
  rw [Nat.two_pow_and]
  cases h : x.testBit i
  · simp
  · simp

/-- The mask `1 << i` meets `x` exactly when bit `i` of `x` is set. -/
theorem and_two_pow_ne_zero (i x : Nat) : x &&& 2 ^ i ≠ 0 ↔ x.testBit i = true := by
  rw [Nat.and_comm]; exact two_pow_and_ne_zero i x

/-- The mask `1 << i` misses `x` exactly when bit `i` of `x` is clear. -/
theorem and_two_pow_eq_zero (i x : Nat) : x &&& 2 ^ i = 0 ↔ x.testBit i = false := by
  rw [Nat.and_comm]; exact two_pow_and_eq_zero i x

/-- The bits of the complemented byte. -/
theorem testBit_not8 (x k : Nat) : (not8 x).testBit k = (decide (k < 8) && !x.testBit k) := by
  have h : x % 256 < 2 ^ 8 := by omega
  have e : not8 x = 2 ^ 8 - (x % 256 + 1) := by unfold not8; omega
  rw [e, Nat.testBit_two_pow_sub_succ h k]
  have e2 : x % 256 = x % 2 ^ 8 := by norm_num
  rw [e2, Nat.testBit_mod_two_pow]
  by_cases hk : k < 8 <;> simp [hk]

/-- A loop over the eight slots in which only slot `i` emits. -/
theorem flatMap_range8_single {α : Type} (f : Nat → List α) (i : Nat) (hi : i < 8)
    (h : ∀ j, j < 8 → j ≠ i → f j = []) : (List.range 8).flatMap f = f i := by
  have e : List.range 8 = [0, 1, 2, 3, 4, 5, 6, 7] := by decide
  rw [e]
  interval_cases i <;>
    simp [List.flatMap, h 0, h 1, h 2, h 3, h 4, h 5, h 6, h 7]

/-- A loop over the eight slots in which no slot emits. -/
theorem flatMap_range8_nil {α : Type} (f : Nat → List α)
    (h : ∀ j, j < 8 → f j = []) : (List.range 8).flatMap f = [] := by
  have e : List.range 8 = [0, 1, 2, 3, 4, 5, 6, 7] := by decide
  rw [e]
  simp [List.flatMap, h 0, h 1, h 2, h 3, h 4, h 5, h 6, h 7]

/-- Two loops over the eight slots that agree slot by slot. -/
theorem flatMap_range8_congr {α : Type} (f g : Nat → List α)
    (h : ∀ j, j < 8 → f j = g j) : (List.range 8).flatMap f = (List.range 8).flatMap g := by
  have e : List.range 8 = [0, 1, 2, 3, 4, 5, 6, 7] := by decide
  rw [e]
  simp [List.flatMap, h 0, h 1, h 2, h 3, h 4, h 5, h 6, h 7]

/-! ## Facts about single-slot masks -/

/-- The complement of the zero byte. -/
theorem not8_zero : not8 0 = 255 := by decide

/-- A slot mask is not zero. -/
theorem two_pow_ne_zero (i : Nat) : 2 ^ i ≠ 0 := by positivity

/-- The mask of a slot whose bit is set in `x`. -/
theorem two_pow_and_of_testBit (i x : Nat) (h : x.testBit i = true) : 2 ^ i &&& x = 2 ^ i := by
  rw [Nat.two_pow_and, h]; simp

/-- The mask of a slot whose bit is clear in `x`. -/
theorem two_pow_and_of_not_testBit (i x : Nat) (h : x.testBit i = false) : 2 ^ i &&& x = 0 := by
  rw [Nat.two_pow_and, h]; simp

/-- The mask of a slot whose bit is set in `x`. -/
theorem and_two_pow_of_testBit (i x : Nat) (h : x.testBit i = true) : x &&& 2 ^ i = 2 ^ i := by
  rw [Nat.and_comm]; exact two_pow_and_of_testBit i x h

/-- The mask of a slot whose bit is clear in `x`. -/
theorem and_two_pow_of_not_testBit (i x : Nat) (h : x.testBit i = false) : x &&& 2 ^ i = 0 := by
  rw [Nat.and_comm]; exact two_pow_and_of_not_testBit i x h

/-- The bits of the byte 255. -/
theorem testBit_255 (k : Nat) : Nat.testBit 255 k = decide (k < 8) := by
  have h := testBit_not8 0 k
  rw [not8_zero] at h
  rw [h]; simp

/-- The bits of the clear mask. -/
theorem testBit_clr (k : Nat) : DM2_CLR.testBit k = decide (k = 3) := by
  have e : DM2_CLR = 2 ^ 3 := by decide
  rw [e, Nat.testBit_two_pow]
  by_cases h : k = 3
  · simp [h]
  · have h2 : ¬ 3 = k := fun hc => h hc.symm
    simp [h, h2]

/-- The presses when slot `i` is pressed on top of the mask `p`. -/
theorem press_presses (p i : Nat) (hp : p.testBit i = false) (hi : i < 8) :
    not8 p &&& (p ||| 2 ^ i) = 2 ^ i := by
  apply Nat.eq_of_testBit_eq
  intro k
  simp only [Nat.testBit_and, Nat.testBit_or, testBit_not8, Nat.testBit_two_pow]
  by_cases hk : i = k
  · subst hk; simp [hp, hi]
  · cases p.testBit k <;> simp [hk]

/-- No release when slot `i` is pressed on top of the mask `p`. -/
theorem press_releases (p i : Nat) : p &&& not8 (p ||| 2 ^ i) = 0 := by
  apply Nat.eq_of_testBit_eq
  intro k
  simp only [Nat.testBit_and, Nat.testBit_or, testBit_not8, Nat.zero_testBit]
  cases p.testBit k <;> simp

/-- No press when slot `i` is released down to the mask `p`. -/
theorem release_presses (p i : Nat) : not8 (p ||| 2 ^ i) &&& p = 0 := by
  rw [Nat.and_comm]; exact press_releases p i

/-- The releases when slot `i` is released down to the mask `p`. -/
theorem release_releases (p i : Nat) (hp : p.testBit i = false) (hi : i < 8) :
    (p ||| 2 ^ i) &&& not8 p = 2 ^ i := by
  rw [Nat.and_comm]; exact press_presses p i hp hi

/-- Pressing slot `i` changes the mask. -/
theorem press_ne (p i : Nat) (hp : p.testBit i = false) : p ||| 2 ^ i ≠ p := by
  intro h
  have := congrArg (fun x => Nat.testBit x i) h
  simp [Nat.testBit_or, hp] at this

/-- A slot other than bit 3 does not touch the clear bit. -/
theorem two_pow_and_clr (i : Nat) (h3 : i ≠ 3) : 2 ^ i &&& DM2_CLR = 0 := by
  apply two_pow_and_of_not_testBit
  rw [testBit_clr]; simp [h3]

/-- A slot other than bit 3 survives the removal of the clear bit. -/
theorem two_pow_and_not_clr (i : Nat) (hi : i < 8) (h3 : i ≠ 3) :
    2 ^ i &&& not8 DM2_CLR = 2 ^ i := by
  apply two_pow_and_of_testBit
  rw [testBit_not8, testBit_clr]; simp [h3, hi]

/-- Pressing or releasing a slot other than bit 3 leaves the clear bit as it was. -/
theorem xor_press_and_clr (p i : Nat) (h3 : i ≠ 3) : (p ^^^ (p ||| 2 ^ i)) &&& DM2_CLR = 0 := by
  apply Nat.eq_of_testBit_eq
  intro k
  simp only [Nat.testBit_and, Nat.testBit_xor, Nat.testBit_or, testBit_clr,
    Nat.testBit_two_pow, Nat.zero_testBit]
  by_cases hk : k = 3
  · subst hk
    have : ¬ i = 3 := h3
    cases p.testBit 3 <;> simp [this]
  · simp [hk]

/-- Pressing or releasing a slot other than bit 3 leaves the clear bit as it was. -/
theorem xor_release_and_clr (p i : Nat) (h3 : i ≠ 3) :
    ((p ||| 2 ^ i) ^^^ p) &&& DM2_CLR = 0 := by
  rw [Nat.xor_comm]; exact xor_press_and_clr p i h3

/-- A byte and its complement do not meet. -/
theorem and_not8_self (x : Nat) : x &&& not8 x = 0 := by
  apply Nat.eq_of_testBit_eq
  intro k
  simp only [Nat.testBit_and, testBit_not8, Nat.zero_testBit]
  cases x.testBit k <;> simp

/-- A byte and its complement do not meet. -/
theorem not8_and_self (x : Nat) : not8 x &&& x = 0 := by
  rw [Nat.and_comm]; exact and_not8_self x

/-- The macro `DM2_MID` of a byte without the mid bit. -/
theorem DM2_MID_zero : DM2_MID 0 = 0 := by decide

/-- A loop over the eight slots whose body changes the state only for slot `i`. -/
theorem foldl_range8_single {σ : Type} (f : σ → Nat → σ) (i : Nat) (hi : i < 8)
    (h : ∀ s j, j < 8 → j ≠ i → f s j = s) (s : σ) : (List.range 8).foldl f s = f s i := by
  have e : List.range 8 = [0, 1, 2, 3, 4, 5, 6, 7] := by decide
  rw [e]
  interval_cases i <;>
    simp [List.foldl, h _ 0, h _ 1, h _ 2, h _ 3, h _ 4, h _ 5, h _ 6, h _ 7]

/-- A slot mask lies within the byte. -/
theorem and_255_two_pow (i : Nat) (hi : i < 8) : 255 &&& 2 ^ i = 2 ^ i := by
  apply and_two_pow_of_testBit
  rw [testBit_255]; simp [hi]

/-- A slot mask lies within the byte. -/
theorem two_pow_and_255 (i : Nat) (hi : i < 8) : 2 ^ i &&& 255 = 2 ^ i := by
  rw [Nat.and_comm]; exact and_255_two_pow i hi

/-- A slot mask and its complement do not meet. -/
theorem two_pow_and_not8_two_pow (i : Nat) : 2 ^ i &&& not8 (2 ^ i) = 0 := and_not8_self _

/-- The complement of a mask in which bit `i` is clear contains the slot mask. -/
theorem two_pow_and_not8_of_not_testBit (i x : Nat) (hi : i < 8) (h : x.testBit i = false) :
    2 ^ i &&& not8 x = 2 ^ i := by
  apply two_pow_and_of_testBit
  rw [testBit_not8, h]; simp [hi]

/-- The complement of a mask in which bit `i` is set misses the slot mask. -/
theorem two_pow_and_not8_of_testBit (i x : Nat) (h : x.testBit i = true) :
    2 ^ i &&& not8 x = 0 := by
  apply two_pow_and_of_not_testBit
  rw [testBit_not8, h]; simp

/-- A slot other than bit 3 and the clear bit. -/
theorem zero_xor_two_pow_and_clr (i : Nat) (h3 : i ≠ 3) : (0 ^^^ 2 ^ i) &&& DM2_CLR = 0 := by
  rw [Nat.zero_xor]; exact two_pow_and_clr i h3

/-- A slot other than bit 3 and the clear bit. -/
theorem two_pow_xor_zero_and_clr (i : Nat) (h3 : i ≠ 3) : (2 ^ i ^^^ 0) &&& DM2_CLR = 0 := by
  rw [Nat.xor_zero]; exact two_pow_and_clr i h3

/-- Zero is not a slot mask. -/
theorem zero_eq_two_pow (i : Nat) : (0 = 2 ^ i) = False := eq_false (two_pow_ne_zero i).symm

/-- A slot mask is not zero. -/
theorem two_pow_eq_zero (i : Nat) : (2 ^ i = 0) = False := eq_false (two_pow_ne_zero i)

/-- The complement of the zero byte contains every byte. -/
theorem not8_zero_and_zero : not8 0 &&& 0 = 0 := by decide

/-! ## Button banks -/

/-- C16: for every previous mask and every new mask, `dm2_buttons_update` emits,
in ascending slot order and only for slots whose note is non-zero, Note-On(note,
127) for each bit that went 0 to 1 and Note-On(note, 0) for each bit that went 1 to
0, nothing for unchanged bits or slots with note 0, and leaves `pressed` equal to
the new mask. -/
theorem dm2_buttons_update_spec (buttons : dm2buttons) (curr : Nat) :
    dm2_buttons_update buttons curr =
      ({ buttons with pressed := curr },
        (List.range 8).flatMap (fun i =>
          if buttons.notes.getD i 0 = 0 then []
          else if buttons.pressed.testBit i = false ∧ curr.testBit i = true then
            [⟨0x90, buttons.notes.getD i 0, 0x7f⟩]
          else if buttons.pressed.testBit i = true ∧ curr.testBit i = false then
            [⟨0x90, buttons.notes.getD i 0, 0x00⟩]
          else [])) := by
  unfold dm2_buttons_update
  by_cases h : buttons.pressed = curr
  · rw [if_pos h]
    have hnil : (List.range 8).flatMap (fun i =>
          if buttons.notes.getD i 0 = 0 then ([] : List midi_call)
          else if buttons.pressed.testBit i = false ∧ curr.testBit i = true then
            [⟨0x90, buttons.notes.getD i 0, 0x7f⟩]
          else if buttons.pressed.testBit i = true ∧ curr.testBit i = false then
            [⟨0x90, buttons.notes.getD i 0, 0x00⟩]
          else []) = [] := by
      apply flatMap_range8_nil
      intro j _
      rw [h]
      cases curr.testBit j <;> simp
    rw [hnil, ← h]
  · rw [if_neg h]
    simp only []
    congr 1
    apply flatMap_range8_congr
    intro j hj
    unfold dm2_buttons_update_note
    simp only [two_pow_and_ne_zero, Nat.testBit_and, testBit_not8, hj, decide_True,
      Bool.true_and]
    cases buttons.pressed.testBit j <;> cases curr.testBit j <;> simp

/-! ## LED layers -/

/-- What one pass of the loop of `dm2_leds_update` changes. -/
theorem dm2_leds_update_step_spec (note vel : Nat) (leds : dm2leds) (j : Nat) :
    (∀ i, (dm2_leds_update_step note vel leds j).mask.testBit i =
        (if i = j ∧ leds.notes.getD j 0 = note then true else leds.mask.testBit i)) ∧
      (∀ i, i < 8 → (dm2_leds_update_step note vel leds j).light.testBit i =
        (if i = j ∧ leds.notes.getD j 0 = note then decide (vel ≠ 0)
          else leds.light.testBit i)) ∧
      (dm2_leds_update_step note vel leds j).notes = leds.notes ∧
      (dm2_leds_update_step note vel leds j).idlenote = leds.idlenote ∧
      (dm2_leds_update_step note vel leds j).idlelight = leds.idlelight ∧
      (dm2_leds_update_step note vel leds j).timeout = leds.timeout ∧
      (dm2_leds_update_step note vel leds j).curr = leds.curr ∧
      (dm2_leds_update_step note vel leds j).wheel = leds.wheel ∧
      (dm2_leds_update_step note vel leds j).wheeltimeout = leds.wheeltimeout ∧
      (dm2_leds_update_step note vel leds j).idletimeout = leds.idletimeout := by
  have hstep : dm2_leds_update_step note vel leds j =
      if leds.notes.getD j 0 = note then
        { leds with
          light := if vel ≠ 0 then leds.light ||| 2 ^ j else leds.light &&& not8 (2 ^ j)
          mask := leds.mask ||| 2 ^ j }
      else leds := by
    unfold dm2_leds_update_step
    by_cases hn : leds.notes.getD j 0 = note <;> by_cases hv : vel = 0 <;>
      simp only [hn, hv, ne_eq, not_true_eq_false, not_false_eq_true, if_true, if_false]
  rw [hstep]
  by_cases hn : leds.notes.getD j 0 = note
  · rw [if_pos hn]
    refine ⟨?_, ?_, rfl, rfl, rfl, rfl, rfl, rfl, rfl, rfl⟩
    · intro i
      simp only [Nat.testBit_or, Nat.testBit_two_pow, hn, and_true]
      by_cases hij : i = j
      · simp [hij]
      · have hji : ¬ j = i := fun h => hij h.symm
        simp [hij, hji]
    · intro i hi
      simp only [hn, and_true]
      by_cases hv : vel = 0
      · simp only [hv, ne_eq, not_true_eq_false, if_false, decide_False, Nat.testBit_and,
          testBit_not8, Nat.testBit_two_pow]
        by_cases hij : i = j
        · simp [hij]
        · have hji : ¬ j = i := fun h => hij h.symm
          simp [hij, hji, hi]
      · simp only [hv, ne_eq, not_false_eq_true, if_true, decide_True, Nat.testBit_or,
          Nat.testBit_two_pow]
        by_cases hij : i = j
        · simp [hij]
        · have hji : ¬ j = i := fun h => hij h.symm
          simp [hij, hji]
  · rw [if_neg hn]
    refine ⟨?_, ?_, rfl, rfl, rfl, rfl, rfl, rfl, rfl, rfl⟩
    · intro i
      simp only [hn, and_false, if_false]
    · intro i _
      simp only [hn, and_false, if_false]

/-- What the loop of `dm2_leds_update` changes, over any list of slots. -/
theorem dm2_leds_update_loop_spec (note vel : Nat) (js : List Nat) (hjs : ∀ j ∈ js, j < 8) :
    ∀ leds : dm2leds,
      (∀ i, (js.foldl (dm2_leds_update_step note vel) leds).mask.testBit i =
          (if i ∈ js ∧ leds.notes.getD i 0 = note then true else leds.mask.testBit i)) ∧
        (∀ i, i < 8 → (js.foldl (dm2_leds_update_step note vel) leds).light.testBit i =
          (if i ∈ js ∧ leds.notes.getD i 0 = note then decide (vel ≠ 0)
            else leds.light.testBit i)) ∧
        (js.foldl (dm2_leds_update_step note vel) leds).notes = leds.notes ∧
        (js.foldl (dm2_leds_update_step note vel) leds).idlenote = leds.idlenote ∧
        (js.foldl (dm2_leds_update_step note vel) leds).idlelight = leds.idlelight ∧
        (js.foldl (dm2_leds_update_step note vel) leds).timeout = leds.timeout ∧
        (js.foldl (dm2_leds_update_step note vel) leds).curr = leds.curr ∧
        (js.foldl (dm2_leds_update_step note vel) leds).wheel = leds.wheel ∧
        (js.foldl (dm2_leds_update_step note vel) leds).wheeltimeout = leds.wheeltimeout ∧
        (js.foldl (dm2_leds_update_step note vel) leds).idletimeout = leds.idletimeout := by
  induction js with
  | nil => intro leds; simp
  | cons j js ih =>
    intro leds
    have hs := dm2_leds_update_step_spec note vel leds j
    have hi := ih (fun k hk => hjs k (List.mem_cons_of_mem j hk))
      (dm2_leds_update_step note vel leds j)
    obtain ⟨s1, s2, s3, s4, s5, s6, s7, s8, s9, s10⟩ := hs
    obtain ⟨i1, i2, i3, i4, i5, i6, i7, i8, i9, i10⟩ := hi
    simp only [List.foldl_cons]
    refine ⟨?_, ?_, i3.trans s3, i4.trans s4, i5.trans s5, i6.trans s6, i7.trans s7,
      i8.trans s8, i9.trans s9, i10.trans s10⟩
    · intro i
      rw [i1 i, s3, s1 i]
      simp only [List.mem_cons]
      by_cases hij : i = j
      · subst hij
        by_cases hn : leds.notes.getD i 0 = note <;> by_cases hm : i ∈ js <;>
          simp only [hn, hm, and_true, and_false, or_true, or_false, true_or, false_or,
            if_true, if_false, true_and, false_and]
      · by_cases hn : leds.notes.getD i 0 = note <;> by_cases hm : i ∈ js <;>
          simp only [hn, hij, hm, and_true, and_false, or_true, or_false, true_or, false_or,
            if_true, if_false, true_and, false_and]
    · intro i hi8
      rw [i2 i hi8, s3, s2 i hi8]
      simp only [List.mem_cons]
      by_cases hij : i = j
      · subst hij
        by_cases hn : leds.notes.getD i 0 = note <;> by_cases hm : i ∈ js <;>
          simp only [hn, hm, and_true, and_false, or_true, or_false, true_or, false_or,
            if_true, if_false, true_and, false_and]
      · by_cases hn : leds.notes.getD i 0 = note <;> by_cases hm : i ∈ js <;>
          simp only [hn, hij, hm, and_true, and_false, or_true, or_false, true_or, false_or,
            if_true, if_false, true_and, false_and]

/-- The function `dm2_leds_update` in terms of its loop. -/
theorem dm2_leds_update_eq (leds : dm2leds) (note vel : Nat) :
    dm2_leds_update leds note vel =
      if note = leds.idlenote then
        { (List.range 8).foldl (dm2_leds_update_step note vel)
            { leds with timeout := DM2_LEDTIMEOUT } with
          idlelight := if vel ≠ 0 then 0x80 else 0 }
      else (List.range 8).foldl (dm2_leds_update_step note vel)
        { leds with timeout := DM2_LEDTIMEOUT } := by
  have l4 := (dm2_leds_update_loop_spec note vel (List.range 8)
    (fun j hj => List.mem_range.mp hj) { leds with timeout := DM2_LEDTIMEOUT }).2.2.2.1
  unfold dm2_leds_update
  simp only []
  rw [l4]

/-- C18: `dm2_leds_update(note, vel)` changes the LED layer as follows and
nothing else: for every slot `i` with `notes[i] = note`, mask bit `i` becomes 1 and
light bit `i` becomes 1 if `vel != 0` and 0 if `vel = 0`; for every other slot the
two bits are unchanged; `idlelight` becomes 0x80 (`vel != 0`) or 0 (`vel = 0`) if
`note = idlenote` and is unchanged otherwise; `timeout` is set to 100; `curr`,
`wheel`, `wheeltimeout`, `idletimeout` and the note tables are unchanged. -/
theorem dm2_leds_update_frame (leds : dm2leds) (note vel : Nat) :
    (∀ i, i < 8 → (dm2_leds_update leds note vel).mask.testBit i =
        (if leds.notes.getD i 0 = note then true else leds.mask.testBit i)) ∧
      (∀ i, i < 8 → (dm2_leds_update leds note vel).light.testBit i =
        (if leds.notes.getD i 0 = note then decide (vel ≠ 0) else leds.light.testBit i)) ∧
      (dm2_leds_update leds note vel).idlelight =
        (if note = leds.idlenote then (if vel ≠ 0 then 0x80 else 0) else leds.idlelight) ∧
      (dm2_leds_update leds note vel).timeout = 100 ∧
      (dm2_leds_update leds note vel).curr = leds.curr ∧
      (dm2_leds_update leds note vel).wheel = leds.wheel ∧
      (dm2_leds_update leds note vel).wheeltimeout = leds.wheeltimeout ∧
      (dm2_leds_update leds note vel).idletimeout = leds.idletimeout ∧
      (dm2_leds_update leds note vel).notes = leds.notes ∧
      (dm2_leds_update leds note vel).idlenote = leds.idlenote := by
  have hl := dm2_leds_update_loop_spec note vel (List.range 8)
    (fun j hj => List.mem_range.mp hj) { leds with timeout := DM2_LEDTIMEOUT }
  obtain ⟨l1, l2, l3, l4, l5, l6, l7, l8, l9, l10⟩ := hl
  have hdef := dm2_leds_update_eq leds note vel
  have m1 : ∀ i, i < 8 →
      ((List.range 8).foldl (dm2_leds_update_step note vel)
        { leds with timeout := DM2_LEDTIMEOUT }).mask.testBit i =
        (if leds.notes.getD i 0 = note then true else leds.mask.testBit i) := by
    intro i hi
    have := l1 i
    simpa only [List.mem_range, hi, true_and] using this
  have m2 : ∀ i, i < 8 →
      ((List.range 8).foldl (dm2_leds_update_step note vel)
        { leds with timeout := DM2_LEDTIMEOUT }).light.testBit i =
        (if leds.notes.getD i 0 = note then decide (vel ≠ 0) else leds.light.testBit i) := by
    intro i hi
    have := l2 i hi
    simpa only [List.mem_range, hi, true_and] using this
  clear l1 l2
  generalize (List.range 8).foldl (dm2_leds_update_step note vel)
    { leds with timeout := DM2_LEDTIMEOUT } = L at hdef m1 m2 l3 l4 l5 l6 l7 l8 l9 l10
  rw [hdef]
  by_cases hn : note = leds.idlenote
  · rw [if_pos hn, if_pos hn]
    refine ⟨?_, ?_, ?_, ?_, ?_, ?_, ?_, ?_, ?_, ?_⟩
    · exact m1
    · exact m2
    · rfl
    · exact l6
    · exact l7
    · exact l8
    · exact l9
    · exact l10
    · exact l3
    · exact l4
  · rw [if_neg hn, if_neg hn]
    refine ⟨?_, ?_, ?_, ?_, ?_, ?_, ?_, ?_, ?_, ?_⟩
    · exact m1
    · exact m2
    · exact l5
    · exact l6
    · exact l7
    · exact l8
    · exact l9
    · exact l10
    · exact l3
    · exact l4

/-- The byte that one pass of the loop of `dm2_leds_send` computes is the merged
output of the specification, and it becomes the `curr` byte of the half. -/
theorem dm2_leds_send_half_spec (wheel : dm2wheel) (leds : dm2leds)
    (h : 0 ≤ leds.wheeltimeout) :
    (dm2_leds_send_half wheel leds).2.2.1 = spec_led_output wheel leds ∧
      (dm2_leds_send_half wheel leds).2.1.curr = spec_led_output wheel leds ∧
      ((dm2_leds_send_half wheel leds).2.2.2 = true ↔
        spec_led_output wheel leds ≠ leds.curr) := by
  by_cases hr : wheel.light ≠ leds.wheel ∨ wheel.showlight ≠ 0 ∨ wheel.light ≠ 0
  · have hb : (decide (wheel.light ≠ leds.wheel) || decide (wheel.showlight ≠ 0) ||
        decide (wheel.light ≠ 0)) = true := by
      simpa [Bool.or_eq_true, or_assoc] using hr
    have hs : spec_led_output wheel leds =
        (wheel.light &&& not8 leds.mask) ||| (leds.light &&& leds.mask) := by
      unfold spec_led_output
      simp only [hr, if_true]
      rfl
    have h100 : (DM2_LEDTIMEOUT ≠ 0) = True := by simp [DM2_LEDTIMEOUT]
    unfold dm2_leds_send_half
    simp only [hb, if_true, h100]
    rw [← hs]
    by_cases hc : leds.curr = spec_led_output wheel leds
    · rw [if_pos hc]
      exact ⟨rfl, hc, by simp [hc]⟩
    · rw [if_neg hc]
      exact ⟨rfl, rfl, by simp [Ne, eq_comm, hc]⟩
  · have hb : (decide (wheel.light ≠ leds.wheel) || decide (wheel.showlight ≠ 0) ||
        decide (wheel.light ≠ 0)) = false := by
      simpa [Bool.or_eq_false_iff, not_or, and_assoc] using hr
    have hs : spec_led_output wheel leds =
        ((if leds.wheeltimeout ≠ 0 then leds.wheel else leds.idlelight) &&& not8 leds.mask) |||
          (leds.light &&& leds.mask) := by
      unfold spec_led_output
      simp only [hr, if_false]
      by_cases hz : leds.wheeltimeout = 0
      · simp [hz]
      · have hz2 : leds.wheeltimeout > 0 := by omega
        simp [hz, hz2]
    unfold dm2_leds_send_half
    simp only [hb, if_false, Bool.false_eq_true]
    rw [← hs]
    by_cases hc : leds.curr = spec_led_output wheel leds
    · rw [if_pos hc]
      exact ⟨rfl, hc, by simp [hc]⟩
    · rw [if_neg hc]
      exact ⟨rfl, rfl, by simp [Ne, eq_comm, hc]⟩

/-- C17: for each LED half `dm2_leds_send` computes
`output = (base AND NOT mask) OR (light AND mask)`, where `base` is the wheel layer
if `wheeltimeout > 0` after re-arming and the idle byte otherwise; with
`mask = 0x0F` and the wheel layer 0xFF shown, `output = (0xFF AND 0xF0) OR (light
AND 0x0F)`.  A device write is requested if and only if the output of at least one
half differs from that half's `curr` byte, and then both outputs are passed
together; afterwards each `curr` byte is the output. -/
theorem dm2_leds_send_merge (d : dm2) (h0 : 0 ≤ d.leds_0.wheeltimeout)
    (h1 : 0 ≤ d.leds_1.wheeltimeout) :
    (dm2_leds_send d).2 =
        (if spec_led_output d.wheels_0 d.leds_0 ≠ d.leds_0.curr ∨
            spec_led_output d.wheels_1 d.leds_1 ≠ d.leds_1.curr then
          some (spec_led_output d.wheels_0 d.leds_0, spec_led_output d.wheels_1 d.leds_1)
        else none) ∧
      (dm2_leds_send d).1.leds_0.curr = spec_led_output d.wheels_0 d.leds_0 ∧
      (dm2_leds_send d).1.leds_1.curr = spec_led_output d.wheels_1 d.leds_1 ∧
      (d.leds_0.mask = 0x0f → d.wheels_0.light = 0xff →
        spec_led_output d.wheels_0 d.leds_0 = (0xff &&& 0xf0) ||| (d.leds_0.light &&& 0x0f)) ∧
      (d.leds_1.mask = 0x0f → d.wheels_1.light = 0xff →
        spec_led_output d.wheels_1 d.leds_1 = (0xff &&& 0xf0) ||| (d.leds_1.light &&& 0x0f)) := by
  obtain ⟨a1, a2, a3⟩ := dm2_leds_send_half_spec d.wheels_0 d.leds_0 h0
  obtain ⟨b1, b2, b3⟩ := dm2_leds_send_half_spec d.wheels_1 d.leds_1 h1
  have hpart : ∀ (wheel : dm2wheel) (leds : dm2leds), leds.mask = 0x0f → wheel.light = 0xff →
      spec_led_output wheel leds = (0xff &&& 0xf0) ||| (leds.light &&& 0x0f) := by
    intro wheel leds hm hl
    have e : not8 0x0f = 0xf0 := by decide
    unfold spec_led_output
    simp [hm, hl, e]
  refine ⟨?_, a2, b2, hpart _ _, hpart _ _⟩
  unfold dm2_leds_send
  simp only []
  rw [a1, b1]
  generalize (dm2_leds_send_half d.wheels_0 d.leds_0).2.2.2 = c0 at a3 ⊢
  generalize (dm2_leds_send_half d.wheels_1 d.leds_1).2.2.2 = c1 at b3 ⊢
  cases c0 <;> cases c1 <;> simp_all

/-! ## Wheel turns -/

/-- A chunk lies in -64..63. -/
theorem dm2_turn_chunk_range (reldiff : Int) :
    -64 ≤ dm2_turn_chunk reldiff ∧ dm2_turn_chunk reldiff ≤ 63 := by
  unfold dm2_turn_chunk
  split_ifs <;> omega

/-- A chunk that does not use up `reldiff` is -64 or 63, and what is left is
smaller in absolute value. -/
theorem dm2_turn_chunk_rest (reldiff : Int) (h : reldiff - dm2_turn_chunk reldiff ≠ 0) :
    (dm2_turn_chunk reldiff = -64 ∨ dm2_turn_chunk reldiff = 63) ∧
      (reldiff - dm2_turn_chunk reldiff).natAbs < reldiff.natAbs := by
  unfold dm2_turn_chunk at h ⊢
  split_ifs at h ⊢ <;> omega

/-- The do-while loop of `dm2_wheel_turn` with enough fuel: it sends at least one
chunk, the chunks lie in -64..63, all but the last are -64 or 63, and they sum to
`reldiff`. -/
theorem dm2_turn_loop_spec (fuel : Nat) :
    ∀ reldiff : Int, reldiff ≠ 0 → reldiff.natAbs ≤ fuel →
      dm2_turn_loop fuel reldiff ≠ [] ∧
        (∀ c ∈ dm2_turn_loop fuel reldiff, -64 ≤ c ∧ c ≤ 63) ∧
        (∀ c ∈ (dm2_turn_loop fuel reldiff).dropLast, c = -64 ∨ c = 63) ∧
        (dm2_turn_loop fuel reldiff).sum = reldiff := by
  induction fuel with
  | zero =>
    intro reldiff h0 hf
    exact absurd (Int.natAbs_eq_zero.mp (Nat.le_zero.mp hf)) h0
  | succ n ih =>
    intro reldiff h0 hf
    unfold dm2_turn_loop
    simp only []
    by_cases hrest : reldiff - dm2_turn_chunk reldiff ≠ 0
    · rw [if_pos hrest]
      obtain ⟨hc, hlt⟩ := dm2_turn_chunk_rest reldiff hrest
      obtain ⟨i1, i2, i3, i4⟩ := ih (reldiff - dm2_turn_chunk reldiff) hrest (by omega)
      refine ⟨by simp, ?_, ?_, ?_⟩
      · intro c hcm
        rcases List.mem_cons.mp hcm with h | h
        · rw [h]; exact dm2_turn_chunk_range reldiff
        · exact i2 c h
      · intro c hcm
        rw [List.dropLast_cons_of_ne_nil i1] at hcm
        rcases List.mem_cons.mp hcm with h | h
        · rw [h]; exact hc
        · exact i3 c h
      · rw [List.sum_cons, i4]; omega
    · rw [if_neg hrest]
      refine ⟨by simp, ?_, ?_, ?_⟩
      · intro c hcm
        rw [List.mem_singleton.mp hcm]
        exact dm2_turn_chunk_range reldiff
      · intro c hcm
        simp at hcm
      · simp only [List.sum_cons, List.sum_nil, add_zero]
        omega

/-- The do-while loop of `dm2_wheel_turn` does not depend on the fuel once it is
at least `|reldiff|`. -/
theorem dm2_turn_loop_fuel (fuel : Nat) :
    ∀ (reldiff : Int) (more : Nat), reldiff ≠ 0 → reldiff.natAbs ≤ fuel → fuel ≤ more →
      dm2_turn_loop more reldiff = dm2_turn_loop fuel reldiff := by
  induction fuel with
  | zero =>
    intro reldiff more h0 hf _
    exact absurd (Int.natAbs_eq_zero.mp (Nat.le_zero.mp hf)) h0
  | succ n ih =>
    intro reldiff more h0 hf hm
    obtain ⟨m, rfl⟩ : ∃ m, more = m + 1 := ⟨more - 1, by omega⟩
    unfold dm2_turn_loop
    simp only []
    by_cases hrest : reldiff - dm2_turn_chunk reldiff ≠ 0
    · rw [if_pos hrest, if_pos hrest]
      obtain ⟨_, hlt⟩ := dm2_turn_chunk_rest reldiff hrest
      rw [ih (reldiff - dm2_turn_chunk reldiff) m hrest (by omega) (by omega)]
    · rw [if_neg hrest, if_neg hrest]

/-- The chunks sent for a non-zero turn. -/
theorem dm2_turn_chunks_spec (reldiff : Int) (h0 : reldiff ≠ 0) :
    dm2_turn_chunks reldiff ≠ [] ∧
      (∀ c ∈ dm2_turn_chunks reldiff, -64 ≤ c ∧ c ≤ 63) ∧
      (∀ c ∈ (dm2_turn_chunks reldiff).dropLast, c = -64 ∨ c = 63) ∧
      (dm2_turn_chunks reldiff).sum = reldiff :=
  dm2_turn_loop_spec reldiff.natAbs reldiff h0 (le_refl _)

set_option maxRecDepth 100000 in
/-- The sign bit of a byte. -/
theorem step_sign_bit : ∀ s < 256, (s &&& 0x80 ≠ 0 ↔ 128 ≤ s) := by
  decide

/-- The turn computed from the raw step byte is the negation of the byte read as
a signed 8-bit integer, and lies in -127..128. -/
theorem dm2_turn_diff_signed (step : Nat) (hs : step < 256) :
    dm2_turn_diff step = - (if step < 128 then (step : Int) else (step : Int) - 256) ∧
      -127 ≤ dm2_turn_diff step ∧ dm2_turn_diff step ≤ 128 := by
  have hb := step_sign_bit step hs
  unfold dm2_turn_diff
  by_cases h : 128 ≤ step
  · have h1 : step &&& 0x80 ≠ 0 := hb.mpr h
    have h2 : ¬ step < 128 := by omega
    rw [if_pos h1, if_neg h2]
    omega
  · have h1 : ¬ step &&& 0x80 ≠ 0 := fun hc => h (hb.mp hc)
    have h2 : step < 128 := by omega
    rw [if_neg h1, if_pos h2]
    omega

/-- The value byte sent for a chunk. -/
theorem u8_chunk (c : Int) (h : -64 ≤ c ∧ c ≤ 63) : u8 (c + 64) = (c + 64).toNat := by
  unfold u8
  congr 1
  omega

/-- The values sent for a list of chunks. -/
theorem map_u8_chunks (cs : List Int) (h : ∀ c ∈ cs, -64 ≤ c ∧ c ≤ 63) (p : Nat) :
    cs.map (fun trnc => (⟨0xb0, p, u8 (trnc + 64)⟩ : midi_call)) =
      cs.map (fun trnc => (⟨0xb0, p, (trnc + 64).toNat⟩ : midi_call)) := by
  apply List.map_congr_left
  intro c hc
  rw [u8_chunk c (h c hc)]

/-- The last chunk of a non-empty list of chunks lies in -64..63. -/
theorem getLastD_chunk_range (cs : List Int) (hne : cs ≠ [])
    (h : ∀ c ∈ cs, -64 ≤ c ∧ c ≤ 63) : -64 ≤ cs.getLastD 0 ∧ cs.getLastD 0 ≤ 63 := by
  have hl : cs.getLastD 0 = cs.getLast hne := by
    cases cs with
    | nil => exact absurd rfl hne
    | cons a as =>
      exact (List.getLastD_cons 0 a as).trans (List.getLast_eq_getLastD a as hne).symm
  rw [hl]
  exact h _ (List.getLast_mem hne)

/-- C11: for every raw step byte `s`, with `d` the negation of `s` read as a
signed 8-bit integer (so `d` is in -127..128) and `d != 0`: in jog mode
`dm2_wheel_turn` returns, having sent the Control-Changes (0xB0, jogparam, c + 64)
for a non-empty list of chunks `c` in -64..63, all but the last equal to -64 or 63,
that sum to `d`, and `jogmidival` is the last value sent.  The pass of the
parameter loop for an active relative slot with a parameter sends the same value
sequence on the slot's parameter and leaves `midivals[i]` at the last value. -/
theorem dm2_wheel_turn_jog (wheel : dm2wheel) (step : Nat) (hs : step < 256)
    (hjog : wheel.pressed = 0 ∧ wheel.light = 0 ∧ wheel.midpressed = 0)
    (hd : dm2_turn_diff step ≠ 0) :
    ∃ chunks : List Int,
      chunks ≠ [] ∧
      dm2_wheel_turn wheel step =
        some ({ wheel with jogmidival := (chunks.getLastD 0 + 64).toNat },
          chunks.map (fun c => ⟨0xb0, wheel.jogparam, (c + 64).toNat⟩)) ∧
      (∀ c ∈ chunks, -64 ≤ c ∧ c ≤ 63) ∧
      (∀ c ∈ chunks.dropLast, c = -64 ∨ c = 63) ∧
      chunks.sum = dm2_turn_diff step ∧
      dm2_turn_diff step = - (if step < 128 then (step : Int) else (step : Int) - 256) ∧
      -127 ≤ dm2_turn_diff step ∧ dm2_turn_diff step ≤ 128 ∧
      (∀ (params : Nat) (midiadd : Int) (st : dm2wheel × List midi_call) (i : Nat),
        params &&& 2 ^ i ≠ 0 → st.1.params.getD i 0 ≠ 0 → st.1.relparams &&& 2 ^ i ≠ 0 →
        dm2_wheel_turn_param params (dm2_turn_diff step) midiadd st i =
          ({ st.1 with midivals := st.1.midivals.set i (chunks.getLastD 0 + 64).toNat },
            st.2 ++ chunks.map (fun c => ⟨0xb0, st.1.params.getD i 0, (c + 64).toNat⟩))) := by
  obtain ⟨c1, c2, c3, c4⟩ := dm2_turn_chunks_spec (dm2_turn_diff step) hd
  obtain ⟨d1, d2, d3⟩ := dm2_turn_diff_signed step hs
  have hlast := u8_chunk _ (getLastD_chunk_range _ c1 c2)
  refine ⟨dm2_turn_chunks (dm2_turn_diff step), c1, ?_, c2, c3, c4, d1, d2, d3, ?_⟩
  · unfold dm2_wheel_turn
    simp only [hjog, and_self, if_true, hd, ne_eq, not_false_eq_true]
    rw [hlast, map_u8_chunks _ c2]
  · intro params midiadd st i hp hpar hrel
    unfold dm2_wheel_turn_param
    simp only [hp, hpar, hrel, hd, ne_eq, not_false_eq_true, if_true, if_false]
    rw [hlast, map_u8_chunks _ c2]

/-! ## Wheel rings: press and release of one slot -/

/-- The note loop emits nothing for a slot that is neither pressed nor released. -/
theorem dm2_wheel_update_note_other (wheel : dm2wheel) (releases flagson flagsoff j : Nat)
    (hr : releases.testBit j = false) (hon : flagson.testBit j = false)
    (hoff : flagsoff.testBit j = false) :
    dm2_wheel_update_note wheel releases flagson flagsoff j = [] := by
  have e1 : ¬ (2 ^ j &&& flagson ≠ 0) := by rw [two_pow_and_ne_zero, hon]; simp
  have e2 : ¬ (2 ^ j &&& flagsoff ≠ 0) := by rw [two_pow_and_ne_zero, hoff]; simp
  have e3 : 2 ^ j &&& releases = 0 := two_pow_and_of_not_testBit j releases hr
  unfold dm2_wheel_update_note
  simp only [e1, e2, e3, Nat.zero_and, ne_eq, not_true_eq_false, and_false, or_self, if_false,
    List.append_nil, ite_self]

/-- The note loop when only slot `i` is pressed or released: only slot `i` emits. -/
theorem dm2_wheel_update_note_single (wheel : dm2wheel) (releases flagson flagsoff i : Nat)
    (hi : i < 8) (hr : releases = 0 ∨ releases = 2 ^ i) (hon : flagson = 0 ∨ flagson = 2 ^ i)
    (hoff : flagsoff = 0 ∨ flagsoff = 2 ^ i) :
    (List.range 8).flatMap (dm2_wheel_update_note wheel releases flagson flagsoff) =
      dm2_wheel_update_note wheel releases flagson flagsoff i := by
  apply flatMap_range8_single _ i hi
  intro j _ hji
  have hij : ¬ i = j := fun h => hji h.symm
  apply dm2_wheel_update_note_other
  · rcases hr with h | h <;> simp [h, Nat.testBit_two_pow, hij]
  · rcases hon with h | h <;> simp [h, Nat.testBit_two_pow, hij]
  · rcases hoff with h | h <;> simp [h, Nat.testBit_two_pow, hij]

/-- A press of a slot (not bit 3) that has a parameter and does not toggle emits
nothing, marks the wheel as unused and records the press. -/
theorem dm2_wheel_update_press_notoggle (wheel : dm2wheel) (i currmid : Nat)
    (hi : i < 8) (h3 : i ≠ 3) (hp : wheel.pressed.testBit i = false)
    (hpar : wheel.params.getD i 0 ≠ 0) (hnt : wheel.notoggle.testBit i = true)
    (hmid : currmid &&& DM2_MIDMASK = wheel.midpressed) :
    ∃ light whenreleased : Nat,
      dm2_wheel_update wheel (wheel.pressed ||| 2 ^ i) currmid =
        ({ wheel with
            turnacc := 0
            whenreleased := whenreleased
            wheelused := 0
            light := light
            pressed := wheel.pressed ||| 2 ^ i }, []) := by
  have hne : (wheel.pressed = wheel.pressed ||| 2 ^ i) = False :=
    eq_false (fun h => press_ne _ _ hp h.symm)
  have hflag : 2 ^ i &&& (wheel.notoggle ||| not8 wheel.light) = 2 ^ i := by
    apply two_pow_and_of_testBit
    rw [Nat.testBit_or, hnt]; rfl
  have hevs : (List.range 8).flatMap
      (dm2_wheel_update_note { wheel with turnacc := 0 } 0 (2 ^ i) 0) = [] := by
    rw [dm2_wheel_update_note_single _ _ _ _ i hi (Or.inl rfl) (Or.inr rfl) (Or.inl rfl)]
    unfold dm2_wheel_update_note
    simp only [hpar, Nat.and_zero, Nat.zero_and, ne_eq, not_true_eq_false, and_false, or_self,
      if_false, ite_self]
  unfold dm2_wheel_update
  simp only [hmid, hne, false_and, if_false]
  simp only [press_presses _ _ hp hi, press_releases, Nat.zero_and, hflag, hevs, and_not8_self,
    two_pow_and_clr i h3, xor_press_and_clr _ i h3, two_pow_ne_zero, ne_eq,
    not_true_eq_false, not_false_eq_true, false_and, true_or, if_true, if_false,
    List.append_nil]
  exact ⟨_, _, rfl⟩

/-- A release of a slot (not bit 3) that has a note and a parameter and does not
toggle emits the Note-On pulse exactly when the wheel was not used, and nothing
else. -/
theorem dm2_wheel_update_release_notoggle (wheel : dm2wheel) (p i currmid : Nat)
    (hi : i < 8) (h3 : i ≠ 3) (hp : p.testBit i = false) (hpressed : wheel.pressed = p ||| 2 ^ i)
    (hnote : wheel.notes.getD i 0 ≠ 0) (hpar : wheel.params.getD i 0 ≠ 0)
    (hnt : wheel.notoggle.testBit i = true)
    (hmid : currmid &&& DM2_MIDMASK = wheel.midpressed) :
    ∃ light whenreleased : Nat,
      dm2_wheel_update wheel p currmid =
        ({ wheel with
            turnacc := 0
            whenreleased := whenreleased
            light := light
            pressed := p },
          if wheel.wheelused = 0 then [⟨0x90, wheel.notes.getD i 0, 0x7f⟩] else []) := by
  have hne : (p ||| 2 ^ i = p) = False := eq_false (press_ne _ _ hp)
  have hflag : 2 ^ i &&& (wheel.notoggle ||| not8 wheel.whenreleased) = 2 ^ i := by
    apply two_pow_and_of_testBit
    rw [Nat.testBit_or, hnt]; rfl
  have hnt1 : 2 ^ i &&& wheel.notoggle = 2 ^ i := two_pow_and_of_testBit _ _ hnt
  have hnt2 : 2 ^ i &&& not8 wheel.notoggle = 0 := by
    apply two_pow_and_of_not_testBit
    rw [testBit_not8, hnt]; simp
  have hevs : (List.range 8).flatMap
      (dm2_wheel_update_note { wheel with turnacc := 0, pressed := p ||| 2 ^ i }
        (2 ^ i) 0 (2 ^ i)) =
        if wheel.wheelused = 0 then [⟨0x90, wheel.notes.getD i 0, 0x7f⟩] else [] := by
    rw [dm2_wheel_update_note_single _ _ _ _ i hi (Or.inr rfl) (Or.inl rfl) (Or.inr rfl)]
    unfold dm2_wheel_update_note
    simp only [hnote, hpar, Nat.and_self, hnt1, hnt2, Nat.zero_and, two_pow_ne_zero, ne_eq,
      not_true_eq_false, not_false_eq_true, and_false, and_true, false_or, if_false]
  unfold dm2_wheel_update
  simp only [hmid, hpressed, hne, false_and, if_false]
  simp only [release_presses, release_releases _ _ hp hi, Nat.zero_and, hflag, hevs,
    and_not8_self, xor_release_and_clr _ i h3, ne_eq, not_true_eq_false, or_self, if_true,
    if_false, false_and, List.append_nil]
  exact ⟨_, _, rfl⟩

/-- The parameter loop of `dm2_wheel_turn` changes nothing but `midivals`. -/
theorem dm2_wheel_turn_param_frame (params : Nat) (diff midiadd : Int)
    (st : dm2wheel × List midi_call) (i : Nat) :
    ∃ m, (dm2_wheel_turn_param params diff midiadd st i).1 = { st.1 with midivals := m } := by
  unfold dm2_wheel_turn_param
  simp only []
  split_ifs <;> exact ⟨_, rfl⟩

/-- The parameter loop of `dm2_wheel_turn` changes nothing but `midivals`. -/
theorem dm2_wheel_turn_loop_frame (params : Nat) (diff midiadd : Int) (js : List Nat) :
    ∀ st : dm2wheel × List midi_call,
      ∃ m, (js.foldl (dm2_wheel_turn_param params diff midiadd) st).1 =
        { st.1 with midivals := m } := by
  induction js with
  | nil => intro st; exact ⟨st.1.midivals, rfl⟩
  | cons j js ih =>
    intro st
    obtain ⟨m1, h1⟩ := dm2_wheel_turn_param_frame params diff midiadd st j
    obtain ⟨m2, h2⟩ := ih (dm2_wheel_turn_param params diff midiadd st j)
    refine ⟨m2, ?_⟩
    rw [List.foldl_cons, h2, h1]

/-- A turn of the wheel while a ring button is held returns when the thresholds
are non-zero, marks the wheel as used and changes, beside that, only `turnacc`,
`showlight`, `whenreleased` and `midivals`. -/
theorem dm2_wheel_turn_held (wheel : dm2wheel) (step : Nat) (hp : wheel.pressed ≠ 0)
    (ht : wheel.paramthresh ≠ 0 ∧ wheel.cursorthresh ≠ 0) :
    ∃ (evs : List midi_call) (turnacc : Int) (whenreleased : Nat) (midivals : List Nat),
      dm2_wheel_turn wheel step =
        some ({ wheel with
            turnacc := turnacc
            showlight := 1
            wheelused := 1
            whenreleased := whenreleased
            midivals := midivals }, evs) := by
  have hjog : ¬ (wheel.pressed = 0 ∧ wheel.light = 0 ∧ wheel.midpressed = 0) := fun h => hp h.1
  have hpc : (wheel.paramthresh : Int) ≠ 0 := by omega
  have hcc : (wheel.cursorthresh : Int) ≠ 0 := by omega
  unfold dm2_wheel_turn
  rw [if_neg hjog]
  by_cases hm : wheel.midpressed ≠ 0 ∧ (wheel.midup ≠ 0 ∨ wheel.middown ≠ 0)
  · simp only [eq_true hm, if_true, hcc, if_false]
    exact ⟨_, _, wheel.whenreleased, wheel.midivals, rfl⟩
  · simp only [eq_false hm, if_false, hpc]
    by_cases hm3 : wheel.midpressed ≠ 0 ∧ wheel.params.getD DM2_MIDINDEX 0 ≠ 0
    · simp only [eq_true hm3, if_true]
      split_ifs
      · exact ⟨_, _, wheel.whenreleased, _, rfl⟩
      · exact ⟨_, _, wheel.whenreleased, wheel.midivals, rfl⟩
    · simp only [eq_false hm3, if_false, eq_true hp, if_true]
      rw [if_neg hp]
      obtain ⟨m, hm⟩ := dm2_wheel_turn_loop_frame wheel.pressed (dm2_turn_diff step)
        (Int.tdiv (wheel.turnacc + dm2_turn_diff step) wheel.paramthresh) (List.range 8)
        ({ wheel with
            turnacc := Int.tmod (wheel.turnacc + dm2_turn_diff step) wheel.paramthresh
            showlight := 1, wheelused := 1
            whenreleased := wheel.light &&& not8 wheel.pressed }, [])
      revert hm
      generalize List.foldl (dm2_wheel_turn_param _ _ _) _ _ = r
      intro hm
      obtain ⟨r1, r2⟩ := r
      simp only [] at hm
      exact ⟨r2, _, _, m, by rw [hm]⟩

/-- Pressing a slot gives a non-zero mask. -/
theorem press_ne_zero (p i : Nat) : p ||| 2 ^ i ≠ 0 := by
  intro h
  have := congrArg (fun x => Nat.testBit x i) h
  simp [Nat.testBit_or] at this

/-- C14: for a ring slot (not bit 3) with a note and a parameter and with
toggling disabled, the clear bit and the mid button untouched: pressing the slot
emits nothing; releasing it right away emits exactly one Note-On(note, 127); and
when `dm2_wheel_turn` was called while the slot was held (it returns, the thresholds
being non-zero), releasing it emits nothing. -/
theorem dm2_wheel_notoggle_slot (wheel : dm2wheel) (i currmid step : Nat)
    (hi : i < 8) (h3 : i ≠ 3) (hp : wheel.pressed.testBit i = false)
    (hnote : wheel.notes.getD i 0 ≠ 0) (hpar : wheel.params.getD i 0 ≠ 0)
    (hnt : wheel.notoggle.testBit i = true)
    (hmid : currmid &&& DM2_MIDMASK = wheel.midpressed)
    (ht : wheel.paramthresh ≠ 0 ∧ wheel.cursorthresh ≠ 0) :
    (dm2_wheel_update wheel (wheel.pressed ||| 2 ^ i) currmid).2 = [] ∧
      (dm2_wheel_update (dm2_wheel_update wheel (wheel.pressed ||| 2 ^ i) currmid).1
        wheel.pressed currmid).2 = [⟨0x90, wheel.notes.getD i 0, 0x7f⟩] ∧
      ∃ (turned : dm2wheel) (evs : List midi_call),
        dm2_wheel_turn (dm2_wheel_update wheel (wheel.pressed ||| 2 ^ i) currmid).1 step =
          some (turned, evs) ∧
        (dm2_wheel_update turned wheel.pressed currmid).2 = [] := by
  obtain ⟨l1, w1, h1⟩ :=
    dm2_wheel_update_press_notoggle wheel i currmid hi h3 hp hpar hnt hmid
  rw [h1]
  refine ⟨rfl, ?_, ?_⟩
  · obtain ⟨l2, w2, h2⟩ := dm2_wheel_update_release_notoggle
      { wheel with
        turnacc := 0, whenreleased := w1, wheelused := 0, light := l1
        pressed := wheel.pressed ||| 2 ^ i }
      wheel.pressed i currmid hi h3 hp rfl hnote hpar hnt hmid
    rw [h2]
    rfl
  · obtain ⟨evs, ta, wr, mv, h3t⟩ := dm2_wheel_turn_held
      { wheel with
        turnacc := 0, whenreleased := w1, wheelused := 0, light := l1
        pressed := wheel.pressed ||| 2 ^ i }
      step (press_ne_zero _ _) ht
    refine ⟨_, evs, h3t, ?_⟩
    obtain ⟨l2, w2, h2⟩ := dm2_wheel_update_release_notoggle
      { wheel with
        turnacc := ta, showlight := 1, wheelused := 1, whenreleased := wr, midivals := mv
        light := l1, pressed := wheel.pressed ||| 2 ^ i }
      wheel.pressed i currmid hi h3 hp rfl hnote hpar hnt hmid
    rw [h2]
    rfl

/-! ## Wheel rings: a slot with a parameter that toggles -/

/-- The note loop emits nothing for a press of slot `i` alone when the slot has
a parameter. -/
theorem dm2_wheel_update_note_press_param (wheel : dm2wheel) (i : Nat) (hi : i < 8)
    (hpar : wheel.params.getD i 0 ≠ 0) :
    (List.range 8).flatMap (dm2_wheel_update_note wheel 0 (2 ^ i) 0) = [] := by
  rw [dm2_wheel_update_note_single _ _ _ _ i hi (Or.inl rfl) (Or.inr rfl) (Or.inl rfl)]
  unfold dm2_wheel_update_note
  simp only [hpar, Nat.and_zero, Nat.zero_and, ne_eq, not_true_eq_false, and_false, or_self,
    if_false, ite_self]

/-- The note loop for a release of slot `i` alone when the slot has a note and a
parameter and toggles: the Note-On pulse is sent when the wheel was used and the slot
is not in the release-target set. -/
theorem dm2_wheel_update_note_release_toggle (wheel : dm2wheel) (i flagsoff : Nat) (hi : i < 8)
    (hoff : flagsoff = 0 ∨ flagsoff = 2 ^ i)
    (hnote : wheel.notes.getD i 0 ≠ 0) (hpar : wheel.params.getD i 0 ≠ 0)
    (hnt : wheel.notoggle.testBit i = false) :
    (List.range 8).flatMap (dm2_wheel_update_note wheel (2 ^ i) 0 flagsoff) =
      if wheel.wheelused ≠ 0 ∧ wheel.whenreleased.testBit i = false then
        [⟨0x90, wheel.notes.getD i 0, 0x7f⟩]
      else [] := by
  rw [dm2_wheel_update_note_single _ _ _ _ i hi (Or.inr rfl) (Or.inl rfl) hoff]
  have e1 : 2 ^ i &&& not8 wheel.notoggle = 2 ^ i := two_pow_and_not8_of_not_testBit i _ hi hnt
  have e2 : 2 ^ i &&& wheel.notoggle = 0 := two_pow_and_of_not_testBit i _ hnt
  have e3 : (2 ^ i &&& not8 wheel.whenreleased ≠ 0) = (wheel.whenreleased.testBit i = false) := by
    rw [two_pow_and_ne_zero, testBit_not8]
    simp [hi]
  unfold dm2_wheel_update_note
  simp only [hnote, hpar, Nat.and_self, e1, e2, e3, ne_eq, not_true_eq_false, and_false,
    or_false, if_false]

/-- Pressing a slot (not bit 3) with a parameter that toggles, with nothing
pressed or lit and the mid button up: nothing is emitted, the slot is lit and in the
release-target set, and the wheel counts as unused. -/
theorem dm2_wheel_update_press_toggle (cfg : dm2wheel) (i currmid : Nat)
    (hi : i < 8) (h3 : i ≠ 3) (hpar : cfg.params.getD i 0 ≠ 0)
    (hnt : cfg.notoggle.testBit i = false) (hmid : currmid &&& DM2_MIDMASK = 0) :
    dm2_wheel_update
        { cfg with pressed := 0, light := 0, whenreleased := 0, midpressed := 0 }
        (2 ^ i) currmid =
      ({ cfg with
          pressed := 2 ^ i, light := 2 ^ i, whenreleased := 2 ^ i, midpressed := 0
          wheelused := 0, turnacc := 0 }, []) := by
  have hflag : 2 ^ i &&& (cfg.notoggle ||| 255) = 2 ^ i := by
    apply two_pow_and_of_testBit
    rw [Nat.testBit_or, testBit_255]; simp [hi]
  have hevs := dm2_wheel_update_note_press_param
    { cfg with pressed := 0, light := 0, whenreleased := 0, midpressed := 0, turnacc := 0 } i hi hpar
  have e2 : 2 ^ i &&& cfg.notoggle = 0 := two_pow_and_of_not_testBit i _ hnt
  unfold dm2_wheel_update
  simp only [hmid, zero_eq_two_pow, false_and, if_false]
  simp only [not8_zero, and_255_two_pow i hi, two_pow_and_255 i hi, Nat.zero_and, Nat.and_zero,
    Nat.zero_or, Nat.or_zero, hflag, hevs, e2, two_pow_and_clr i h3,
    two_pow_and_not_clr i hi h3, zero_xor_two_pow_and_clr i h3, DM2_MID_zero, two_pow_eq_zero,
    ne_eq, not_true_eq_false, not_false_eq_true, and_false, true_or, if_true, if_false,
    false_and, List.append_nil, List.nil_append]

/-- Releasing the only pressed slot (not bit 3), which has a note and a parameter
and toggles and is not in the release-target set: the Note-On pulse is sent when
the wheel was used, and the slot is unlit. -/
theorem dm2_wheel_update_release_toggle_unlock (cfg : dm2wheel) (i currmid : Nat)
    (hi : i < 8) (h3 : i ≠ 3) (hnote : cfg.notes.getD i 0 ≠ 0) (hpar : cfg.params.getD i 0 ≠ 0)
    (hnt : cfg.notoggle.testBit i = false) (hmid : currmid &&& DM2_MIDMASK = 0) :
    dm2_wheel_update
        { cfg with pressed := 2 ^ i, light := 2 ^ i, whenreleased := 0, midpressed := 0 }
        0 currmid =
      ({ cfg with
          pressed := 0, light := 0, whenreleased := 0, midpressed := 0, turnacc := 0 },
        if cfg.wheelused ≠ 0 then [⟨0x90, cfg.notes.getD i 0, 0x7f⟩] else []) := by
  have hflag : 2 ^ i &&& (cfg.notoggle ||| 255) = 2 ^ i := by
    apply two_pow_and_of_testBit
    rw [Nat.testBit_or, testBit_255]; simp [hi]
  have hevs := dm2_wheel_update_note_release_toggle
    { cfg with pressed := 2 ^ i, light := 2 ^ i, whenreleased := 0, midpressed := 0, turnacc := 0 }
    i (2 ^ i) hi (Or.inr rfl) hnote hpar hnt
  simp only [Nat.zero_testBit, and_true] at hevs
  unfold dm2_wheel_update
  simp only [hmid, two_pow_eq_zero, false_and, if_false]
  simp only [not8_zero, two_pow_and_255 i hi, Nat.zero_and, Nat.and_zero, Nat.zero_or,
    Nat.or_zero, hflag, hevs, two_pow_and_not_clr i hi h3, two_pow_and_not8_two_pow,
    two_pow_xor_zero_and_clr i h3, DM2_MID_zero, not8_zero_and_zero, ne_eq, not_true_eq_false,
    and_false, or_self, if_true, if_false, false_and, List.append_nil, List.nil_append,
    ite_self]

/-- Releasing the only pressed slot (not bit 3), which has a note and a parameter
and toggles and is in the release-target set: nothing is emitted and the slot stays
lit (locked). -/
theorem dm2_wheel_update_release_toggle_lock (cfg : dm2wheel) (i currmid : Nat)
    (hi : i < 8) (h3 : i ≠ 3) (hnote : cfg.notes.getD i 0 ≠ 0) (hpar : cfg.params.getD i 0 ≠ 0)
    (hnt : cfg.notoggle.testBit i = false) (hmid : currmid &&& DM2_MIDMASK = 0) :
    dm2_wheel_update
        { cfg with pressed := 2 ^ i, light := 2 ^ i, whenreleased := 2 ^ i, midpressed := 0 }
        0 currmid =
      ({ cfg with
          pressed := 0, light := 2 ^ i, whenreleased := 0, midpressed := 0, turnacc := 0 },
        []) := by
  have hflag : 2 ^ i &&& (cfg.notoggle ||| not8 (2 ^ i)) = 0 := by
    apply two_pow_and_of_not_testBit
    rw [Nat.testBit_or, hnt, testBit_not8, Nat.testBit_two_pow_self]; simp
  have hevs := dm2_wheel_update_note_release_toggle
    { cfg with
      pressed := 2 ^ i, light := 2 ^ i, whenreleased := 2 ^ i, midpressed := 0, turnacc := 0 }
    i 0 hi (Or.inl rfl) hnote hpar hnt
  simp only [Nat.testBit_two_pow_self, Bool.true_eq_false, and_false, if_false] at hevs
  have e1 : 2 ^ i &&& not8 cfg.notoggle = 2 ^ i := two_pow_and_not8_of_not_testBit i _ hi hnt
  unfold dm2_wheel_update
  simp only [hmid, two_pow_eq_zero, false_and, if_false]
  simp only [not8_zero, two_pow_and_255 i hi, Nat.zero_and, Nat.and_zero, Nat.zero_or,
    Nat.or_zero, Nat.and_self, hflag, hevs, e1, two_pow_and_not_clr i hi h3,
    two_pow_and_not8_two_pow, two_pow_xor_zero_and_clr i h3, DM2_MID_zero, not8_zero_and_zero,
    ne_eq, not_true_eq_false, and_false, or_self, if_true, if_false, false_and, List.append_nil, List.nil_append,
    ite_self]

/-- Turning the wheel while slot `i` alone is held and lit, the mid button up:
an absolute slot with a parameter whose clamped value changes gets one
Control-Change with the new value. -/
theorem dm2_wheel_turn_held_absolute (cfg : dm2wheel) (i step : Nat) (hi : i < 8)
    (hpar : cfg.params.getD i 0 ≠ 0) (hrel : cfg.relparams.testBit i = false)
    (ht : cfg.paramthresh ≠ 0)
    (hv : clamp127 ((cfg.midivals.getD i 0 : Int) +
        Int.tdiv (cfg.turnacc + dm2_turn_diff step) cfg.paramthresh) ≠
      (cfg.midivals.getD i 0 : Int)) :
    dm2_wheel_turn { cfg with pressed := 2 ^ i, light := 2 ^ i, midpressed := 0 } step =
      some ({ cfg with
          pressed := 2 ^ i, light := 2 ^ i, midpressed := 0
          turnacc := Int.tmod (cfg.turnacc + dm2_turn_diff step) cfg.paramthresh
          showlight := 1, wheelused := 1, whenreleased := 0
          midivals := cfg.midivals.set i (u8 (clamp127 ((cfg.midivals.getD i 0 : Int) +
            Int.tdiv (cfg.turnacc + dm2_turn_diff step) cfg.paramthresh))) },
        [⟨0xb0, cfg.params.getD i 0, u8 (clamp127 ((cfg.midivals.getD i 0 : Int) +
            Int.tdiv (cfg.turnacc + dm2_turn_diff step) cfg.paramthresh))⟩]) := by
  have hpc : ((cfg.paramthresh : Int) = 0) = False := eq_false (by omega)
  have hloop : ∀ (st : dm2wheel × List midi_call) (diff midiadd : Int),
      (List.range 8).foldl (dm2_wheel_turn_param (2 ^ i) diff midiadd) st =
        dm2_wheel_turn_param (2 ^ i) diff midiadd st i := by
    intro st diff midiadd
    apply foldl_range8_single _ i hi
    intro s j _ hji
    have e : 2 ^ i &&& 2 ^ j = 0 := by
      apply and_two_pow_of_not_testBit
      rw [Nat.testBit_two_pow]; simp [hji]; omega
    unfold dm2_wheel_turn_param
    simp only [e, if_true]
  have hrel2 : cfg.relparams &&& 2 ^ i = 0 := and_two_pow_of_not_testBit i _ hrel
  unfold dm2_wheel_turn
  simp only [two_pow_eq_zero, false_and, and_false, if_false, ne_eq, not_true_eq_false,
    not_false_eq_true, if_true, hpc, hloop, two_pow_and_not8_two_pow]
  unfold dm2_wheel_turn_param
  simp only [Nat.and_self, two_pow_eq_zero, hpar, hrel2, hv, ne_eq, not_true_eq_false,
    not_false_eq_true, and_self, if_true, if_false, List.nil_append]

/-- The value stored for a slot of a freshly initialised wheel is 64. -/
theorem dm2_wheel_init_midivals (i : Nat) (hi : i < 8) :
    ((List.range 8).map (fun _ => 64)).getD i 0 = 64 := by
  interval_cases i <;> rfl

/-- A turn of at least the threshold moves the clamped value away from 64. -/
theorem clamp127_turn_ne (d : Int) (t : Nat) (ht : 0 < t) (hd : (t : Int) ≤ |d|) :
    clamp127 (64 + Int.tdiv d t) ≠ 64 := by
  have ht' : (0 : Int) < t := by omega
  have hq : 1 ≤ Int.tdiv d t ∨ Int.tdiv d t ≤ -1 := by
    rcases le_or_lt 0 d with h | h
    · left
      rw [Int.tdiv_eq_ediv h (by omega)]
      rw [abs_of_nonneg h] at hd
      exact Int.le_ediv_of_mul_le ht' (by omega)
    · right
      have hneg : d = - (-d) := by omega
      rw [abs_of_neg h] at hd
      rw [hneg, Int.neg_tdiv, Int.tdiv_eq_ediv (by omega) (by omega)]
      have := Int.le_ediv_of_mul_le (a := 1) (b := -d) ht' (by omega)
      omega
  unfold clamp127
  simp only []
  split_ifs <;> omega

/-- C13: for a ring slot (not bit 3) with a note and an absolute parameter and
toggling enabled, on a freshly initialised wheel with threshold `paramthresh > 0`,
the clear bit and the mid button untouched: the press emits nothing; a
`dm2_wheel_turn` while held with `|d| >= paramthresh` emits one Control-Change for
the slot's parameter with the new clamped value `clamp(64 + d / paramthresh)`; the
following release emits exactly one Note-On(note, 127) and leaves the slot unlit; a
subsequent press and release with no wheel turn in between emit nothing. -/
theorem dm2_wheel_toggle_param_slot (w0 wheel : dm2wheel) (notes params : List Nat)
    (jogparam midup middown midrel exclusive relparams notoggle paramthresh cursorthresh : Nat)
    (i currmid step : Nat)
    (hw : wheel = dm2_wheel_init w0 notes params jogparam midup middown midrel exclusive
      relparams notoggle paramthresh cursorthresh)
    (hi : i < 8) (h3 : i ≠ 3)
    (hnote : wheel.notes.getD i 0 ≠ 0) (hpar : wheel.params.getD i 0 ≠ 0)
    (hrel : wheel.relparams.testBit i = false) (hnt : wheel.notoggle.testBit i = false)
    (ht : 0 < paramthresh) (hmid : currmid &&& DM2_MIDMASK = 0)
    (hd : (paramthresh : Int) ≤ |dm2_turn_diff step|) :
    ∃ (pressed turned released pressed2 : dm2wheel) (value : Nat),
      dm2_wheel_update wheel (2 ^ i) currmid = (pressed, []) ∧
      dm2_wheel_turn pressed step = some (turned, [⟨0xb0, wheel.params.getD i 0, value⟩]) ∧
      (value : Int) = clamp127 (64 + Int.tdiv (dm2_turn_diff step) paramthresh) ∧
      value ≠ 64 ∧
      dm2_wheel_update turned 0 currmid = (released, [⟨0x90, wheel.notes.getD i 0, 0x7f⟩]) ∧
      released.light = 0 ∧
      dm2_wheel_update released (2 ^ i) currmid = (pressed2, []) ∧
      (dm2_wheel_update pressed2 0 currmid).2 = [] := by
  have e0 : wheel =
      { wheel with pressed := 0, light := 0, whenreleased := 0, midpressed := 0 } := by
    rw [hw]; rfl
  have hthr : wheel.paramthresh = paramthresh := by rw [hw]; rfl
  have hacc : wheel.turnacc = 0 := by rw [hw]; rfl
  have hmv : wheel.midivals.getD i 0 = 64 := by
    rw [hw]; exact dm2_wheel_init_midivals i hi
  clear hw
  subst hthr
  have hne := clamp127_turn_ne (dm2_turn_diff step) wheel.paramthresh ht hd
  have hrange := clamp127_range (64 + Int.tdiv (dm2_turn_diff step) wheel.paramthresh)
  have hu : ((u8 (clamp127 (64 + Int.tdiv (dm2_turn_diff step) wheel.paramthresh)) : Nat) : Int) =
      clamp127 (64 + Int.tdiv (dm2_turn_diff step) wheel.paramthresh) := by
    unfold u8; omega
  -- the press
  have hP := dm2_wheel_update_press_toggle wheel i currmid hi h3 hpar hnt hmid
  rw [← e0] at hP
  -- the turn while held
  have hT := dm2_wheel_turn_held_absolute
    { wheel with
      pressed := 2 ^ i, light := 2 ^ i, whenreleased := 2 ^ i, midpressed := 0
      wheelused := 0, turnacc := 0 }
    i step hi hpar hrel (by simp only []; omega)
    (by
      simp only [hmv, hacc, zero_add, Nat.cast_ofNat]
      exact hne)
  simp only [hmv, hacc, zero_add, Nat.cast_ofNat] at hT
  -- the release after the turn
  have hR := dm2_wheel_update_release_toggle_unlock
    { wheel with
      pressed := 2 ^ i, light := 2 ^ i, midpressed := 0
      turnacc := Int.tmod (dm2_turn_diff step) wheel.paramthresh
      showlight := 1, wheelused := 1, whenreleased := 0
      midivals := wheel.midivals.set i
        (u8 (clamp127 (64 + Int.tdiv (dm2_turn_diff step) wheel.paramthresh))) }
    i currmid hi h3 hnote hpar hnt hmid
  simp only [ne_eq, one_ne_zero, not_false_eq_true, if_true] at hR
  -- the second press
  have hP2 := dm2_wheel_update_press_toggle
    { wheel with
      pressed := 0, light := 0, midpressed := 0, turnacc := 0
      showlight := 1, wheelused := 1, whenreleased := 0
      midivals := wheel.midivals.set i
        (u8 (clamp127 (64 + Int.tdiv (dm2_turn_diff step) wheel.paramthresh))) }
    i currmid hi h3 hpar hnt hmid
  -- the second release
  have hR2 := dm2_wheel_update_release_toggle_lock
    { wheel with
      pressed := 2 ^ i, light := 2 ^ i, whenreleased := 2 ^ i, midpressed := 0
      wheelused := 0, turnacc := 0, showlight := 1
      midivals := wheel.midivals.set i
        (u8 (clamp127 (64 + Int.tdiv (dm2_turn_diff step) wheel.paramthresh))) }
    i currmid hi h3 hnote hpar hnt hmid
  refine ⟨_, _, _, _, _, hP, hT, hu, ?_, hR, rfl, hP2, ?_⟩
  · intro h
    apply hne
    rw [← hu, h]; rfl
  · rw [hR2]

/-! ## Wheel rings: exclusive mode -/

/-- The macro `DM2_MID` only ever sets bit 3. -/
theorem testBit_DM2_MID (v k : Nat) (hk : k ≠ 3) : (DM2_MID v).testBit k = false := by
  unfold DM2_MID DM2_MIDMASK
  have e : v &&& 2 = v &&& 2 ^ 1 := rfl
  rw [e, Nat.and_two_pow]
  cases v.testBit 1
  · simp
  · have e2 : (true.toNat * 2 ^ 1 * 4 : Nat) = 2 ^ 3 := by decide
    rw [e2, Nat.testBit_two_pow]
    simp only [decide_eq_false_iff_not]
    exact fun h => hk h.symm

/-- The reset loop of `dm2_wheel_update` changes nothing but `midivals`. -/
theorem dm2_wheel_update_reset_frame (newlight : Nat) (js : List Nat) :
    ∀ st : dm2wheel × List midi_call,
      ∃ m, (js.foldl (dm2_wheel_update_reset newlight) st).1 = { st.1 with midivals := m } := by
  induction js with
  | nil => intro st; exact ⟨st.1.midivals, rfl⟩
  | cons j js ih =>
    intro st
    have h1 : ∃ m, (dm2_wheel_update_reset newlight st j).1 = { st.1 with midivals := m } := by
      unfold dm2_wheel_update_reset
      simp only []
      split_ifs <;> exact ⟨_, rfl⟩
    obtain ⟨m1, h1⟩ := h1
    obtain ⟨m2, h2⟩ := ih (dm2_wheel_update_reset newlight st j)
    refine ⟨m2, ?_⟩
    rw [List.foldl_cons, h2, h1]

/-- The reset loop of `dm2_wheel_update` leaves the light mask alone. -/
theorem dm2_wheel_update_reset_light (newlight : Nat) (js : List Nat)
    (st : dm2wheel × List midi_call) :
    (js.foldl (dm2_wheel_update_reset newlight) st).1.light = st.1.light := by
  obtain ⟨m, hm⟩ := dm2_wheel_update_reset_frame newlight js st
  rw [hm]

/-- The light mask after a `dm2_wheel_update` that changes the state. -/
theorem dm2_wheel_update_light (wheel : dm2wheel) (curr currmid : Nat)
    (hne : ¬ (wheel.pressed = curr ∧ wheel.midpressed = currmid &&& DM2_MIDMASK)) :
    (dm2_wheel_update wheel curr currmid).1.light =
      ((((if ¬ (wheel.exclusive ≠ 0 ∧
              wheel.whenreleased &&& ((wheel.pressed &&& not8 curr) &&& not8 DM2_CLR) ≠ 0) then
            (wheel.whenreleased &&& ((wheel.pressed &&& not8 curr) &&& not8 DM2_CLR)) |||
              (wheel.light &&& not8 ((wheel.pressed &&& not8 curr) &&& not8 DM2_CLR))
          else wheel.whenreleased &&& ((wheel.pressed &&& not8 curr) &&& not8 DM2_CLR)) &&&
            not8 DM2_CLR) ||| DM2_MID (currmid &&& DM2_MIDMASK)) &&& not8 wheel.notoggle |||
          (curr &&& wheel.notoggle)) |||
        (((not8 wheel.pressed &&& curr) &&& not8 DM2_CLR) |||
          DM2_MID (not8 wheel.midpressed &&& (currmid &&& DM2_MIDMASK))) := by
  unfold dm2_wheel_update
  simp only []
  rw [if_neg hne]
  by_cases hr : (not8 wheel.pressed &&& curr) &&& DM2_CLR = 0
  · rw [if_pos hr]
  · rw [if_neg hr, dm2_wheel_update_reset_light]

/-- After a tick the previous-report snapshot and the stored report are the
report of the tick. -/
theorem dm2_tick_prev_state (d : dm2) (r : List Nat) (t : tick_result)
    (h : dm2_tick d r = some t) : t.dm2.prev_state = r ∧ t.dm2.curr_state = r := by
  unfold dm2_tick dm2_tasklet at h
  simp only [] at h
  split at h
  · exact absurd h (by simp)
  · split at h
    · exact absurd h (by simp)
    · split at h
      · exact absurd h (by simp)
      · split at h
        · exact absurd h (by simp)
        · split at h
          · exact absurd h (by simp)
          · simp only [Option.some.injEq] at h
            rw [← h]
            exact ⟨rfl, rfl⟩

/-- A tick on a state whose snapshot equals the report, the report having no
wheel turn: no component update runs, only the LED timers and the LED merge. -/
theorem dm2_tick_same_report (d : dm2) (r : List Nat) (h8 : r.getD 8 0 = 0)
    (h9 : r.getD 9 0 = 0) (hp : d.prev_state = r) (hc : d.curr_state = r) :
    dm2_tick d r =
      some
        { dm2 := (dm2_leds_send
            { d with leds_0 := dm2_leds_timer d.leds_0, leds_1 := dm2_leds_timer d.leds_1 }).1
          midi := []
          leds := (dm2_leds_send
            { d with leds_0 := dm2_leds_timer d.leds_0, leds_1 := dm2_leds_timer d.leds_1 }).2 } := by
  obtain ⟨prev, curr, s0, s1, s2, ic, w0, w1, b0, b1, l0, l1⟩ := d
  simp only [] at hp hc
  subst hp
  subst hc
  unfold dm2_tick dm2_tasklet run_if
  simp only [h8, h9, ne_eq, not_true_eq_false, or_self, if_false, decide_False,
    Bool.false_eq_true, List.append_nil]
  rfl
set_option maxRecDepth 100000 in
/-- C19 counterexample: the attached device processing twice the report whose
byte 8 (step of the first wheel) is 1 sends the Control-Change (0xB0, 1, 63) again
on the second tick; and the device with the idle animation armed, after 19 ticks on
the report at rest, processes that report twice more and requests the LED write
(32, 0) on the second of the two ticks. -/
theorem dm2_tick_twice_not_silent :
    ((dm2_tick dm2_probe.dm2 dm2_report_turn).bind
        (fun t1 => dm2_tick t1.dm2 dm2_report_turn)).map (fun t2 => t2.midi) =
        some [⟨0xb0, 1, 63⟩] ∧
      (((dm2_ticks dm2_armed (List.replicate 19 dm2_report_zero)).bind
          (fun s => dm2_tick s.1 dm2_report_zero)).bind
        (fun t1 => dm2_tick t1.dm2 dm2_report_zero)).map (fun t2 => (t2.midi, t2.leds)) =
        some ([], some (32, 0)) := by
  constructor
  · decide
  · decide

/-- C19 amended: when the two wheel-step bytes (8 and 9) of the report are zero,
the second of two consecutive ticks on the same report runs no component update and
sends no MIDI message; it only runs the LED timers and the LED merge, whose result
decides whether an LED write is requested. -/
theorem dm2_tick_twice (d : dm2) (r : List Nat) (t1 : tick_result)
    (h8 : r.getD 8 0 = 0) (h9 : r.getD 9 0 = 0) (h1 : dm2_tick d r = some t1) :
    dm2_tick t1.dm2 r =
      some
        { dm2 := (dm2_leds_send
            { t1.dm2 with
              leds_0 := dm2_leds_timer t1.dm2.leds_0
              leds_1 := dm2_leds_timer t1.dm2.leds_1 }).1
          midi := []
          leds := (dm2_leds_send
            { t1.dm2 with
              leds_0 := dm2_leds_timer t1.dm2.leds_0
              leds_1 := dm2_leds_timer t1.dm2.leds_1 }).2 } :=
  dm2_tick_same_report t1.dm2 r h8 h9 (dm2_tick_prev_state d r t1 h1).1
    (dm2_tick_prev_state d r t1 h1).2

set_option maxRecDepth 100000 in
/-- Witness of C19 amended: the attached device processing twice the report in
which key 0 of the top button bank is held: the first tick sends the Note-On
(48, 127), the second tick on the same report sends nothing. -/
theorem dm2_tick_twice_witness :
    (dm2_tick dm2_probe.dm2 dm2_report_button = some dm2_tick_button_example ∧
        dm2_probe.dm2.prev_state ≠ dm2_report_button ∧
        dm2_tick_button_example.midi = [⟨0x90, 48, 0x7f⟩] ∧
        (dm2_tick dm2_tick_button_example.dm2 dm2_report_button).map (fun t => t.midi) =
          some []) ∧
      dm2_tick dm2_tick_button_example.dm2 dm2_report_button =
        some
          { dm2 := (dm2_leds_send
              { dm2_tick_button_example.dm2 with
                leds_0 := dm2_leds_timer dm2_tick_button_example.dm2.leds_0
                leds_1 := dm2_leds_timer dm2_tick_button_example.dm2.leds_1 }).1
            midi := []
            leds := (dm2_leds_send
              { dm2_tick_button_example.dm2 with
                leds_0 := dm2_leds_timer dm2_tick_button_example.dm2.leds_0
                leds_1 := dm2_leds_timer dm2_tick_button_example.dm2.leds_1 }).2 } :=
  ⟨⟨rfl, by decide, by decide, by decide⟩,
    dm2_tick_twice dm2_probe.dm2 dm2_report_button dm2_tick_button_example (by decide)
      (by decide) rfl⟩

/-! ## Range of the MIDI messages -/

/-- An entry of a table of values below 128, read with default 0, is below 128. -/
theorem getD_lt_128 (l : List Nat) (h : ∀ x ∈ l, x < 128) (i : Nat) : l.getD i 0 < 128 := by
  induction l generalizing i with
  | nil => simp
  | cons a as ih =>
    cases i with
    | zero => simpa using h a (List.mem_cons_self a as)
    | succ j =>
      simpa using ih (fun x hx => h x (List.mem_cons_of_mem a hx)) j

/-- Storing a value below 128 in a table of values below 128. -/
theorem set_lt_128 (l : List Nat) (h : ∀ x ∈ l, x < 128) (i v : Nat) (hv : v < 128) :
    ∀ x ∈ l.set i v, x < 128 := by
  intro x hx
  rcases List.mem_or_eq_of_mem_set hx with h1 | h1
  · exact h x h1
  · rw [h1]; exact hv

/-- A byte made from a clamped value is in 0..127. -/
theorem u8_clamp127_lt (value : Int) : u8 (clamp127 value) < 128 := by
  have h := clamp127_range value
  unfold u8
  omega

/-- A byte made from a chunk plus 64 is in 0..127. -/
theorem u8_chunk_lt (c : Int) (h : -64 ≤ c ∧ c ≤ 63) : u8 (c + 64) < 128 := by
  unfold u8
  omega

/-- The chunks of any turn lie in -64..63. -/
theorem dm2_turn_loop_range (fuel : Nat) :
    ∀ reldiff : Int, ∀ c ∈ dm2_turn_loop fuel reldiff, -64 ≤ c ∧ c ≤ 63 := by
  induction fuel with
  | zero => intro reldiff c hc; simp [dm2_turn_loop] at hc
  | succ n ih =>
    intro reldiff c hc
    simp only [dm2_turn_loop, List.mem_cons] at hc
    rcases hc with h1 | h1
    · rw [h1]; exact dm2_turn_chunk_range reldiff
    · split_ifs at h1
      · exact ih _ c h1
      · simp at h1

/-- The last chunk of any turn, 0 when there is none, lies in -64..63. -/
theorem dm2_turn_chunks_last_range (reldiff : Int) :
    -64 ≤ (dm2_turn_chunks reldiff).getLastD 0 ∧ (dm2_turn_chunks reldiff).getLastD 0 ≤ 63 := by
  by_cases hne : dm2_turn_chunks reldiff = []
  · rw [hne]; simp
  · exact getLastD_chunk_range _ hne (dm2_turn_loop_range _ reldiff)

/-- The Control-Changes sent for the chunks of a turn are in range. -/
theorem dm2_turn_chunks_calls_ok (reldiff : Int) (p : Nat) (hp : p < 128) :
    ∀ e ∈ (dm2_turn_chunks reldiff).map (fun trnc => (⟨0xb0, p, u8 (trnc + 64)⟩ : midi_call)),
      midi_call_ok e := by
  intro e he
  obtain ⟨c, hc, rfl⟩ := List.mem_map.mp he
  exact ⟨Or.inr rfl, hp, u8_chunk_lt c (dm2_turn_loop_range _ reldiff c hc)⟩

/-- A loop whose body keeps a property keeps it. -/
theorem foldl_keeps {α β : Type} (P : α → Prop) (f : α → β → α)
    (hf : ∀ a b, P a → P (f a b)) : ∀ (l : List β) (a : α), P a → P (l.foldl f a) := by
  intro l
  induction l with
  | nil => intro a ha; exact ha
  | cons b bs ih => intro a ha; exact ih (f a b) (hf a b ha)

/-- The calls of a pass of the note loop of `dm2_wheel_update` are in range. -/
theorem dm2_wheel_update_note_ok (wheel : dm2wheel) (hn : ∀ x ∈ wheel.notes, x < 128)
    (releases flagson flagsoff i : Nat) :
    ∀ e ∈ dm2_wheel_update_note wheel releases flagson flagsoff i, midi_call_ok e := by
  have hlt := getD_lt_128 wheel.notes hn i
  have hon : midi_call_ok ⟨0x90, wheel.notes.getD i 0, 0x7f⟩ :=
    ⟨Or.inl rfl, hlt, (by decide : (0x7f : Nat) < 128)⟩
  have hoff : midi_call_ok ⟨0x90, wheel.notes.getD i 0, 0x00⟩ :=
    ⟨Or.inl rfl, hlt, (by decide : (0x00 : Nat) < 128)⟩
  intro e he
  unfold dm2_wheel_update_note at he
  simp only [] at he
  split_ifs at he <;>
    simp only [List.mem_append, List.mem_singleton, List.not_mem_nil, or_false, false_or,
      or_self] at he <;>
    first
    | exact absurd he id
    | (rcases he with h1 | h1 <;> rw [h1] <;> assumption)
    | (rw [he]; assumption)

/-- A pass of the reset loop of `dm2_wheel_update` keeps the wheel and the calls
in range. -/
theorem dm2_wheel_update_reset_ok (newlight : Nat) (st : dm2wheel × List midi_call) (i : Nat)
    (h : dm2wheel_ok st.1 ∧ ∀ e ∈ st.2, midi_call_ok e) :
    dm2wheel_ok (dm2_wheel_update_reset newlight st i).1 ∧
      ∀ e ∈ (dm2_wheel_update_reset newlight st i).2, midi_call_ok e := by
  obtain ⟨⟨h1, h2, h3, h4⟩, he⟩ := h
  unfold dm2_wheel_update_reset
  simp only []
  split_ifs
  · exact ⟨⟨h1, h2, h3, h4⟩, he⟩
  · exact ⟨⟨h1, h2, h3, h4⟩, he⟩
  · exact ⟨⟨h1, h2, h3, h4⟩, he⟩
  · refine ⟨⟨h1, h2, set_lt_128 _ h3 i 64 (by decide), h4⟩, ?_⟩
    intro e hm
    rcases List.mem_append.mp hm with hm1 | hm1
    · exact he e hm1
    · rw [List.mem_singleton.mp hm1]
      exact ⟨Or.inr rfl, getD_lt_128 _ h2 i, (by decide : (64 : Nat) < 128)⟩

/-- The function `dm2_wheel_update` keeps the wheel in range, and its calls are in
range. -/
theorem dm2_wheel_update_ok (wheel : dm2wheel) (curr currmid : Nat) (h : dm2wheel_ok wheel) :
    dm2wheel_ok (dm2_wheel_update wheel curr currmid).1 ∧
      ∀ e ∈ (dm2_wheel_update wheel curr currmid).2, midi_call_ok e := by
  unfold dm2_wheel_update
  simp only []
  by_cases h0 : wheel.pressed = curr ∧ wheel.midpressed = currmid &&& DM2_MIDMASK
  · rw [if_pos h0]
    exact ⟨h, fun e he => absurd he (List.not_mem_nil e)⟩
  · rw [if_neg h0]
    have hevs : ∀ e ∈ (List.range 8).flatMap (dm2_wheel_update_note { wheel with turnacc := 0 }
          (wheel.pressed &&& not8 curr)
          ((not8 wheel.pressed &&& curr) &&& (wheel.notoggle ||| not8 wheel.light))
          ((wheel.pressed &&& not8 curr) &&& (wheel.notoggle ||| not8 wheel.whenreleased))) ++
        (if wheel.midpressed &&& not8 (currmid &&& DM2_MIDMASK) ≠ 0 ∧ wheel.midrel ≠ 0 ∧
            wheel.wheelused ≠ 0 then [(⟨0x90, wheel.midrel, 0x7f⟩ : midi_call)] else []),
        midi_call_ok e := by
      intro e he
      rcases List.mem_append.mp he with h1 | h1
      · obtain ⟨i, _, hi⟩ := List.mem_flatMap.mp h1
        exact dm2_wheel_update_note_ok _ h.1 _ _ _ i e hi
      · split_ifs at h1
        · rw [List.mem_singleton.mp h1]
          exact ⟨Or.inl rfl, h.2.2.2.2.2.2.2, (by decide : (0x7f : Nat) < 128)⟩
        · exact absurd h1 (List.not_mem_nil e)
    by_cases hr : (not8 wheel.pressed &&& curr) &&& DM2_CLR = 0
    · rw [if_pos hr]
      exact ⟨h, hevs⟩
    · rw [if_neg hr]
      refine foldl_keeps (fun st => dm2wheel_ok st.1 ∧ ∀ e ∈ st.2, midi_call_ok e) _
        (fun st i hst => dm2_wheel_update_reset_ok _ st i hst) _ _ ?_
      exact ⟨h, hevs⟩
/-- A pass of the parameter loop of `dm2_wheel_turn` keeps the wheel and the calls
in range. -/
theorem dm2_wheel_turn_param_ok (params : Nat) (diff midiadd : Int)
    (st : dm2wheel × List midi_call) (i : Nat)
    (h : dm2wheel_ok st.1 ∧ ∀ e ∈ st.2, midi_call_ok e) :
    dm2wheel_ok (dm2_wheel_turn_param params diff midiadd st i).1 ∧
      ∀ e ∈ (dm2_wheel_turn_param params diff midiadd st i).2, midi_call_ok e := by
  obtain ⟨⟨h1, h2, h3, h4⟩, he⟩ := h
  have hp := getD_lt_128 _ h2 i
  unfold dm2_wheel_turn_param
  simp only []
  split_ifs
  · exact ⟨⟨h1, h2, h3, h4⟩, he⟩
  · exact ⟨⟨h1, h2, h3, h4⟩, he⟩
  · refine ⟨⟨h1, h2, set_lt_128 _ h3 i _ (u8_chunk_lt _ (dm2_turn_chunks_last_range diff)),
      h4⟩, ?_⟩
    intro e hm
    rcases List.mem_append.mp hm with hm1 | hm1
    · exact he e hm1
    · exact dm2_turn_chunks_calls_ok diff _ hp e hm1
  · refine ⟨⟨h1, h2, set_lt_128 _ h3 i 64 (by decide), h4⟩, ?_⟩
    intro e hm
    rcases List.mem_append.mp hm with hm1 | hm1
    · exact he e hm1
    · rw [List.mem_singleton.mp hm1]
      exact ⟨Or.inr rfl, hp, (by decide : (64 : Nat) < 128)⟩
  · refine ⟨⟨h1, h2, set_lt_128 _ h3 i 64 (by decide), h4⟩, ?_⟩
    intro e hm
    rcases List.mem_append.mp hm with hm1 | hm1
    · exact he e hm1
    · exact absurd hm1 (List.not_mem_nil e)
  · refine ⟨⟨h1, h2, set_lt_128 _ h3 i _ (u8_clamp127_lt _), h4⟩, ?_⟩
    intro e hm
    rcases List.mem_append.mp hm with hm1 | hm1
    · exact he e hm1
    · rw [List.mem_singleton.mp hm1]
      exact ⟨Or.inr rfl, hp, u8_clamp127_lt _⟩
  · exact ⟨⟨h1, h2, h3, h4⟩, he⟩

/-- The function `dm2_wheel_turn` keeps the wheel in range, and its calls are in
range. -/
theorem dm2_wheel_turn_ok (wheel : dm2wheel) (step : Nat) (r : dm2wheel × List midi_call)
    (h : dm2wheel_ok wheel) (hr : dm2_wheel_turn wheel step = some r) :
    dm2wheel_ok r.1 ∧ ∀ e ∈ r.2, midi_call_ok e := by
  obtain ⟨h1, h2, h3, h4, h5, h6, h7, h8⟩ := h
  unfold dm2_wheel_turn at hr
  simp only [] at hr
  by_cases hjog : wheel.pressed = 0 ∧ wheel.light = 0 ∧ wheel.midpressed = 0
  · rw [if_pos hjog] at hr
    by_cases hd : dm2_turn_diff step ≠ 0
    · rw [if_pos hd] at hr
      simp only [Option.some.injEq] at hr
      rw [← hr]
      exact ⟨⟨h1, h2, h3, h4, u8_chunk_lt _ (dm2_turn_chunks_last_range _), h6, h7, h8⟩,
        dm2_turn_chunks_calls_ok _ _ h4⟩
    · rw [if_neg hd] at hr
      simp only [Option.some.injEq] at hr
      rw [← hr]
      refine ⟨⟨h1, h2, h3, h4, (by decide : (64 : Nat) < 128), h6, h7, h8⟩, ?_⟩
      intro e hm
      split_ifs at hm
      · rw [List.mem_singleton.mp hm]
        exact ⟨Or.inr rfl, h4, (by decide : (64 : Nat) < 128)⟩
      · exact absurd hm (List.not_mem_nil e)
  · rw [if_neg hjog] at hr
    by_cases ht : (if wheel.midpressed ≠ 0 ∧ (wheel.midup ≠ 0 ∨ wheel.middown ≠ 0) then
        (wheel.cursorthresh : Int) else (wheel.paramthresh : Int)) = 0
    · rw [if_pos ht] at hr
      exact absurd hr (by simp)
    · rw [if_neg ht] at hr
      by_cases hm : wheel.midpressed ≠ 0 ∧ (wheel.midup ≠ 0 ∨ wheel.middown ≠ 0)
      · rw [if_pos hm] at hr
        simp only [Option.some.injEq] at hr
        rw [← hr]
        refine ⟨⟨h1, h2, h3, h4, h5, h6, h7, h8⟩, ?_⟩
        intro e hmem
        rcases List.mem_append.mp hmem with hm1 | hm1
        · split_ifs at hm1
          · rw [(List.mem_replicate.mp hm1).2]
            exact ⟨Or.inl rfl, h7, (by decide : (0x7f : Nat) < 128)⟩
          · exact absurd hm1 (List.not_mem_nil e)
        · split_ifs at hm1
          · rw [(List.mem_replicate.mp hm1).2]
            exact ⟨Or.inl rfl, h6, (by decide : (0x7f : Nat) < 128)⟩
          · exact absurd hm1 (List.not_mem_nil e)
      · rw [if_neg hm] at hr
        by_cases hp : wheel.midpressed ≠ 0 ∧ wheel.params.getD DM2_MIDINDEX 0 ≠ 0
        · rw [if_pos hp] at hr
          split_ifs at hr
          · simp only [Option.some.injEq] at hr
            rw [← hr]
            refine ⟨⟨h1, h2, set_lt_128 _ h3 _ _ (u8_clamp127_lt _), h4, h5, h6, h7, h8⟩, ?_⟩
            intro e hmem
            rw [List.mem_singleton.mp hmem]
            exact ⟨Or.inr rfl, getD_lt_128 _ h2 _, u8_clamp127_lt _⟩
          · simp only [Option.some.injEq] at hr
            rw [← hr]
            exact ⟨⟨h1, h2, h3, h4, h5, h6, h7, h8⟩, fun e he => absurd he (List.not_mem_nil e)⟩
        · rw [if_neg hp] at hr
          by_cases h0 : (if wheel.pressed ≠ 0 then wheel.pressed else wheel.light) = 0
          · rw [if_pos h0] at hr
            simp only [Option.some.injEq] at hr
            rw [← hr]
            refine ⟨?_, fun e he => absurd he (List.not_mem_nil e)⟩
            split_ifs
            · exact ⟨h1, h2, h3, h4, h5, h6, h7, h8⟩
            · exact ⟨h1, h2, h3, h4, h5, h6, h7, h8⟩
          · rw [if_neg h0] at hr
            simp only [Option.some.injEq] at hr
            rw [← hr]
            refine foldl_keeps (fun st => dm2wheel_ok st.1 ∧ ∀ e ∈ st.2, midi_call_ok e) _
              (fun st i hst => dm2_wheel_turn_param_ok _ _ _ st i hst) _ _ ?_
            refine ⟨?_, fun e he => absurd he (List.not_mem_nil e)⟩
            split_ifs
            · exact ⟨h1, h2, h3, h4, h5, h6, h7, h8⟩
            · exact ⟨h1, h2, h3, h4, h5, h6, h7, h8⟩

/-- The calls of `dm2_buttons_update` are in range, and the notes are kept. -/
theorem dm2_buttons_update_ok (buttons : dm2buttons) (curr : Nat)
    (h : ∀ x ∈ buttons.notes, x < 128) :
    (dm2_buttons_update buttons curr).1.notes = buttons.notes ∧
      ∀ e ∈ (dm2_buttons_update buttons curr).2, midi_call_ok e := by
  unfold dm2_buttons_update
  split_ifs
  · exact ⟨rfl, fun e he => absurd he (List.not_mem_nil e)⟩
  · refine ⟨rfl, ?_⟩
    intro e he
    obtain ⟨i, _, hi⟩ := List.mem_flatMap.mp he
    have hlt := getD_lt_128 buttons.notes h i
    unfold dm2_buttons_update_note at hi
    simp only [] at hi
    split_ifs at hi <;>
      simp only [List.mem_append, List.mem_singleton, List.not_mem_nil, or_false, false_or,
        or_self] at hi
    · rcases hi with h1 | h1 <;> rw [h1]
      · exact ⟨Or.inl rfl, hlt, (by decide : (0x7f : Nat) < 128)⟩
      · exact ⟨Or.inl rfl, hlt, (by decide : (0x00 : Nat) < 128)⟩
    · rw [hi]; exact ⟨Or.inl rfl, hlt, (by decide : (0x7f : Nat) < 128)⟩
    · rw [hi]; exact ⟨Or.inl rfl, hlt, (by decide : (0x00 : Nat) < 128)⟩

/-- The calls of `dm2_slider_update` are in range, and the parameter is kept. -/
theorem dm2_slider_update_ok (slider : dm2slider) (curr : Nat) (r : dm2slider × List midi_call)
    (h : slider.param < 128) (hr : dm2_slider_update slider curr = some r) :
    r.1.param = slider.param ∧ ∀ e ∈ r.2, midi_call_ok e := by
  cases hg : dm2_slider_get (dm2_slider_set slider curr) with
  | none =>
    unfold dm2_slider_update at hr
    simp only [hg] at hr
    exact absurd hr (by simp)
  | some v =>
    have hv := dm2_slider_get_range _ v hg
    rw [dm2_slider_update_eq slider curr v hg] at hr
    simp only [Option.some.injEq] at hr
    rw [← hr]
    refine ⟨by rw [dm2_slider_set_eq], ?_⟩
    intro e he
    simp only [] at he
    split_ifs at he
    · exact absurd he (List.not_mem_nil e)
    · rw [List.mem_singleton.mp he]
      exact ⟨Or.inr rfl, h, by show v.toNat < 128; omega⟩

/-- The function `dm2_leds_send` changes nothing of the wheels but `showlight`, and
nothing of the buttons and sliders. -/
theorem dm2_leds_send_ok (d : dm2) (h : dm2_ok d) : dm2_ok (dm2_leds_send d).1 := by
  obtain ⟨h1, h2, h3⟩ := h
  have hw : ∀ (wheel : dm2wheel) (leds : dm2leds), dm2wheel_ok wheel →
      dm2wheel_ok (dm2_leds_send_half wheel leds).1 := by
    intro wheel leds hk
    unfold dm2_leds_send_half
    simp only []
    split_ifs <;> exact hk
  exact ⟨hw _ _ h1, hw _ _ h2, h3⟩

/-- A tick keeps the notes, parameters and stored values in range, and all its
calls of `dm2_midi_send` are in range. -/
theorem dm2_tick_ok (d : dm2) (r : List Nat) (t : tick_result) (h : dm2_ok d)
    (ht : dm2_tick d r = some t) : dm2_ok t.dm2 ∧ ∀ e ∈ t.midi, midi_call_ok e := by
  obtain ⟨hw0, hw1, hb0, hb1, hs0, hs1, hs2⟩ := h
  unfold dm2_tick dm2_tasklet at ht
  simp only [] at ht
  split at ht
  · exact absurd ht (by simp)
  rename_i s0 e0
  split at ht
  · exact absurd ht (by simp)
  rename_i s1 e1
  split at ht
  · exact absurd ht (by simp)
  rename_i s2 e2
  split at ht
  · exact absurd ht (by simp)
  rename_i t0 e3
  split at ht
  · exact absurd ht (by simp)
  rename_i t1 e4
  simp only [Option.some.injEq] at ht
  have run_slider : ∀ (c : Bool) (v : Nat) (s : dm2slider) (q : dm2slider × List midi_call),
      s.param < 128 → run_if c (fun s => dm2_slider_update s v) s = some q →
      q.1.param < 128 ∧ ∀ e ∈ q.2, midi_call_ok e := by
    intro c v s q hs hq
    unfold run_if at hq
    split_ifs at hq
    · obtain ⟨a, b⟩ := dm2_slider_update_ok s v q hs hq
      exact ⟨by rw [a]; exact hs, b⟩
    · simp only [Option.some.injEq] at hq
      rw [← hq]
      exact ⟨hs, fun e he => absurd he (List.not_mem_nil e)⟩
  have run_turn : ∀ (c : Bool) (v : Nat) (w : dm2wheel) (q : dm2wheel × List midi_call),
      dm2wheel_ok w → run_if c (fun w => dm2_wheel_turn w v) w = some q →
      dm2wheel_ok q.1 ∧ ∀ e ∈ q.2, midi_call_ok e := by
    intro c v w q hw hq
    unfold run_if at hq
    split_ifs at hq
    · exact dm2_wheel_turn_ok w v q hw hq
    · simp only [Option.some.injEq] at hq
      rw [← hq]
      exact ⟨hw, fun e he => absurd he (List.not_mem_nil e)⟩
  have upd : ∀ (c : Prop) [Decidable c] (w : dm2wheel) (a b : Nat), dm2wheel_ok w →
      dm2wheel_ok (if c then dm2_wheel_update w a b else (w, [])).1 ∧
        ∀ e ∈ (if c then dm2_wheel_update w a b else (w, [])).2, midi_call_ok e := by
    intro c _ w a b hw
    split_ifs
    · exact dm2_wheel_update_ok w a b hw
    · exact ⟨hw, fun e he => absurd he (List.not_mem_nil e)⟩
  have btn : ∀ (c : Prop) [Decidable c] (bt : dm2buttons) (a : Nat), (∀ x ∈ bt.notes, x < 128) →
      (∀ x ∈ (if c then dm2_buttons_update bt a else (bt, [])).1.notes, x < 128) ∧
        ∀ e ∈ (if c then dm2_buttons_update bt a else (bt, [])).2, midi_call_ok e := by
    intro c _ bt a hb
    split_ifs
    · obtain ⟨p, q⟩ := dm2_buttons_update_ok bt a hb
      exact ⟨by rw [p]; exact hb, q⟩
    · exact ⟨hb, fun e he => absurd he (List.not_mem_nil e)⟩
  obtain ⟨a0, a0e⟩ := run_slider _ _ _ _ hs0 e0
  obtain ⟨a1, a1e⟩ := run_slider _ _ _ _ hs1 e1
  obtain ⟨a2, a2e⟩ := run_slider _ _ _ _ hs2 e2
  obtain ⟨u0, u0e⟩ := upd (r.getD 1 0 ≠ d.prev_state.getD 1 0 ∨ r.getD 3 0 ≠ d.prev_state.getD 3 0)
    d.wheels_0 (r.getD 1 0) (r.getD 3 0) hw0
  obtain ⟨u1, u1e⟩ := upd (r.getD 0 0 ≠ d.prev_state.getD 0 0 ∨ r.getD 3 0 ≠ d.prev_state.getD 3 0)
    d.wheels_1 (r.getD 0 0) (r.getD 3 0) hw1
  obtain ⟨c0, c0e⟩ := btn (r.getD 2 0 ≠ d.prev_state.getD 2 0) d.buttons_0 (r.getD 2 0) hb0
  obtain ⟨c1, c1e⟩ := btn (r.getD 3 0 ≠ d.prev_state.getD 3 0) d.buttons_1 (r.getD 3 0) hb1
  obtain ⟨v0, v0e⟩ := run_turn _ _ _ _ u0 e3
  obtain ⟨v1, v1e⟩ := run_turn _ _ _ _ u1 e4
  rw [← ht]
  refine ⟨?_, ?_⟩
  · exact dm2_leds_send_ok _ ⟨v0, v1, c0, c1, a0, a1, a2⟩
  · intro e he
    simp only [List.mem_append] at he
    rcases he with (((((((he | he) | he) | he) | he) | he) | he) | he) | he
    · exact u0e e he
    · exact u1e e he
    · exact c0e e he
    · exact c1e e he
    · exact a0e e he
    · exact a1e e he
    · exact a2e e he
    · exact v0e e he
    · exact v1e e he

/-- A sequence of ticks keeps the notes, parameters and stored values in range,
and all its calls of `dm2_midi_send` are in range. -/
theorem dm2_ticks_ok (reports : List (List Nat)) :
    ∀ (d d2 : dm2) (evs : List midi_call), dm2_ok d → dm2_ticks d reports = some (d2, evs) →
      dm2_ok d2 ∧ ∀ e ∈ evs, midi_call_ok e := by
  induction reports with
  | nil =>
    intro d d2 evs h hr
    simp only [dm2_ticks, Option.some.injEq, Prod.mk.injEq] at hr
    rw [← hr.1, ← hr.2]
    exact ⟨h, fun e he => absurd he (List.not_mem_nil e)⟩
  | cons r rs ih =>
    intro d d2 evs h hr
    simp only [dm2_ticks] at hr
    split at hr
    · exact absurd hr (by simp)
    rename_i t ht
    split at hr
    · exact absurd hr (by simp)
    rename_i d3 evs3 hrest
    simp only [Option.some.injEq, Prod.mk.injEq] at hr
    obtain ⟨k1, k2⟩ := dm2_tick_ok d r t h ht
    obtain ⟨k3, k4⟩ := ih t.dm2 d3 evs3 k1 hrest
    rw [← hr.1, ← hr.2]
    refine ⟨k3, ?_⟩
    intro e he
    rcases List.mem_append.mp he with h1 | h1
    · exact k2 e h1
    · exact k4 e h1

/-- After `dm2_internal_init` with one of the three presets the notes, parameters
and stored values are in range, whatever the state before. -/
theorem dm2_internal_init_ok (d0 : dm2) (p : Nat) (hp : p < DM2_NUMPRESETS) :
    dm2_ok (dm2_internal_init d0 (dm2_params_at p)) := by
  have h : ∀ q, q < 3 → dm2_ok (dm2_internal_init dm2_zero (dm2_params_at q)) := by
    intro q hq
    have hc : q = 0 ∨ q = 1 ∨ q = 2 := by omega
    rcases hc with rfl | rfl | rfl <;>
      simp only [dm2_ok, dm2wheel_ok] <;> decide
  exact h p hp
/-- C20: for each of the three built-in presets and every state reached from
`dm2_internal_init` by a sequence of ticks, every call of `dm2_midi_send` made by
the slider, wheel-ring, wheel-turn and button processing has command byte 0x90 or
0xB0 and both data bytes in 0..127, and every stored `midivals[i]` and `jogmidival`
is in 0..127. -/
theorem dm2_midi_calls_in_range (d0 : dm2) (p : Nat) (reports : List (List Nat)) (d : dm2)
    (evs : List midi_call) (hp : p < DM2_NUMPRESETS)
    (h : dm2_ticks (dm2_internal_init d0 (dm2_params_at p)) reports = some (d, evs)) :
    (∀ e ∈ evs, (e.cmd = 0x90 ∨ e.cmd = 0xb0) ∧ e.param < 128 ∧ e.value < 128) ∧
      (∀ x ∈ d.wheels_0.midivals, x < 128) ∧ (∀ x ∈ d.wheels_1.midivals, x < 128) ∧
      d.wheels_0.jogmidival < 128 ∧ d.wheels_1.jogmidival < 128 := by
  obtain ⟨k1, k2⟩ := dm2_ticks_ok reports _ d evs (dm2_internal_init_ok d0 p hp) h
  exact ⟨k2, k1.1.2.2.1, k1.2.1.2.2.1, k1.1.2.2.2.2.1, k1.2.1.2.2.2.2.1⟩

/-- Witness of C20: the attached device (preset 0) processing twice a report
with the first wheel turned by one step. -/
theorem dm2_midi_calls_in_range_witness :
    (∀ e ∈ dm2_example_run.2, (e.cmd = 0x90 ∨ e.cmd = 0xb0) ∧ e.param < 128 ∧ e.value < 128) ∧
      (∀ x ∈ dm2_example_run.1.wheels_0.midivals, x < 128) ∧
      (∀ x ∈ dm2_example_run.1.wheels_1.midivals, x < 128) ∧
      dm2_example_run.1.wheels_0.jogmidival < 128 ∧
      dm2_example_run.1.wheels_1.jogmidival < 128 :=
  dm2_midi_calls_in_range dm2_zero 0 [dm2_report_turn, dm2_report_turn] dm2_example_run.1
    dm2_example_run.2 (by decide) rfl

/-! ## Concrete instances -/

/-- Witness of C11: the jog wheel of the attached device turned by the raw step
0x80 (so `d = 128`). -/
theorem dm2_wheel_turn_jog_witness :
    ∃ chunks : List Int,
      chunks ≠ [] ∧
      dm2_wheel_turn dm2_probe.dm2.wheels_0 0x80 =
        some ({ dm2_probe.dm2.wheels_0 with jogmidival := (chunks.getLastD 0 + 64).toNat },
          chunks.map (fun c => ⟨0xb0, dm2_probe.dm2.wheels_0.jogparam, (c + 64).toNat⟩)) ∧
      (∀ c ∈ chunks, -64 ≤ c ∧ c ≤ 63) ∧
      (∀ c ∈ chunks.dropLast, c = -64 ∨ c = 63) ∧
      chunks.sum = dm2_turn_diff 0x80 ∧
      dm2_turn_diff 0x80 =
        - (if 0x80 < 128 then ((0x80 : Nat) : Int) else ((0x80 : Nat) : Int) - 256) ∧
      -127 ≤ dm2_turn_diff 0x80 ∧ dm2_turn_diff 0x80 ≤ 128 ∧
      (∀ (params : Nat) (midiadd : Int) (st : dm2wheel × List midi_call) (i : Nat),
        params &&& 2 ^ i ≠ 0 → st.1.params.getD i 0 ≠ 0 → st.1.relparams &&& 2 ^ i ≠ 0 →
        dm2_wheel_turn_param params (dm2_turn_diff 0x80) midiadd st i =
          ({ st.1 with midivals := st.1.midivals.set i (chunks.getLastD 0 + 64).toNat },
            st.2 ++ chunks.map (fun c => ⟨0xb0, st.1.params.getD i 0, (c + 64).toNat⟩))) :=
  dm2_wheel_turn_jog dm2_probe.dm2.wheels_0 0x80 (by decide) (by decide) (by decide)

/-- Witness of C14: slot 0 of the first wheel of the attached device (a note, a
parameter, toggling disabled), turned by 4 raw steps while held. -/
theorem dm2_wheel_notoggle_slot_witness :
    (dm2_wheel_update dm2_probe.dm2.wheels_0 (dm2_probe.dm2.wheels_0.pressed ||| 2 ^ 0) 0).2 = [] ∧
      (dm2_wheel_update
        (dm2_wheel_update dm2_probe.dm2.wheels_0 (dm2_probe.dm2.wheels_0.pressed ||| 2 ^ 0) 0).1
        dm2_probe.dm2.wheels_0.pressed 0).2 =
          [⟨0x90, dm2_probe.dm2.wheels_0.notes.getD 0 0, 0x7f⟩] ∧
      ∃ (turned : dm2wheel) (evs : List midi_call),
        dm2_wheel_turn
          (dm2_wheel_update dm2_probe.dm2.wheels_0
            (dm2_probe.dm2.wheels_0.pressed ||| 2 ^ 0) 0).1 4 = some (turned, evs) ∧
        (dm2_wheel_update turned dm2_probe.dm2.wheels_0.pressed 0).2 = [] :=
  dm2_wheel_notoggle_slot dm2_probe.dm2.wheels_0 0 0 4 (by decide) (by decide) (by decide)
    (by decide) (by decide) (by decide) (by decide) (by decide)

/-- Witness of C13: slot 0 of the example wheel (note 16, absolute parameter 16,
threshold 4), turned by the raw step 0xfc (so `d = 4`) while held. -/
theorem dm2_wheel_toggle_param_slot_witness :
    ∃ (pressed turned released pressed2 : dm2wheel) (value : Nat),
      dm2_wheel_update dm2_wheel_toggle_example (2 ^ 0) 0 = (pressed, []) ∧
      dm2_wheel_turn pressed 0xfc =
        some (turned, [⟨0xb0, dm2_wheel_toggle_example.params.getD 0 0, value⟩]) ∧
      (value : Int) = clamp127 (64 + Int.tdiv (dm2_turn_diff 0xfc) ((4 : Nat) : Int)) ∧
      value ≠ 64 ∧
      dm2_wheel_update turned 0 0 =
        (released, [⟨0x90, dm2_wheel_toggle_example.notes.getD 0 0, 0x7f⟩]) ∧
      released.light = 0 ∧
      dm2_wheel_update released (2 ^ 0) 0 = (pressed2, []) ∧
      (dm2_wheel_update pressed2 0 0).2 = [] :=
  dm2_wheel_toggle_param_slot dm2wheel_zero dm2_wheel_toggle_example
    [16, 0, 0, 0, 0, 0, 0, 0] [16, 0, 0, 0, 0, 0, 0, 0] 1 0 0 0 0 0 0 4 12 0 0 0xfc
    rfl (by decide) (by decide) (by decide) (by decide) (by decide) (by decide) (by decide)
    (by decide) (by decide)

set_option maxRecDepth 100000 in
/-- Witness of C17: the LED merge of the attached device with the external overlay
(mask 0x0F, light 0x05) of the first half over the wheel layer 0xFF, all ring keys of
the first wheel being held: the output of the first half is
`(0xFF AND 0xF0) OR (0x05 AND 0x0F) = 0xF5`, it differs from `curr = 0`, and the
write (0xF5, 0) is requested. -/
theorem dm2_leds_send_merge_witness :
    (dm2_leds_example.leds_0.mask = 0x0f ∧ dm2_leds_example.wheels_0.light = 0xff ∧
        dm2_leds_example.leds_0.light = 0x05 ∧ dm2_leds_example.leds_0.curr = 0 ∧
        spec_led_output dm2_leds_example.wheels_0 dm2_leds_example.leds_0 = 0xf5 ∧
        (dm2_leds_send dm2_leds_example).2 = some (0xf5, 0) ∧
        (dm2_leds_send dm2_leds_example).1.leds_0.curr = 0xf5) ∧
      ((dm2_leds_send dm2_leds_example).2 =
        (if spec_led_output dm2_leds_example.wheels_0 dm2_leds_example.leds_0 ≠
              dm2_leds_example.leds_0.curr ∨
            spec_led_output dm2_leds_example.wheels_1 dm2_leds_example.leds_1 ≠
              dm2_leds_example.leds_1.curr then
          some (spec_led_output dm2_leds_example.wheels_0 dm2_leds_example.leds_0,
            spec_led_output dm2_leds_example.wheels_1 dm2_leds_example.leds_1)
        else none) ∧
      (dm2_leds_send dm2_leds_example).1.leds_0.curr =
        spec_led_output dm2_leds_example.wheels_0 dm2_leds_example.leds_0 ∧
      (dm2_leds_send dm2_leds_example).1.leds_1.curr =
        spec_led_output dm2_leds_example.wheels_1 dm2_leds_example.leds_1 ∧
      (dm2_leds_example.leds_0.mask = 0x0f → dm2_leds_example.wheels_0.light = 0xff →
        spec_led_output dm2_leds_example.wheels_0 dm2_leds_example.leds_0 =
          (0xff &&& 0xf0) ||| (dm2_leds_example.leds_0.light &&& 0x0f)) ∧
      (dm2_leds_example.leds_1.mask = 0x0f → dm2_leds_example.wheels_1.light = 0xff →
        spec_led_output dm2_leds_example.wheels_1 dm2_leds_example.leds_1 =
          (0xff &&& 0xf0) ||| (dm2_leds_example.leds_1.light &&& 0x0f))) :=
  ⟨by decide, dm2_leds_send_merge dm2_leds_example (by decide) (by decide)⟩

/-! ## The wheel-layer timeout is never negative -/

/-- The function `dm2_leds_timer` keeps `wheeltimeout` non-negative. -/
theorem dm2_leds_timer_wheeltimeout (leds : dm2leds) (h : 0 ≤ leds.wheeltimeout) :
    0 ≤ (dm2_leds_timer leds).wheeltimeout := by
  have e : (dm2_leds_timer leds).wheeltimeout =
      if leds.wheeltimeout ≠ 0 then leds.wheeltimeout - 1 else leds.wheeltimeout := by
    unfold dm2_leds_timer
    simp only []
    split_ifs <;> rfl
  rw [e]
  split_ifs <;> omega

/-- One pass of the loop of `dm2_leds_send` keeps `wheeltimeout` non-negative. -/
theorem dm2_leds_send_half_wheeltimeout (wheel : dm2wheel) (leds : dm2leds)
    (h : 0 ≤ leds.wheeltimeout) : 0 ≤ (dm2_leds_send_half wheel leds).2.1.wheeltimeout := by
  unfold dm2_leds_send_half
  simp only []
  split_ifs <;> first | exact h | (show (0 : Int) ≤ DM2_LEDTIMEOUT; decide)

/-- A tick keeps the `wheeltimeout` of both LED halves non-negative; it is 0 after
`dm2_leds_init`, and `dm2_leds_update` does not change it. -/
theorem dm2_tick_wheeltimeout (d : dm2) (r : List Nat) (t : tick_result)
    (h0 : 0 ≤ d.leds_0.wheeltimeout) (h1 : 0 ≤ d.leds_1.wheeltimeout)
    (ht : dm2_tick d r = some t) :
    0 ≤ t.dm2.leds_0.wheeltimeout ∧ 0 ≤ t.dm2.leds_1.wheeltimeout := by
  unfold dm2_tick dm2_tasklet at ht
  simp only [] at ht
  split at ht
  · exact absurd ht (by simp)
  split at ht
  · exact absurd ht (by simp)
  split at ht
  · exact absurd ht (by simp)
  split at ht
  · exact absurd ht (by simp)
  split at ht
  · exact absurd ht (by simp)
  simp only [Option.some.injEq] at ht
  rw [← ht]
  exact ⟨dm2_leds_send_half_wheeltimeout _ _ (dm2_leds_timer_wheeltimeout _ h0),
    dm2_leds_send_half_wheeltimeout _ _ (dm2_leds_timer_wheeltimeout _ h1)⟩

/-! ## Sliders: the computed value and the specified formula -/

/-- When the slider has an upper bound, or the mirrored bound `2*mid - min` fits
a byte, the value computed by `dm2_slider_get` is the specified one. -/
theorem dm2_slider_get_spec (slider : dm2slider) (v : Int)
    (h : dm2_slider_get slider = some v)
    (hm : slider.max ≠ 0 ∨
      (0 ≤ 2 * (slider.mid : Int) - slider.min ∧ 2 * (slider.mid : Int) - slider.min < 256)) :
    v = spec_slider_value slider := by
  have hmax : ((if slider.max = 0 then u8 (2 * (slider.mid : Int) - slider.min)
      else slider.max : Nat) : Int) =
      if slider.max ≠ 0 then (slider.max : Int) else 2 * (slider.mid : Int) - slider.min := by
    by_cases h0 : slider.max = 0
    · have hr : 0 ≤ 2 * (slider.mid : Int) - slider.min ∧
          2 * (slider.mid : Int) - slider.min < 256 := by
        rcases hm with h1 | h1
        · exact absurd h0 h1
        · exact h1
      rw [if_pos h0, if_neg (not_not.mpr h0)]
      unfold u8
      omega
    · rw [if_neg h0, if_pos h0]
  unfold dm2_slider_get at h
  unfold spec_slider_value
  simp only [hmax] at h
  simp only []
  generalize (if slider.max ≠ 0 then (slider.max : Int)
    else 2 * (slider.mid : Int) - slider.min) = em at h ⊢
  by_cases hp : slider.pos < slider.mid
  · rw [if_pos hp] at h
    rw [if_pos hp]
    generalize Int.tdiv (((slider.pos : Int) - slider.min) * 64) ((slider.mid : Int) - slider.dead - slider.min) = q at h ⊢
    unfold clamp127 at h
    simp only [] at h
    split_ifs at h <;> simp only [Option.some.injEq] at h <;> omega
  · rw [if_neg hp] at h
    rw [if_neg hp]
    generalize Int.tdiv ((em - slider.pos) * 63) (em - slider.dead - slider.mid) = q at h ⊢
    unfold clamp127 at h
    simp only [] at h
    split_ifs at h <;> simp only [Option.some.injEq] at h <;> omega

/-- C21: the unbounded fader of the attached device, reset at 200 and then moved
to 100 and to 210 (no divisor is zero): `dm2_slider_get` computes 64, because the
mirrored upper bound `2*mid - min = 300` is cut to the byte 44, whereas the
specified formula over the integers gives 68. -/
theorem dm2_slider_get_mirror_wraps :
    (dm2_slider_updates (dm2_slider_reset dm2_probe.dm2.sliders_2 200) [100, 210]).bind
        dm2_slider_get = some 64 ∧
      (dm2_slider_updates (dm2_slider_reset dm2_probe.dm2.sliders_2 200) [100, 210]).map
        spec_slider_value = some 68 ∧
      (dm2_slider_updates (dm2_slider_reset dm2_probe.dm2.sliders_2 200) [100, 210]).map
        (fun s => (s.pos, s.min, s.max, s.mid, s.dead)) = some (210, 100, 0, 200, 5) := by
  decide

/-! ## Wheel turns: the accumulator -/

/-- The remainder of a truncating division by a positive number is smaller than
the divisor in absolute value. -/
theorem tmod_abs_lt (a b : Int) (h : 0 < b) : |Int.tmod a b| < b := by
  rw [abs_lt]
  refine ⟨?_, Int.tmod_lt_of_pos a h⟩
  rcases le_total 0 a with h0 | h0
  · have := Int.tmod_nonneg b h0
    omega
  · have h1 := Int.tmod_lt_of_pos (-a) h
    have h2 := Int.tmod_def (-a) b
    have h3 := Int.tmod_def a b
    rw [Int.neg_tdiv, Int.mul_neg] at h2
    omega

/-- Outside the jog mode and with a non-zero threshold `dm2_wheel_turn` returns;
`turnacc` becomes the remainder of `turnacc + diff`, and the keys, lights and
configuration that select the mode and the threshold are unchanged. -/
theorem dm2_wheel_turn_active (wheel : dm2wheel) (step : Nat)
    (hjog : ¬ (wheel.pressed = 0 ∧ wheel.light = 0 ∧ wheel.midpressed = 0))
    (ht : dm2_turn_thresh wheel ≠ 0) :
    ∃ r : dm2wheel × List midi_call,
      dm2_wheel_turn wheel step = some r ∧
      r.1.turnacc = Int.tmod (wheel.turnacc + dm2_turn_diff step) (dm2_turn_thresh wheel) ∧
      r.1.pressed = wheel.pressed ∧ r.1.light = wheel.light ∧
      r.1.midpressed = wheel.midpressed ∧ r.1.midup = wheel.midup ∧
      r.1.middown = wheel.middown ∧ r.1.paramthresh = wheel.paramthresh ∧
      r.1.cursorthresh = wheel.cursorthresh := by
  unfold dm2_turn_thresh at ht ⊢
  unfold dm2_wheel_turn
  simp only []
  rw [if_neg hjog, if_neg ht]
  by_cases hm : wheel.midpressed ≠ 0 ∧ (wheel.midup ≠ 0 ∨ wheel.middown ≠ 0)
  · rw [if_pos hm]
    exact ⟨_, rfl, rfl, rfl, rfl, rfl, rfl, rfl, rfl, rfl⟩
  · rw [if_neg hm]
    by_cases hp : wheel.midpressed ≠ 0 ∧ wheel.params.getD DM2_MIDINDEX 0 ≠ 0
    · rw [if_pos hp]
      split_ifs <;> exact ⟨_, rfl, rfl, rfl, rfl, rfl, rfl, rfl, rfl, rfl⟩
    · rw [if_neg hp]
      by_cases h0 : (if wheel.pressed ≠ 0 then wheel.pressed else wheel.light) = 0
      · rw [if_pos h0]
        refine ⟨_, rfl, ?_⟩
        split_ifs <;> exact ⟨rfl, rfl, rfl, rfl, rfl, rfl, rfl, rfl⟩
      · rw [if_neg h0]
        have key : ∀ (p : Nat) (d a : Int) (st : dm2wheel × List midi_call),
            ((List.range 8).foldl (dm2_wheel_turn_param p d a) st).1.turnacc = st.1.turnacc ∧
            ((List.range 8).foldl (dm2_wheel_turn_param p d a) st).1.pressed = st.1.pressed ∧
            ((List.range 8).foldl (dm2_wheel_turn_param p d a) st).1.light = st.1.light ∧
            ((List.range 8).foldl (dm2_wheel_turn_param p d a) st).1.midpressed =
              st.1.midpressed ∧
            ((List.range 8).foldl (dm2_wheel_turn_param p d a) st).1.midup = st.1.midup ∧
            ((List.range 8).foldl (dm2_wheel_turn_param p d a) st).1.middown = st.1.middown ∧
            ((List.range 8).foldl (dm2_wheel_turn_param p d a) st).1.paramthresh =
              st.1.paramthresh ∧
            ((List.range 8).foldl (dm2_wheel_turn_param p d a) st).1.cursorthresh =
              st.1.cursorthresh := by
          intro p d a st
          obtain ⟨m, hm2⟩ := dm2_wheel_turn_loop_frame p d a (List.range 8) st
          rw [hm2]
          exact ⟨rfl, rfl, rfl, rfl, rfl, rfl, rfl, rfl⟩
        refine ⟨_, rfl, ?_⟩
        obtain ⟨k1, k2, k3, k4, k5, k6, k7, k8⟩ := key
          (if wheel.pressed ≠ 0 then wheel.pressed else wheel.light) (dm2_turn_diff step)
          (Int.tdiv (wheel.turnacc + dm2_turn_diff step)
            (if wheel.midpressed ≠ 0 ∧ (wheel.midup ≠ 0 ∨ wheel.middown ≠ 0) then
              (wheel.cursorthresh : Int) else (wheel.paramthresh : Int)))
          (if wheel.pressed ≠ 0 then
            { wheel with
              turnacc := Int.tmod (wheel.turnacc + dm2_turn_diff step)
                (if wheel.midpressed ≠ 0 ∧ (wheel.midup ≠ 0 ∨ wheel.middown ≠ 0) then
              (wheel.cursorthresh : Int) else (wheel.paramthresh : Int))
              showlight := 1, wheelused := 1
              whenreleased := wheel.light &&& not8 wheel.pressed }
          else
            { wheel with
              turnacc := Int.tmod (wheel.turnacc + dm2_turn_diff step)
                (if wheel.midpressed ≠ 0 ∧ (wheel.midup ≠ 0 ∨ wheel.middown ≠ 0) then
              (wheel.cursorthresh : Int) else (wheel.paramthresh : Int))
              showlight := 1, wheelused := 1 }, [])
        refine ⟨k1.trans ?_, k2.trans ?_, k3.trans ?_, k4.trans ?_, k5.trans ?_, k6.trans ?_,
          k7.trans ?_, k8.trans ?_⟩ <;> split_ifs <;> rfl

/-- A run of turns outside the jog mode with a positive threshold returns, and the
step counts times the threshold plus the final `turnacc` give the initial
`turnacc` plus the sum of the turns. -/
theorem dm2_wheel_turns_sum (steps : List Nat) :
    ∀ (wheel : dm2wheel),
      ¬ (wheel.pressed = 0 ∧ wheel.light = 0 ∧ wheel.midpressed = 0) →
      0 < dm2_turn_thresh wheel → |wheel.turnacc| < dm2_turn_thresh wheel →
      ∃ (w : dm2wheel) (adds : List Int),
        dm2_wheel_turns wheel steps = some (w, adds) ∧
        adds.length = steps.length ∧
        adds.sum * dm2_turn_thresh wheel + w.turnacc =
          wheel.turnacc + (steps.map dm2_turn_diff).sum ∧
        |w.turnacc| < dm2_turn_thresh wheel := by
  induction steps with
  | nil =>
    intro wheel _ _ h0
    exact ⟨wheel, [], rfl, rfl, by simp, h0⟩
  | cons step steps ih =>
    intro wheel hjog ht h0
    obtain ⟨r, hr, hacc, h1, h2, h3, h4, h5, h6, h7⟩ :=
      dm2_wheel_turn_active wheel step hjog (ne_of_gt ht)
    have hth : dm2_turn_thresh r.1 = dm2_turn_thresh wheel := by
      unfold dm2_turn_thresh
      rw [h3, h4, h5, h6, h7]
    have hjog2 : ¬ (r.1.pressed = 0 ∧ r.1.light = 0 ∧ r.1.midpressed = 0) := by
      rw [h1, h2, h3]; exact hjog
    have hb : |r.1.turnacc| < dm2_turn_thresh r.1 := by
      rw [hth, hacc]; exact tmod_abs_lt _ _ ht
    obtain ⟨w, adds, hw, hlen, hsum, hfin⟩ := ih r.1 hjog2 (by rw [hth]; exact ht) hb
    refine ⟨w, dm2_turn_midiadd wheel step :: adds, ?_, ?_, ?_, ?_⟩
    · simp only [dm2_wheel_turns, hr, hw]
    · simp only [List.length_cons, hlen]
    · rw [hth, hacc] at hsum
      have hd := Int.tdiv_add_tmod' (wheel.turnacc + dm2_turn_diff step) (dm2_turn_thresh wheel)
      simp only [List.sum_cons, List.map_cons]
      unfold dm2_turn_midiadd
      rw [add_mul]
      omega
    · rw [← hth]; exact hfin

/-- C22: outside the jog mode with threshold `t > 0` (`paramthresh`, or
`cursorthresh` when mid is held and `midup` or `middown` is configured; positive in
the three presets), each `dm2_wheel_turn` with signed delta `d` returns with
`turnacc' = (turnacc + d) % t`, where `midiadd = (turnacc + d) / t`, so that
`turnacc + d = midiadd * t + turnacc'` and `|turnacc'| < t`; and for any run of
turns starting from `turnacc = 0` the sum of the `midiadd` values times `t` plus
the final `turnacc` is the sum of the deltas. -/
theorem dm2_wheel_turn_accumulator (wheel : dm2wheel) (steps : List Nat)
    (hjog : ¬ (wheel.pressed = 0 ∧ wheel.light = 0 ∧ wheel.midpressed = 0))
    (ht : 0 < dm2_turn_thresh wheel) (h0 : wheel.turnacc = 0) :
    (∀ p, p < DM2_NUMPRESETS →
        0 < (dm2_params_at p).paramthresh ∧ 0 < (dm2_params_at p).cursorthresh) ∧
      (∀ (w : dm2wheel) (step : Nat),
        ¬ (w.pressed = 0 ∧ w.light = 0 ∧ w.midpressed = 0) → 0 < dm2_turn_thresh w →
        ∃ r : dm2wheel × List midi_call,
          dm2_wheel_turn w step = some r ∧
          dm2_turn_midiadd w step =
            Int.tdiv (w.turnacc + dm2_turn_diff step) (dm2_turn_thresh w) ∧
          r.1.turnacc = Int.tmod (w.turnacc + dm2_turn_diff step) (dm2_turn_thresh w) ∧
          w.turnacc + dm2_turn_diff step =
            dm2_turn_midiadd w step * dm2_turn_thresh w + r.1.turnacc ∧
          |r.1.turnacc| < dm2_turn_thresh w ∧
          dm2_turn_thresh r.1 = dm2_turn_thresh w) ∧
      ∃ (w : dm2wheel) (adds : List Int),
        dm2_wheel_turns wheel steps = some (w, adds) ∧
        adds.length = steps.length ∧
        adds.sum * dm2_turn_thresh wheel + w.turnacc = (steps.map dm2_turn_diff).sum ∧
        |w.turnacc| < dm2_turn_thresh wheel := by
  refine ⟨by decide, ?_, ?_⟩
  · intro w step hj hpos
    obtain ⟨r, hr, hacc, h1, h2, h3, h4, h5, h6, h7⟩ :=
      dm2_wheel_turn_active w step hj (ne_of_gt hpos)
    refine ⟨r, hr, rfl, hacc, ?_, ?_, ?_⟩
    · rw [hacc]
      unfold dm2_turn_midiadd
      exact (Int.tdiv_add_tmod' _ _).symm
    · rw [hacc]; exact tmod_abs_lt _ _ hpos
    · unfold dm2_turn_thresh
      rw [h3, h4, h5, h6, h7]
  · obtain ⟨w, adds, hw, hlen, hsum, hfin⟩ :=
      dm2_wheel_turns_sum steps wheel hjog ht (by rw [h0]; simpa using ht)
    refine ⟨w, adds, hw, hlen, ?_, hfin⟩
    rw [hsum, h0, zero_add]

/-- Witness of C22: the first wheel of the attached device with slot 0 held, turned
by the steps 0xfc, 0xfe and 0x03 (deltas 4, 2 and -3). -/
theorem dm2_wheel_turn_accumulator_witness :
    (∀ p, p < DM2_NUMPRESETS →
        0 < (dm2_params_at p).paramthresh ∧ 0 < (dm2_params_at p).cursorthresh) ∧
      (∀ (w : dm2wheel) (step : Nat),
        ¬ (w.pressed = 0 ∧ w.light = 0 ∧ w.midpressed = 0) → 0 < dm2_turn_thresh w →
        ∃ r : dm2wheel × List midi_call,
          dm2_wheel_turn w step = some r ∧
          dm2_turn_midiadd w step =
            Int.tdiv (w.turnacc + dm2_turn_diff step) (dm2_turn_thresh w) ∧
          r.1.turnacc = Int.tmod (w.turnacc + dm2_turn_diff step) (dm2_turn_thresh w) ∧
          w.turnacc + dm2_turn_diff step =
            dm2_turn_midiadd w step * dm2_turn_thresh w + r.1.turnacc ∧
          |r.1.turnacc| < dm2_turn_thresh w ∧
          dm2_turn_thresh r.1 = dm2_turn_thresh w) ∧
      ∃ (w : dm2wheel) (adds : List Int),
        dm2_wheel_turns dm2_wheel_held_example [0xfc, 0xfe, 0x03] = some (w, adds) ∧
        adds.length = [0xfc, 0xfe, 0x03].length ∧
        adds.sum * dm2_turn_thresh dm2_wheel_held_example + w.turnacc =
          ([0xfc, 0xfe, 0x03].map dm2_turn_diff).sum ∧
        |w.turnacc| < dm2_turn_thresh dm2_wheel_held_example :=
  dm2_wheel_turn_accumulator dm2_wheel_held_example [0xfc, 0xfe, 0x03]
    (by decide) (by decide) (by decide)

/-! ## Wheel turns: the parameter loop -/

/-- Reading a table after storing at another index. -/
theorem getD_set_ne (m : List Nat) (i k v : Nat) (h : k ≠ i) :
    (m.set i v).getD k 0 = m.getD k 0 := by
  simp [List.getD_eq_getElem?_getD, List.getElem?_set_ne (Ne.symm h)]

/-- Reading a table at the index just stored. -/
theorem getD_set_self (m : List Nat) (i v : Nat) (h : i < m.length) :
    (m.set i v).getD i 0 = v := by
  simp [List.getD_eq_getElem?_getD, h]

/-- A pass of the parameter loop of `dm2_wheel_turn` appends its calls to those
made before, and its effect on the wheel does not depend on them. -/
theorem dm2_wheel_turn_param_events (params : Nat) (diff midiadd : Int)
    (st : dm2wheel × List midi_call) (i : Nat) :
    dm2_wheel_turn_param params diff midiadd st i =
      ((dm2_wheel_turn_param params diff midiadd (st.1, []) i).1,
        st.2 ++ (dm2_wheel_turn_param params diff midiadd (st.1, []) i).2) := by
  unfold dm2_wheel_turn_param
  simp only []
  split_ifs <;> simp only [List.nil_append, List.append_nil]

/-- A pass of the parameter loop for slot `i` keeps the length of `midivals` and
the stored values of the other slots. -/
theorem dm2_wheel_turn_param_others (params : Nat) (diff midiadd : Int)
    (st : dm2wheel × List midi_call) (i : Nat) :
    (dm2_wheel_turn_param params diff midiadd st i).1.midivals.length =
        st.1.midivals.length ∧
      ∀ k, k ≠ i →
        (dm2_wheel_turn_param params diff midiadd st i).1.midivals.getD k 0 =
          st.1.midivals.getD k 0 := by
  unfold dm2_wheel_turn_param
  simp only []
  split_ifs
  all_goals first
    | exact ⟨rfl, fun _ _ => rfl⟩
    | exact ⟨List.length_set _ _ _, fun k hk => getD_set_ne _ _ _ _ hk⟩

/-- A pass of the parameter loop for slot `i` on a wheel depends on the stored
values only through `midivals[i]`. -/
theorem dm2_wheel_turn_param_local (params : Nat) (diff midiadd : Int) (w1 w2 : dm2wheel)
    (i : Nat) (hp : w1.params = w2.params) (hr : w1.relparams = w2.relparams)
    (hl : w1.midivals.length = w2.midivals.length)
    (hv : w1.midivals.getD i 0 = w2.midivals.getD i 0) :
    (dm2_wheel_turn_param params diff midiadd (w1, []) i).2 =
        (dm2_wheel_turn_param params diff midiadd (w2, []) i).2 ∧
      (dm2_wheel_turn_param params diff midiadd (w1, []) i).1.midivals.getD i 0 =
        (dm2_wheel_turn_param params diff midiadd (w2, []) i).1.midivals.getD i 0 := by
  have hset : ∀ v, (w1.midivals.set i v).getD i 0 = (w2.midivals.set i v).getD i 0 := by
    intro v
    by_cases hi : i < w1.midivals.length
    · rw [getD_set_self _ _ _ hi, getD_set_self _ _ _ (hl ▸ hi)]
    · rw [List.set_eq_of_length_le (by omega), List.set_eq_of_length_le (by omega), hv]
  unfold dm2_wheel_turn_param
  simp only [hp, hr, hv]
  split_ifs
  all_goals first
    | exact ⟨rfl, hv⟩
    | exact ⟨rfl, hset _⟩

/-- The parameter loop of `dm2_wheel_turn` over slots without repetition: the
calls are those of the passes, each taken on the wheel before the loop; the stored
value of a slot in the list is the one its pass gives, the others are kept. -/
theorem dm2_wheel_turn_loop_spec (params : Nat) (diff midiadd : Int) (js : List Nat) :
    ∀ st : dm2wheel × List midi_call, js.Nodup →
      (js.foldl (dm2_wheel_turn_param params diff midiadd) st).2 =
          st.2 ++ js.flatMap (fun j => (dm2_wheel_turn_param params diff midiadd (st.1, []) j).2) ∧
        (js.foldl (dm2_wheel_turn_param params diff midiadd) st).1.midivals.length =
          st.1.midivals.length ∧
        (∀ k, k ∉ js →
          (js.foldl (dm2_wheel_turn_param params diff midiadd) st).1.midivals.getD k 0 =
            st.1.midivals.getD k 0) ∧
        (∀ k, k ∈ js →
          (js.foldl (dm2_wheel_turn_param params diff midiadd) st).1.midivals.getD k 0 =
            (dm2_wheel_turn_param params diff midiadd (st.1, []) k).1.midivals.getD k 0) := by
  induction js with
  | nil =>
    intro st _
    refine ⟨by simp, rfl, fun _ _ => rfl, ?_⟩
    intro k hk
    exact absurd hk (List.not_mem_nil k)
  | cons j js ih =>
    intro st hnd
    have hj : j ∉ js := (List.nodup_cons.mp hnd).1
    obtain ⟨e1, e2, e3, e4⟩ := ih (dm2_wheel_turn_param params diff midiadd st j)
      (List.nodup_cons.mp hnd).2
    obtain ⟨o1, o2⟩ := dm2_wheel_turn_param_others params diff midiadd st j
    obtain ⟨m, hm⟩ := dm2_wheel_turn_param_frame params diff midiadd st j
    have hev := dm2_wheel_turn_param_events params diff midiadd st j
    have hloc : ∀ k, k ≠ j →
        (dm2_wheel_turn_param params diff midiadd
            ((dm2_wheel_turn_param params diff midiadd st j).1, []) k).2 =
          (dm2_wheel_turn_param params diff midiadd (st.1, []) k).2 ∧
        (dm2_wheel_turn_param params diff midiadd
            ((dm2_wheel_turn_param params diff midiadd st j).1, []) k).1.midivals.getD k 0 =
          (dm2_wheel_turn_param params diff midiadd (st.1, []) k).1.midivals.getD k 0 := by
      intro k hk
      apply dm2_wheel_turn_param_local
      · rw [hm]
      · rw [hm]
      · exact o1
      · exact o2 k hk
    simp only [List.foldl_cons, List.flatMap_cons]
    refine ⟨?_, ?_, ?_, ?_⟩
    · rw [e1]
      have hc : js.flatMap (fun k => (dm2_wheel_turn_param params diff midiadd
            ((dm2_wheel_turn_param params diff midiadd st j).1, []) k).2) =
          js.flatMap (fun k => (dm2_wheel_turn_param params diff midiadd (st.1, []) k).2) := by
        apply List.flatMap_congr
        intro k hk
        exact (hloc k (fun h => hj (h ▸ hk))).1
      rw [hc]
      conv_lhs => rw [hev]
      simp only [List.append_assoc]
    · rw [e2, o1]
    · intro k hk
      have hk1 : k ≠ j := fun h => hk (h ▸ List.mem_cons_self j js)
      have hk2 : k ∉ js := fun h => hk (List.mem_cons_of_mem j h)
      rw [e3 k hk2, o2 k hk1]
    · intro k hk
      rcases List.mem_cons.mp hk with h1 | h1
      · rw [h1, e3 j hj]
        conv_lhs => rw [hev]
      · rw [e4 k h1]
        exact (hloc k (fun h => hj (h ▸ h1))).2

/-- A loop whose body never changes the state. -/
theorem foldl_id {σ β : Type} (f : σ → β → σ) (h : ∀ s j, f s j = s) (js : List β) (s : σ) :
    js.foldl f s = s := by
  induction js with
  | nil => rfl
  | cons j js ih => rw [List.foldl_cons, h, ih]

/-- With no slot selected a pass of the parameter loop does nothing. -/
theorem dm2_wheel_turn_param_zero (diff midiadd : Int) (st : dm2wheel × List midi_call)
    (i : Nat) : dm2_wheel_turn_param 0 diff midiadd st i = st := by
  unfold dm2_wheel_turn_param
  simp only [Nat.zero_and, if_true]

/-- Outside the jog mode and the mid-button routing, with a non-zero threshold,
`dm2_wheel_turn` returns the result of the parameter loop over the active slots. -/
theorem dm2_wheel_turn_routed (wheel : dm2wheel) (step : Nat)
    (hjog : ¬ (wheel.pressed = 0 ∧ wheel.light = 0 ∧ wheel.midpressed = 0))
    (hmid : ¬ (wheel.midpressed ≠ 0 ∧ (wheel.midup ≠ 0 ∨ wheel.middown ≠ 0)))
    (hmp : ¬ (wheel.midpressed ≠ 0 ∧ wheel.params.getD DM2_MIDINDEX 0 ≠ 0))
    (ht : wheel.paramthresh ≠ 0) :
    dm2_wheel_turn wheel step =
      some ((List.range 8).foldl
        (dm2_wheel_turn_param (dm2_turn_active wheel) (dm2_turn_diff step)
          (dm2_turn_midiadd wheel step))
        ({ wheel with
            turnacc := Int.tmod (wheel.turnacc + dm2_turn_diff step) (wheel.paramthresh : Int)
            showlight := 1
            wheelused := 1
            whenreleased :=
              if wheel.pressed ≠ 0 then wheel.light &&& not8 wheel.pressed
              else wheel.whenreleased }, [])) := by
  have hpc : ¬ ((wheel.paramthresh : Int) = 0) := by omega
  unfold dm2_wheel_turn dm2_turn_midiadd dm2_turn_thresh dm2_turn_active
  simp only [if_neg hjog, if_neg hmid, if_neg hmp, if_neg hpc]
  by_cases hp : wheel.pressed ≠ 0
  · simp only [if_pos hp]
    rw [if_neg hp]
  · have hp0 : wheel.pressed = 0 := not_not.mp hp
    simp only [if_neg hp]
    by_cases hl : wheel.light = 0
    · rw [if_pos hl, hl]
      rw [foldl_id _ (fun s j => dm2_wheel_turn_param_zero _ _ s j)]
    · rw [if_neg hl]

/-- A pass of the parameter loop for a slot that is not active does nothing. -/
theorem dm2_wheel_turn_param_inactive (params : Nat) (diff midiadd : Int)
    (st : dm2wheel × List midi_call) (i : Nat) (h : params.testBit i = false) :
    dm2_wheel_turn_param params diff midiadd st i = st := by
  unfold dm2_wheel_turn_param
  simp only [and_two_pow_of_not_testBit i params h, if_true]

/-- A pass of the parameter loop for an active absolute slot with a parameter:
the stored value becomes the clamped sum, with one Control-Change when it
changes. -/
theorem dm2_wheel_turn_param_absolute (params : Nat) (diff midiadd : Int) (wheel : dm2wheel)
    (i : Nat) (hi : i < wheel.midivals.length) (h : params.testBit i = true)
    (hpar : wheel.params.getD i 0 ≠ 0) (hrel : wheel.relparams.testBit i = false) :
    ((dm2_wheel_turn_param params diff midiadd (wheel, []) i).1.midivals.getD i 0 : Int) =
        clamp127 ((wheel.midivals.getD i 0 : Int) + midiadd) ∧
      (dm2_wheel_turn_param params diff midiadd (wheel, []) i).2 =
        (if clamp127 ((wheel.midivals.getD i 0 : Int) + midiadd) ≠
            (wheel.midivals.getD i 0 : Int) then
          [⟨0xb0, wheel.params.getD i 0,
            (clamp127 ((wheel.midivals.getD i 0 : Int) + midiadd)).toNat⟩]
        else []) := by
  have hr := clamp127_range ((wheel.midivals.getD i 0 : Int) + midiadd)
  have hu : u8 (clamp127 ((wheel.midivals.getD i 0 : Int) + midiadd)) =
      (clamp127 ((wheel.midivals.getD i 0 : Int) + midiadd)).toNat := by
    unfold u8; congr 1; omega
  have h1 : ¬ (params &&& 2 ^ i = 0) := (and_two_pow_ne_zero i params).mpr h
  have h2 : ¬ (wheel.relparams &&& 2 ^ i ≠ 0) :=
    not_not.mpr ((and_two_pow_eq_zero i wheel.relparams).mpr hrel)
  unfold dm2_wheel_turn_param
  simp only [if_neg h1, if_neg hpar, if_neg h2]
  by_cases hv : clamp127 ((wheel.midivals.getD i 0 : Int) + midiadd) =
      (wheel.midivals.getD i 0 : Int)
  · have hc : ¬ (clamp127 ((wheel.midivals.getD i 0 : Int) + midiadd) ≠
        (wheel.midivals.getD i 0 : Int) ∧ wheel.params.getD i 0 ≠ 0) := fun hh => hh.1 hv
    rw [if_neg hc, if_neg (not_not.mpr hv)]
    exact ⟨hv.symm, rfl⟩
  · have hc : clamp127 ((wheel.midivals.getD i 0 : Int) + midiadd) ≠
        (wheel.midivals.getD i 0 : Int) ∧ wheel.params.getD i 0 ≠ 0 := ⟨hv, hpar⟩
    rw [if_pos hc, if_pos hv]
    simp only [List.nil_append]
    rw [getD_set_self _ _ _ hi, hu]
    refine ⟨?_, rfl⟩
    omega

/-- C24: outside the jog mode and the mid-button routing (threshold
`paramthresh != 0`), `dm2_wheel_turn` returns; the slots that receive the turn are
the pressed slots when `pressed != 0` and the lit slots otherwise: the calls are
those of the active slots in ascending order; an active absolute slot with a
parameter gets the value `clamp(midivals[i] + midiadd, 0, 127)` and sends the
Control-Change (0xB0, params[i], new) exactly when the value changes; a slot outside
the active set keeps its value and sends nothing. -/
theorem dm2_wheel_turn_absolute (wheel : dm2wheel) (step : Nat)
    (hlen : wheel.midivals.length = 8)
    (hjog : ¬ (wheel.pressed = 0 ∧ wheel.light = 0 ∧ wheel.midpressed = 0))
    (hmid : ¬ (wheel.midpressed ≠ 0 ∧
      (wheel.midup ≠ 0 ∨ wheel.middown ≠ 0 ∨ wheel.params.getD DM2_MIDINDEX 0 ≠ 0)))
    (ht : wheel.paramthresh ≠ 0) :
    ∃ (r : dm2wheel × List midi_call) (calls : Nat → List midi_call),
      dm2_wheel_turn wheel step = some r ∧
      dm2_turn_active wheel = (if wheel.pressed ≠ 0 then wheel.pressed else wheel.light) ∧
      dm2_turn_midiadd wheel step =
        Int.tdiv (wheel.turnacc + dm2_turn_diff step) (wheel.paramthresh : Int) ∧
      r.2 = (List.range 8).flatMap calls ∧
      (∀ i, i < 8 → (dm2_turn_active wheel).testBit i = false →
        r.1.midivals.getD i 0 = wheel.midivals.getD i 0 ∧ calls i = []) ∧
      (∀ i, i < 8 → (dm2_turn_active wheel).testBit i = true →
        wheel.params.getD i 0 ≠ 0 → wheel.relparams.testBit i = false →
        (r.1.midivals.getD i 0 : Int) =
            clamp127 ((wheel.midivals.getD i 0 : Int) + dm2_turn_midiadd wheel step) ∧
          calls i =
            (if clamp127 ((wheel.midivals.getD i 0 : Int) + dm2_turn_midiadd wheel step) ≠
                (wheel.midivals.getD i 0 : Int) then
              [⟨0xb0, wheel.params.getD i 0,
                (clamp127 ((wheel.midivals.getD i 0 : Int) +
                  dm2_turn_midiadd wheel step)).toNat⟩]
            else [])) := by
  have hmid1 : ¬ (wheel.midpressed ≠ 0 ∧ (wheel.midup ≠ 0 ∨ wheel.middown ≠ 0)) :=
    fun h => hmid ⟨h.1, h.2.elim Or.inl (fun x => Or.inr (Or.inl x))⟩
  have hmid2 : ¬ (wheel.midpressed ≠ 0 ∧ wheel.params.getD DM2_MIDINDEX 0 ≠ 0) :=
    fun h => hmid ⟨h.1, Or.inr (Or.inr h.2)⟩
  obtain ⟨e1, e2, e3, e4⟩ := dm2_wheel_turn_loop_spec (dm2_turn_active wheel)
    (dm2_turn_diff step) (dm2_turn_midiadd wheel step) (List.range 8)
    ({ wheel with
        turnacc := Int.tmod (wheel.turnacc + dm2_turn_diff step) (wheel.paramthresh : Int)
        showlight := 1
        wheelused := 1
        whenreleased :=
          if wheel.pressed ≠ 0 then wheel.light &&& not8 wheel.pressed
          else wheel.whenreleased }, []) (List.nodup_range 8)
  have hloc : ∀ i,
      (dm2_wheel_turn_param (dm2_turn_active wheel) (dm2_turn_diff step)
          (dm2_turn_midiadd wheel step)
          ({ wheel with
            turnacc := Int.tmod (wheel.turnacc + dm2_turn_diff step) (wheel.paramthresh : Int)
            showlight := 1
            wheelused := 1
            whenreleased :=
              if wheel.pressed ≠ 0 then wheel.light &&& not8 wheel.pressed
              else wheel.whenreleased }, []) i).2 =
        (dm2_wheel_turn_param (dm2_turn_active wheel) (dm2_turn_diff step)
          (dm2_turn_midiadd wheel step) (wheel, []) i).2 ∧
      (dm2_wheel_turn_param (dm2_turn_active wheel) (dm2_turn_diff step)
          (dm2_turn_midiadd wheel step)
          ({ wheel with
            turnacc := Int.tmod (wheel.turnacc + dm2_turn_diff step) (wheel.paramthresh : Int)
            showlight := 1
            wheelused := 1
            whenreleased :=
              if wheel.pressed ≠ 0 then wheel.light &&& not8 wheel.pressed
              else wheel.whenreleased }, []) i).1.midivals.getD i 0 =
        (dm2_wheel_turn_param (dm2_turn_active wheel) (dm2_turn_diff step)
          (dm2_turn_midiadd wheel step) (wheel, []) i).1.midivals.getD i 0 := by
    intro i
    exact dm2_wheel_turn_param_local _ _ _ _ wheel i rfl rfl rfl rfl
  refine ⟨_, fun i => (dm2_wheel_turn_param (dm2_turn_active wheel) (dm2_turn_diff step)
      (dm2_turn_midiadd wheel step) (wheel, []) i).2,
    dm2_wheel_turn_routed wheel step hjog hmid1 hmid2 ht, rfl, ?_, ?_, ?_, ?_⟩
  · unfold dm2_turn_midiadd dm2_turn_thresh
    rw [if_neg hmid1]
  · rw [e1, List.nil_append]
    apply List.flatMap_congr
    intro i _
    exact (hloc i).1
  · intro i hi hb
    have hmem : i ∈ List.range 8 := List.mem_range.mpr hi
    rw [e4 i hmem, (hloc i).2]
    refine ⟨?_, ?_⟩
    · rw [dm2_wheel_turn_param_inactive _ _ _ _ i hb]
    · show (dm2_wheel_turn_param (dm2_turn_active wheel) (dm2_turn_diff step)
        (dm2_turn_midiadd wheel step) (wheel, []) i).2 = []
      rw [dm2_wheel_turn_param_inactive _ _ _ _ i hb]
  · intro i hi hb hpar hrel
    have hmem : i ∈ List.range 8 := List.mem_range.mpr hi
    rw [e4 i hmem, (hloc i).2]
    exact dm2_wheel_turn_param_absolute _ _ _ wheel i (by omega) hb hpar hrel

/-- Witness of C24: the first wheel of the attached device with slot 0 held, turned
by `d = 4`. -/
theorem dm2_wheel_turn_absolute_witness :
    ∃ (r : dm2wheel × List midi_call) (calls : Nat → List midi_call),
      dm2_wheel_turn dm2_wheel_held_example 0xfc = some r ∧
      dm2_turn_active dm2_wheel_held_example =
        (if dm2_wheel_held_example.pressed ≠ 0 then dm2_wheel_held_example.pressed
          else dm2_wheel_held_example.light) ∧
      dm2_turn_midiadd dm2_wheel_held_example 0xfc =
        Int.tdiv (dm2_wheel_held_example.turnacc + dm2_turn_diff 0xfc)
          (dm2_wheel_held_example.paramthresh : Int) ∧
      r.2 = (List.range 8).flatMap calls ∧
      (∀ i, i < 8 → (dm2_turn_active dm2_wheel_held_example).testBit i = false →
        r.1.midivals.getD i 0 = dm2_wheel_held_example.midivals.getD i 0 ∧ calls i = []) ∧
      (∀ i, i < 8 → (dm2_turn_active dm2_wheel_held_example).testBit i = true →
        dm2_wheel_held_example.params.getD i 0 ≠ 0 →
        dm2_wheel_held_example.relparams.testBit i = false →
        (r.1.midivals.getD i 0 : Int) =
            clamp127 ((dm2_wheel_held_example.midivals.getD i 0 : Int) +
              dm2_turn_midiadd dm2_wheel_held_example 0xfc) ∧
          calls i =
            (if clamp127 ((dm2_wheel_held_example.midivals.getD i 0 : Int) +
                  dm2_turn_midiadd dm2_wheel_held_example 0xfc) ≠
                (dm2_wheel_held_example.midivals.getD i 0 : Int) then
              [⟨0xb0, dm2_wheel_held_example.params.getD i 0,
                (clamp127 ((dm2_wheel_held_example.midivals.getD i 0 : Int) +
                  dm2_turn_midiadd dm2_wheel_held_example 0xfc)).toNat⟩]
            else [])) :=
  dm2_wheel_turn_absolute dm2_wheel_held_example 0xfc (by decide) (by decide) (by decide)
    (by decide)

/-! ## Wheel turns with an unconfigured mid button -/

/-- A loop over slots without repetition whose pass for slot `i` reads and writes
only `midivals[i]` and appends its calls: the calls are those of the passes, each
taken on the wheel before the loop; the stored value of a slot in the list is the
one its pass gives, the others are kept. -/
theorem slot_loop_spec (f : dm2wheel × List midi_call → Nat → dm2wheel × List midi_call)
    (hev : ∀ st i, f st i = ((f (st.1, []) i).1, st.2 ++ (f (st.1, []) i).2))
    (hoth : ∀ st i, (f st i).1.midivals.length = st.1.midivals.length ∧
      ∀ k, k ≠ i → (f st i).1.midivals.getD k 0 = st.1.midivals.getD k 0)
    (hloc : ∀ st i k, k ≠ i →
      (f ((f st i).1, []) k).2 = (f (st.1, []) k).2 ∧
        (f ((f st i).1, []) k).1.midivals.getD k 0 = (f (st.1, []) k).1.midivals.getD k 0)
    (js : List Nat) :
    ∀ st : dm2wheel × List midi_call, js.Nodup →
      (js.foldl f st).2 = st.2 ++ js.flatMap (fun j => (f (st.1, []) j).2) ∧
        (js.foldl f st).1.midivals.length = st.1.midivals.length ∧
        (∀ k, k ∉ js → (js.foldl f st).1.midivals.getD k 0 = st.1.midivals.getD k 0) ∧
        (∀ k, k ∈ js →
          (js.foldl f st).1.midivals.getD k 0 = (f (st.1, []) k).1.midivals.getD k 0) := by
  induction js with
  | nil =>
    intro st _
    refine ⟨by simp, rfl, fun _ _ => rfl, ?_⟩
    intro k hk
    exact absurd hk (List.not_mem_nil k)
  | cons j js ih =>
    intro st hnd
    have hj : j ∉ js := (List.nodup_cons.mp hnd).1
    obtain ⟨e1, e2, e3, e4⟩ := ih (f st j) (List.nodup_cons.mp hnd).2
    obtain ⟨o1, o2⟩ := hoth st j
    have hev1 := hev st j
    simp only [List.foldl_cons, List.flatMap_cons]
    refine ⟨?_, ?_, ?_, ?_⟩
    · rw [e1]
      have hc : js.flatMap (fun k => (f ((f st j).1, []) k).2) =
          js.flatMap (fun k => (f (st.1, []) k).2) := by
        apply List.flatMap_congr
        intro k hk
        exact (hloc st j k (fun h => hj (h ▸ hk))).1
      rw [hc]
      conv_lhs => rw [hev1]
      simp only [List.append_assoc]
    · rw [e2, o1]
    · intro k hk
      have hk1 : k ≠ j := fun h => hk (h ▸ List.mem_cons_self j js)
      have hk2 : k ∉ js := fun h => hk (List.mem_cons_of_mem j h)
      rw [e3 k hk2, o2 k hk1]
    · intro k hk
      rcases List.mem_cons.mp hk with h1 | h1
      · rw [h1, e3 j hj]
        conv_lhs => rw [hev1]
      · rw [e4 k h1]
        exact (hloc st j k (fun h => hj (h ▸ h1))).2

/-- A pass of the reset loop of `dm2_wheel_update` for slot `i`, on a wheel with
room for the slot: the stored value becomes 64 when the slot is lit and has a
parameter, with one Control-Change when the value was not 64. -/
theorem dm2_wheel_update_reset_pass (newlight : Nat) (wheel : dm2wheel) (i : Nat)
    (hi : i < wheel.midivals.length) :
    (dm2_wheel_update_reset newlight (wheel, []) i).1.midivals.getD i 0 =
        (if newlight.testBit i = true ∧ wheel.params.getD i 0 ≠ 0 then 64
          else wheel.midivals.getD i 0) ∧
      (dm2_wheel_update_reset newlight (wheel, []) i).2 =
        (if newlight.testBit i = true ∧ wheel.params.getD i 0 ≠ 0 ∧
            wheel.midivals.getD i 0 ≠ 64 then [⟨0xb0, wheel.params.getD i 0, 64⟩]
          else []) := by
  unfold dm2_wheel_update_reset
  simp only []
  cases hb : newlight.testBit i
  · rw [if_pos (two_pow_and_of_not_testBit i newlight hb),
      if_neg (fun h => Bool.false_ne_true h.1), if_neg (fun h => Bool.false_ne_true h.1)]
    exact ⟨rfl, rfl⟩
  · have h1 : ¬ (2 ^ i &&& newlight = 0) := (two_pow_and_ne_zero i newlight).mpr hb
    rw [if_neg h1]
    by_cases hp : wheel.params.getD i 0 = 0
    · rw [if_pos hp, if_neg (fun h => h.2 hp), if_neg (fun h => h.2.1 hp)]
      exact ⟨rfl, rfl⟩
    · have c1 : true = true ∧ wheel.params.getD i 0 ≠ 0 := ⟨rfl, hp⟩
      rw [if_neg hp, if_pos c1]
      by_cases hv : wheel.midivals.getD i 0 = 64
      · have c2 : ¬ (true = true ∧ wheel.params.getD i 0 ≠ 0 ∧ wheel.midivals.getD i 0 ≠ 64) :=
          fun h => h.2.2 hv
        rw [if_pos hv, if_neg c2]
        exact ⟨hv, rfl⟩
      · have c2 : true = true ∧ wheel.params.getD i 0 ≠ 0 ∧ wheel.midivals.getD i 0 ≠ 64 :=
          ⟨rfl, hp, hv⟩
        rw [if_neg hv, if_pos c2]
        exact ⟨getD_set_self _ _ _ hi, rfl⟩

/-- The reset loop of `dm2_wheel_update` on a wheel with eight stored values: the
value of every lit slot with a parameter becomes 64, the others are kept; one
Control-Change per lit slot with a parameter whose value was not 64, in ascending
order. -/
theorem dm2_wheel_update_reset_spec (newlight : Nat) (wheel : dm2wheel)
    (evs : List midi_call) (hlen : wheel.midivals.length = 8) :
    ((List.range 8).foldl (dm2_wheel_update_reset newlight) (wheel, evs)).2 =
        evs ++ (List.range 8).flatMap (fun i =>
          if newlight.testBit i = true ∧ wheel.params.getD i 0 ≠ 0 ∧
              wheel.midivals.getD i 0 ≠ 64 then [⟨0xb0, wheel.params.getD i 0, 64⟩]
          else []) ∧
      ∀ i, ((List.range 8).foldl (dm2_wheel_update_reset newlight) (wheel, evs)).1.midivals.getD
          i 0 =
        (if i < 8 ∧ newlight.testBit i = true ∧ wheel.params.getD i 0 ≠ 0 then 64
          else wheel.midivals.getD i 0) := by
  have hev : ∀ st i, dm2_wheel_update_reset newlight st i =
      ((dm2_wheel_update_reset newlight (st.1, []) i).1,
        st.2 ++ (dm2_wheel_update_reset newlight (st.1, []) i).2) := by
    intro st i
    unfold dm2_wheel_update_reset
    simp only []
    split_ifs <;> simp only [List.nil_append, List.append_nil]
  have hoth : ∀ st i,
      (dm2_wheel_update_reset newlight st i).1.midivals.length = st.1.midivals.length ∧
      ∀ k, k ≠ i → (dm2_wheel_update_reset newlight st i).1.midivals.getD k 0 =
        st.1.midivals.getD k 0 := by
    intro st i
    unfold dm2_wheel_update_reset
    simp only []
    split_ifs
    all_goals first
      | exact ⟨rfl, fun _ _ => rfl⟩
      | exact ⟨List.length_set _ _ _, fun k hk => getD_set_ne _ _ _ _ hk⟩
  have hlocal : ∀ (w1 w2 : dm2wheel) (k : Nat), w1.params = w2.params →
      w1.midivals.length = w2.midivals.length →
      w1.midivals.getD k 0 = w2.midivals.getD k 0 →
      (dm2_wheel_update_reset newlight (w1, []) k).2 =
          (dm2_wheel_update_reset newlight (w2, []) k).2 ∧
        (dm2_wheel_update_reset newlight (w1, []) k).1.midivals.getD k 0 =
          (dm2_wheel_update_reset newlight (w2, []) k).1.midivals.getD k 0 := by
    intro w1 w2 k hp hl hv
    have hset : ∀ v, (w1.midivals.set k v).getD k 0 = (w2.midivals.set k v).getD k 0 := by
      intro v
      by_cases hi : k < w1.midivals.length
      · rw [getD_set_self _ _ _ hi, getD_set_self _ _ _ (hl ▸ hi)]
      · rw [List.set_eq_of_length_le (by omega), List.set_eq_of_length_le (by omega), hv]
    unfold dm2_wheel_update_reset
    simp only [hp, hv]
    split_ifs
    all_goals first
      | exact ⟨rfl, hv⟩
      | exact ⟨rfl, hset _⟩
  have hloc : ∀ st i k, k ≠ i →
      (dm2_wheel_update_reset newlight ((dm2_wheel_update_reset newlight st i).1, []) k).2 =
          (dm2_wheel_update_reset newlight (st.1, []) k).2 ∧
        (dm2_wheel_update_reset newlight
            ((dm2_wheel_update_reset newlight st i).1, []) k).1.midivals.getD k 0 =
          (dm2_wheel_update_reset newlight (st.1, []) k).1.midivals.getD k 0 := by
    intro st i k hk
    obtain ⟨m, hm⟩ := dm2_wheel_update_reset_frame newlight [i] st
    simp only [List.foldl_cons, List.foldl_nil] at hm
    apply hlocal
    · rw [hm]
    · exact (hoth st i).1
    · exact (hoth st i).2 k hk
  obtain ⟨e1, _, e3, e4⟩ := slot_loop_spec (dm2_wheel_update_reset newlight) hev hoth hloc
    (List.range 8) (wheel, evs) (List.nodup_range 8)
  refine ⟨?_, ?_⟩
  · rw [e1]
    congr 1
    apply List.flatMap_congr
    intro i hi
    exact (dm2_wheel_update_reset_pass newlight wheel i
      (by rw [hlen]; exact List.mem_range.mp hi)).2
  · intro i
    by_cases hi : i < 8
    · rw [e4 i (List.mem_range.mpr hi),
        (dm2_wheel_update_reset_pass newlight wheel i (by rw [hlen]; exact hi)).1]
      simp only [hi, true_and]
    · rw [e3 i (fun h => hi (List.mem_range.mp h))]
      simp only [hi, false_and, if_false]

/-! ## Wheel rings: the calls of an update -/

/-- The calls of the note loop are Note-On messages. -/
theorem dm2_wheel_update_note_cmd (wheel : dm2wheel) (releases flagson flagsoff i : Nat) :
    ∀ e ∈ dm2_wheel_update_note wheel releases flagson flagsoff i, e.cmd = 0x90 := by
  intro e he
  unfold dm2_wheel_update_note at he
  simp only [] at he
  split_ifs at he <;>
    simp only [List.mem_append, List.mem_singleton, List.not_mem_nil, or_false, false_or,
      or_self] at he <;>
    first
    | exact absurd he id
    | (rcases he with h1 | h1 <;> rw [h1])
    | rw [he]

/-- The clear bit goes from 0 to 1 exactly when `reset = presses & DM2_CLR` is
non-zero. -/
theorem reset_ne_zero (pressed curr : Nat) :
    (not8 pressed &&& curr) &&& DM2_CLR ≠ 0 ↔
      (pressed.testBit 3 = false ∧ curr.testBit 3 = true) := by
  have e : DM2_CLR = 2 ^ 3 := by decide
  rw [e, and_two_pow_ne_zero, Nat.testBit_and, testBit_not8]
  cases pressed.testBit 3 <;> cases curr.testBit 3 <;> simp

/-- A `dm2_wheel_update` that changes the state: the wheel before the reset loop
has the configuration and stored values of the wheel, and the result is that wheel
with the calls of the note loop and of the mid key, followed by the reset loop when
the clear bit went from 0 to 1. -/
theorem dm2_wheel_update_shape (wheel : dm2wheel) (curr currmid : Nat)
    (hne : ¬ (wheel.pressed = curr ∧ wheel.midpressed = currmid &&& DM2_MIDMASK)) :
    ∃ (w : dm2wheel) (nl : Nat),
      w.params = wheel.params ∧ w.midivals = wheel.midivals ∧ w.light = nl ∧
      dm2_wheel_update wheel curr currmid =
        (if (not8 wheel.pressed &&& curr) &&& DM2_CLR = 0 then
          (w, (List.range 8).flatMap (dm2_wheel_update_note { wheel with turnacc := 0 }
              (wheel.pressed &&& not8 curr)
              ((not8 wheel.pressed &&& curr) &&& (wheel.notoggle ||| not8 wheel.light))
              ((wheel.pressed &&& not8 curr) &&& (wheel.notoggle ||| not8 wheel.whenreleased))) ++
            (if wheel.midpressed &&& not8 (currmid &&& DM2_MIDMASK) ≠ 0 ∧ wheel.midrel ≠ 0 ∧
                wheel.wheelused ≠ 0 then [(⟨0x90, wheel.midrel, 0x7f⟩ : midi_call)] else []))
        else
          (List.range 8).foldl (dm2_wheel_update_reset nl)
            (w, (List.range 8).flatMap (dm2_wheel_update_note { wheel with turnacc := 0 }
              (wheel.pressed &&& not8 curr)
              ((not8 wheel.pressed &&& curr) &&& (wheel.notoggle ||| not8 wheel.light))
              ((wheel.pressed &&& not8 curr) &&& (wheel.notoggle ||| not8 wheel.whenreleased))) ++
            (if wheel.midpressed &&& not8 (currmid &&& DM2_MIDMASK) ≠ 0 ∧ wheel.midrel ≠ 0 ∧
                wheel.wheelused ≠ 0 then [(⟨0x90, wheel.midrel, 0x7f⟩ : midi_call)] else []))) := by
  unfold dm2_wheel_update
  simp only []
  rw [if_neg hne]
  by_cases hr : (not8 wheel.pressed &&& curr) &&& DM2_CLR = 0
  · simp only [if_pos hr]
    refine ⟨_, _, ?_, ?_, rfl, rfl⟩ <;> rfl
  · simp only [if_neg hr]
    refine ⟨_, _, ?_, ?_, ?_, rfl⟩ <;> rfl

/-- The calls and the stored values of a `dm2_wheel_update` that changes the
state, for a wheel with eight stored values: the calls of the note loop, the call
for the mid key, and, when the clear bit went from 0 to 1, one Control-Change
(0xB0, param, 64) for every slot that is lit afterwards, has a parameter and a
stored value other than 64; these stored values become 64, the others are kept. -/
theorem dm2_wheel_update_calls (wheel : dm2wheel) (curr currmid : Nat)
    (hlen : wheel.midivals.length = 8)
    (hne : ¬ (wheel.pressed = curr ∧ wheel.midpressed = currmid &&& DM2_MIDMASK)) :
    (dm2_wheel_update wheel curr currmid).2 =
        ((List.range 8).flatMap (dm2_wheel_update_note { wheel with turnacc := 0 }
            (wheel.pressed &&& not8 curr)
            ((not8 wheel.pressed &&& curr) &&& (wheel.notoggle ||| not8 wheel.light))
            ((wheel.pressed &&& not8 curr) &&& (wheel.notoggle ||| not8 wheel.whenreleased))) ++
          (if wheel.midpressed &&& not8 (currmid &&& DM2_MIDMASK) ≠ 0 ∧ wheel.midrel ≠ 0 ∧
              wheel.wheelused ≠ 0 then [(⟨0x90, wheel.midrel, 0x7f⟩ : midi_call)] else [])) ++
          (if wheel.pressed.testBit 3 = false ∧ curr.testBit 3 = true then
            (List.range 8).flatMap (fun i =>
              if (dm2_wheel_update wheel curr currmid).1.light.testBit i = true ∧
                  wheel.params.getD i 0 ≠ 0 ∧ wheel.midivals.getD i 0 ≠ 64 then
                [(⟨0xb0, wheel.params.getD i 0, 64⟩ : midi_call)]
              else [])
          else []) ∧
      (∀ i, (dm2_wheel_update wheel curr currmid).1.midivals.getD i 0 =
        (if (wheel.pressed.testBit 3 = false ∧ curr.testBit 3 = true) ∧ i < 8 ∧
            (dm2_wheel_update wheel curr currmid).1.light.testBit i = true ∧
            wheel.params.getD i 0 ≠ 0 then 64
          else wheel.midivals.getD i 0)) := by
  obtain ⟨w, nl, hp, hm, hnl, hw⟩ := dm2_wheel_update_shape wheel curr currmid hne
  subst hnl
  have hrs := reset_ne_zero wheel.pressed curr
  by_cases hr : (not8 wheel.pressed &&& curr) &&& DM2_CLR = 0
  · have hc : ¬ (wheel.pressed.testBit 3 = false ∧ curr.testBit 3 = true) :=
      fun h => (hrs.mpr h) hr
    rw [if_pos hr] at hw
    rw [hw]
    simp only [if_neg hc, List.append_nil]
    refine ⟨trivial, fun i => ?_⟩
    rw [hm, if_neg (fun h => hc h.1)]
  · have hc : wheel.pressed.testBit 3 = false ∧ curr.testBit 3 = true := hrs.mp hr
    rw [if_neg hr] at hw
    have hl : ∀ evs, ((List.range 8).foldl (dm2_wheel_update_reset w.light) (w, evs)).1.light =
        w.light := fun evs => dm2_wheel_update_reset_light _ _ _
    obtain ⟨s1, s2⟩ := dm2_wheel_update_reset_spec w.light w
      ((List.range 8).flatMap (dm2_wheel_update_note { wheel with turnacc := 0 }
            (wheel.pressed &&& not8 curr)
            ((not8 wheel.pressed &&& curr) &&& (wheel.notoggle ||| not8 wheel.light))
            ((wheel.pressed &&& not8 curr) &&& (wheel.notoggle ||| not8 wheel.whenreleased))) ++
          (if wheel.midpressed &&& not8 (currmid &&& DM2_MIDMASK) ≠ 0 ∧ wheel.midrel ≠ 0 ∧
              wheel.wheelused ≠ 0 then [(⟨0x90, wheel.midrel, 0x7f⟩ : midi_call)] else []))
      (by rw [hm]; exact hlen)
    rw [hw, if_pos hc, hl, s1, hp, hm]
    refine ⟨rfl, ?_⟩
    intro i
    rw [s2 i, hp, hm]
    simp only [hc, and_self, true_and]

/-- C28: for a wheel with eight stored values, the calls of `dm2_wheel_update` are
Note-On messages followed, on a tick in which the clear bit (mask 0x08) goes from 0
to 1, by one Control-Change (0xB0, param, 64) for every slot that is lit in the
resulting light mask, has a parameter and a stored value other than 64, in
ascending order; the stored values of the lit slots with a parameter become 64 and
every other stored value is unchanged.  On a tick in which the clear bit does not
go from 0 to 1 there is no Control-Change and no stored value changes. -/
theorem dm2_wheel_update_clear (wheel : dm2wheel) (curr currmid : Nat)
    (hlen : wheel.midivals.length = 8) :
    ∃ notes : List midi_call,
      (∀ e ∈ notes, e.cmd = 0x90) ∧
      (dm2_wheel_update wheel curr currmid).2 =
        notes ++
          (if wheel.pressed.testBit 3 = false ∧ curr.testBit 3 = true then
            (List.range 8).flatMap (fun i =>
              if (dm2_wheel_update wheel curr currmid).1.light.testBit i = true ∧
                  wheel.params.getD i 0 ≠ 0 ∧ wheel.midivals.getD i 0 ≠ 64 then
                [(⟨0xb0, wheel.params.getD i 0, 64⟩ : midi_call)]
              else [])
          else []) ∧
      (∀ i, (dm2_wheel_update wheel curr currmid).1.midivals.getD i 0 =
        (if (wheel.pressed.testBit 3 = false ∧ curr.testBit 3 = true) ∧ i < 8 ∧
            (dm2_wheel_update wheel curr currmid).1.light.testBit i = true ∧
            wheel.params.getD i 0 ≠ 0 then 64
          else wheel.midivals.getD i 0)) ∧
      (dm2_wheel_update wheel curr currmid).1.params = wheel.params := by
  by_cases hne : wheel.pressed = curr ∧ wheel.midpressed = currmid &&& DM2_MIDMASK
  · have hu : dm2_wheel_update wheel curr currmid = (wheel, []) := by
      unfold dm2_wheel_update
      simp only []
      rw [if_pos hne]
    have hc : ¬ (wheel.pressed.testBit 3 = false ∧ curr.testBit 3 = true) := by
      rw [hne.1]
      cases curr.testBit 3 <;> simp
    refine ⟨[], fun e he => absurd he (List.not_mem_nil e), ?_, ?_, ?_⟩
    · rw [hu, if_neg hc]
      rfl
    · intro i
      rw [hu, if_neg (fun h => hc h.1)]
    · rw [hu]
  · obtain ⟨c1, c2⟩ := dm2_wheel_update_calls wheel curr currmid hlen hne
    obtain ⟨w, nl, hp, _, _, hw⟩ := dm2_wheel_update_shape wheel curr currmid hne
    refine ⟨_, ?_, c1, c2, ?_⟩
    · intro e he
      rcases List.mem_append.mp he with h1 | h1
      · obtain ⟨i, _, hi⟩ := List.mem_flatMap.mp h1
        exact dm2_wheel_update_note_cmd _ _ _ _ i e hi
      · split_ifs at h1
        · rw [List.mem_singleton.mp h1]
        · exact absurd h1 (List.not_mem_nil e)
    · have key : ∀ st : dm2wheel × List midi_call,
          ((List.range 8).foldl (dm2_wheel_update_reset nl) st).1.params = st.1.params := by
        intro st
        obtain ⟨m, hm⟩ := dm2_wheel_update_reset_frame nl (List.range 8) st
        rw [hm]
      by_cases hr : (not8 wheel.pressed &&& curr) &&& DM2_CLR = 0
      · rw [if_pos hr] at hw
        rw [hw]
        exact hp
      · rw [if_neg hr] at hw
        rw [hw]
        exact (key _).trans hp

/-- Witness of C28: on the first wheel of the attached device with slot 0 held
and its stored value turned to 65, the clear bit is pressed. -/
theorem dm2_wheel_update_clear_witness :
    ∃ notes : List midi_call,
      (∀ e ∈ notes, e.cmd = 0x90) ∧
      (dm2_wheel_update dm2_wheel_turned_example 0x09 0).2 =
        notes ++
          (if dm2_wheel_turned_example.pressed.testBit 3 = false ∧
              (0x09 : Nat).testBit 3 = true then
            (List.range 8).flatMap (fun i =>
              if (dm2_wheel_update dm2_wheel_turned_example 0x09 0).1.light.testBit i = true ∧
                  dm2_wheel_turned_example.params.getD i 0 ≠ 0 ∧
                  dm2_wheel_turned_example.midivals.getD i 0 ≠ 64 then
                [(⟨0xb0, dm2_wheel_turned_example.params.getD i 0, 64⟩ : midi_call)]
              else [])
          else []) ∧
      (∀ i, (dm2_wheel_update dm2_wheel_turned_example 0x09 0).1.midivals.getD i 0 =
        (if (dm2_wheel_turned_example.pressed.testBit 3 = false ∧
              (0x09 : Nat).testBit 3 = true) ∧ i < 8 ∧
            (dm2_wheel_update dm2_wheel_turned_example 0x09 0).1.light.testBit i = true ∧
            dm2_wheel_turned_example.params.getD i 0 ≠ 0 then 64
          else dm2_wheel_turned_example.midivals.getD i 0)) ∧
      (dm2_wheel_update dm2_wheel_turned_example 0x09 0).1.params =
        dm2_wheel_turned_example.params :=
  dm2_wheel_update_clear dm2_wheel_turned_example 0x09 0 (by decide)

/-! ## Wheel rings: the release pulse -/

/-- C25 counterexample: slot 0 of the example wheel has a note, a parameter and
toggling enabled.  Released right after the press (wheel not used, the slot being in
the release-target set `whenreleased`) it sends nothing; released after a turn
(wheel used) it sends the Note-On pulse although it is not a no-toggle slot. -/
theorem dm2_wheel_update_pulse_not_as_claimed :
    dm2_wheel_toggle_example.notoggle.testBit 0 = false ∧
      (dm2_wheel_update dm2_wheel_toggle_example 0x01 0).1.wheelused = 0 ∧
      (dm2_wheel_update dm2_wheel_toggle_example 0x01 0).1.whenreleased.testBit 0 = true ∧
      (dm2_wheel_update (dm2_wheel_update dm2_wheel_toggle_example 0x01 0).1 0x00 0).2 = [] ∧
      (dm2_wheel_turn (dm2_wheel_update dm2_wheel_toggle_example 0x01 0).1 0xfc).map
          (fun r => (r.1.wheelused, r.1.whenreleased.testBit 0,
            (dm2_wheel_update r.1 0x00 0).2)) =
        some (1, false, [⟨0x90, 16, 0x7f⟩]) := by
  decide

/-- The pass of the note loop of `dm2_wheel_update` for a released slot with a
note and a parameter. -/
theorem dm2_wheel_update_note_released (wheel : dm2wheel) (releases flagson flagsoff i : Nat)
    (hi : i < 8) (hnote : wheel.notes.getD i 0 ≠ 0) (hpar : wheel.params.getD i 0 ≠ 0)
    (hrel : releases.testBit i = true) :
    dm2_wheel_update_note wheel releases flagson flagsoff i =
      (if (wheel.wheelused ≠ 0 ∧ wheel.notoggle.testBit i = false ∧
            wheel.whenreleased.testBit i = false) ∨
          (wheel.wheelused = 0 ∧ wheel.notoggle.testBit i = true) then
        [⟨0x90, wheel.notes.getD i 0, 0x7f⟩]
      else []) := by
  have e0 : 2 ^ i &&& releases = 2 ^ i := two_pow_and_of_testBit i releases hrel
  have hz : (2 : Nat) ^ i ≠ 0 := two_pow_ne_zero i
  unfold dm2_wheel_update_note
  simp only [if_neg hnote, if_neg hpar, e0]
  cases hn : wheel.notoggle.testBit i
  · have e1 : 2 ^ i &&& not8 wheel.notoggle = 2 ^ i := by
      apply two_pow_and_of_testBit
      rw [testBit_not8, hn]; simp [hi]
    have e2 : 2 ^ i &&& wheel.notoggle = 0 := two_pow_and_of_not_testBit i _ hn
    rw [e1, e2]
    cases hw : wheel.whenreleased.testBit i
    · have e3 : 2 ^ i &&& not8 wheel.whenreleased = 2 ^ i := by
        apply two_pow_and_of_testBit
        rw [testBit_not8, hw]; simp [hi]
      rw [e3]
      simp [hz]
    · have e3 : 2 ^ i &&& not8 wheel.whenreleased = 0 := by
        apply two_pow_and_of_not_testBit
        rw [testBit_not8, hw]; simp
      rw [e3]
      simp
  · have e1 : 2 ^ i &&& not8 wheel.notoggle = 0 := by
      apply two_pow_and_of_not_testBit
      rw [testBit_not8, hn]; simp
    have e2 : 2 ^ i &&& wheel.notoggle = 2 ^ i := two_pow_and_of_testBit i _ hn
    rw [e1, e2]
    simp [hz]

/-- C25 amended: for a ring slot with a note and a parameter, on a
`dm2_wheel_update` tick in which the slot is released, the calls are those of the
note loop over the slots followed by the call for the mid key and the
Control-Changes of the reset loop, and the pass of the note loop for the slot sends
the one Note-On (note, 127) exactly when the wheel was used and the slot is a
toggle-type slot that is not in the release-target set `whenreleased`, or the wheel
was not used and the slot is a no-toggle slot; otherwise it sends nothing. -/
theorem dm2_wheel_update_release_pulse (wheel : dm2wheel) (curr currmid i : Nat)
    (hlen : wheel.midivals.length = 8) (hi : i < 8)
    (hnote : wheel.notes.getD i 0 ≠ 0) (hpar : wheel.params.getD i 0 ≠ 0)
    (hrel : wheel.pressed.testBit i = true ∧ curr.testBit i = false) :
    ∃ (slots : Nat → List midi_call) (rest : List midi_call),
      slots = dm2_wheel_update_note { wheel with turnacc := 0 } (wheel.pressed &&& not8 curr)
        ((not8 wheel.pressed &&& curr) &&& (wheel.notoggle ||| not8 wheel.light))
        ((wheel.pressed &&& not8 curr) &&& (wheel.notoggle ||| not8 wheel.whenreleased)) ∧
      (dm2_wheel_update wheel curr currmid).2 = (List.range 8).flatMap slots ++ rest ∧
      (∀ e ∈ rest, e = ⟨0x90, wheel.midrel, 0x7f⟩ ∨ e.cmd = 0xb0) ∧
      slots i =
        (if (wheel.wheelused ≠ 0 ∧ wheel.notoggle.testBit i = false ∧
              wheel.whenreleased.testBit i = false) ∨
            (wheel.wheelused = 0 ∧ wheel.notoggle.testBit i = true) then
          [⟨0x90, wheel.notes.getD i 0, 0x7f⟩]
        else []) := by
  have hne : ¬ (wheel.pressed = curr ∧ wheel.midpressed = currmid &&& DM2_MIDMASK) := by
    intro h
    rw [h.1, hrel.2] at hrel
    exact Bool.false_ne_true hrel.1
  have hr : (wheel.pressed &&& not8 curr).testBit i = true := by
    rw [Nat.testBit_and, testBit_not8, hrel.1, hrel.2]; simp [hi]
  obtain ⟨c1, _⟩ := dm2_wheel_update_calls wheel curr currmid hlen hne
  refine ⟨_,
    (if wheel.midpressed &&& not8 (currmid &&& DM2_MIDMASK) ≠ 0 ∧ wheel.midrel ≠ 0 ∧
        wheel.wheelused ≠ 0 then [(⟨0x90, wheel.midrel, 0x7f⟩ : midi_call)] else []) ++
      (if wheel.pressed.testBit 3 = false ∧ curr.testBit 3 = true then
        (List.range 8).flatMap (fun i =>
          if (dm2_wheel_update wheel curr currmid).1.light.testBit i = true ∧
              wheel.params.getD i 0 ≠ 0 ∧ wheel.midivals.getD i 0 ≠ 64 then
            [(⟨0xb0, wheel.params.getD i 0, 64⟩ : midi_call)]
          else [])
      else []), rfl, ?_, ?_, ?_⟩
  · rw [c1, List.append_assoc]
  · intro e he
    rcases List.mem_append.mp he with h1 | h1
    · split_ifs at h1
      · exact Or.inl (List.mem_singleton.mp h1)
      · exact absurd h1 (List.not_mem_nil e)
    · split_ifs at h1
      · obtain ⟨j, _, hj⟩ := List.mem_flatMap.mp h1
        split_ifs at hj
        · rw [List.mem_singleton.mp hj]
          exact Or.inr rfl
        · exact absurd hj (List.not_mem_nil e)
      · exact absurd h1 (List.not_mem_nil e)
  · exact dm2_wheel_update_note_released { wheel with turnacc := 0 } _ _ _ i hi hnote hpar hr

/-- Witness of C25 amended: slot 0 of the example wheel, held while the wheel was
turned, is released. -/
theorem dm2_wheel_update_release_pulse_witness :
    ∃ (slots : Nat → List midi_call) (rest : List midi_call),
      slots = dm2_wheel_update_note { dm2_wheel_used_example with turnacc := 0 }
        (dm2_wheel_used_example.pressed &&& not8 0)
        ((not8 dm2_wheel_used_example.pressed &&& 0) &&&
          (dm2_wheel_used_example.notoggle ||| not8 dm2_wheel_used_example.light))
        ((dm2_wheel_used_example.pressed &&& not8 0) &&&
          (dm2_wheel_used_example.notoggle ||| not8 dm2_wheel_used_example.whenreleased)) ∧
      (dm2_wheel_update dm2_wheel_used_example 0 0).2 = (List.range 8).flatMap slots ++ rest ∧
      (∀ e ∈ rest, e = ⟨0x90, dm2_wheel_used_example.midrel, 0x7f⟩ ∨ e.cmd = 0xb0) ∧
      slots 0 =
        (if (dm2_wheel_used_example.wheelused ≠ 0 ∧
              dm2_wheel_used_example.notoggle.testBit 0 = false ∧
              dm2_wheel_used_example.whenreleased.testBit 0 = false) ∨
            (dm2_wheel_used_example.wheelused = 0 ∧
              dm2_wheel_used_example.notoggle.testBit 0 = true) then
          [⟨0x90, dm2_wheel_used_example.notes.getD 0 0, 0x7f⟩]
        else []) :=
  dm2_wheel_update_release_pulse dm2_wheel_used_example 0 0 0 (by decide) (by decide)
    (by decide) (by decide) (by decide)

/-! ## Wheel rings: the lock cycle of a toggling slot -/

/-- The part of a byte under the mask of a slot is nothing or the mask. -/
theorem two_pow_and_cases (i x : Nat) : 2 ^ i &&& x = 0 ∨ 2 ^ i &&& x = 2 ^ i := by
  cases h : x.testBit i
  · exact Or.inl (two_pow_and_of_not_testBit i x h)
  · exact Or.inr (two_pow_and_of_testBit i x h)

/-- The note loop when only slot `i` is pressed or released and has no note:
nothing is sent. -/
theorem dm2_wheel_update_note_no_note (wheel : dm2wheel) (releases flagson flagsoff i : Nat)
    (hi : i < 8) (hr : releases = 0 ∨ releases = 2 ^ i) (hon : flagson = 0 ∨ flagson = 2 ^ i)
    (hoff : flagsoff = 0 ∨ flagsoff = 2 ^ i) (hnote : wheel.notes.getD i 0 = 0) :
    (List.range 8).flatMap (dm2_wheel_update_note wheel releases flagson flagsoff) = [] := by
  rw [dm2_wheel_update_note_single wheel releases flagson flagsoff i hi hr hon hoff]
  unfold dm2_wheel_update_note
  simp only [hnote, if_true]

/-- A `dm2_wheel_update` that changes the state without a press of the clear bit:
the new wheel and the calls. -/
theorem dm2_wheel_update_no_reset (wheel : dm2wheel) (curr currmid : Nat)
    (hne : ¬ (wheel.pressed = curr ∧ wheel.midpressed = currmid &&& DM2_MIDMASK))
    (hr : (not8 wheel.pressed &&& curr) &&& DM2_CLR = 0) :
    ∃ w : dm2wheel,
      dm2_wheel_update wheel curr currmid =
        (w, (List.range 8).flatMap (dm2_wheel_update_note { wheel with turnacc := 0 }
              (wheel.pressed &&& not8 curr)
              ((not8 wheel.pressed &&& curr) &&& (wheel.notoggle ||| not8 wheel.light))
              ((wheel.pressed &&& not8 curr) &&& (wheel.notoggle ||| not8 wheel.whenreleased))) ++
            (if wheel.midpressed &&& not8 (currmid &&& DM2_MIDMASK) ≠ 0 ∧ wheel.midrel ≠ 0 ∧
                wheel.wheelused ≠ 0 then [(⟨0x90, wheel.midrel, 0x7f⟩ : midi_call)] else [])) ∧
      w.pressed = curr ∧ w.midpressed = currmid &&& DM2_MIDMASK ∧
      w.notes = wheel.notes ∧ w.notoggle = wheel.notoggle ∧ w.exclusive = wheel.exclusive ∧
      w.light = (dm2_wheel_update wheel curr currmid).1.light ∧
      w.whenreleased =
        ((wheel.whenreleased &&& not8 ((wheel.pressed &&& not8 curr) &&& not8 DM2_CLR)) &&&
            not8 (((not8 wheel.pressed &&& curr) &&& not8 DM2_CLR) |||
              DM2_MID (not8 wheel.midpressed &&& (currmid &&& DM2_MIDMASK)))) |||
          (not8 ((((if ¬ (wheel.exclusive ≠ 0 ∧
                  wheel.whenreleased &&& ((wheel.pressed &&& not8 curr) &&& not8 DM2_CLR) ≠ 0) then
                (wheel.whenreleased &&& ((wheel.pressed &&& not8 curr) &&& not8 DM2_CLR)) |||
                  (wheel.light &&& not8 ((wheel.pressed &&& not8 curr) &&& not8 DM2_CLR))
              else wheel.whenreleased &&& ((wheel.pressed &&& not8 curr) &&& not8 DM2_CLR)) &&&
                not8 DM2_CLR) ||| DM2_MID (currmid &&& DM2_MIDMASK)) &&& not8 wheel.notoggle |||
              (curr &&& wheel.notoggle)) &&&
            (((not8 wheel.pressed &&& curr) &&& not8 DM2_CLR) |||
              DM2_MID (not8 wheel.midpressed &&& (currmid &&& DM2_MIDMASK)))) := by
  unfold dm2_wheel_update
  simp only [if_neg hne, if_pos hr]
  exact ⟨_, rfl, rfl, rfl, rfl, rfl, rfl, rfl, rfl⟩

/-- Pressing a toggling slot without note (not bit 3) on a non-exclusive wheel,
the other keys and the mid button unchanged: nothing is sent, the slot is lit, and
it is put in the release-target set exactly when it was not lit before. -/
theorem dm2_wheel_update_toggle_press (wheel : dm2wheel) (i currmid : Nat)
    (hi : i < 8) (h3 : i ≠ 3) (hp : wheel.pressed.testBit i = false)
    (hnote : wheel.notes.getD i 0 = 0) (hnt : wheel.notoggle.testBit i = false)
    (hex : wheel.exclusive = 0) (hmid : currmid &&& DM2_MIDMASK = wheel.midpressed) :
    ∃ w : dm2wheel,
      dm2_wheel_update wheel (wheel.pressed ||| 2 ^ i) currmid = (w, []) ∧
      w.pressed = wheel.pressed ||| 2 ^ i ∧ w.midpressed = wheel.midpressed ∧
      w.notes = wheel.notes ∧ w.notoggle = wheel.notoggle ∧ w.exclusive = wheel.exclusive ∧
      w.light.testBit i = true ∧
      w.whenreleased.testBit i = !wheel.light.testBit i := by
  have hne : ¬ (wheel.pressed = wheel.pressed ||| 2 ^ i ∧
      wheel.midpressed = currmid &&& DM2_MIDMASK) :=
    fun h => press_ne wheel.pressed i hp h.1.symm
  have e1 := press_presses wheel.pressed i hp hi
  have e2 := press_releases wheel.pressed i
  have hr : (not8 wheel.pressed &&& (wheel.pressed ||| 2 ^ i)) &&& DM2_CLR = 0 := by
    rw [e1]; exact two_pow_and_clr i h3
  obtain ⟨w, hw, a1, a2, a3, a4, a5, a6, a7⟩ :=
    dm2_wheel_update_no_reset wheel (wheel.pressed ||| 2 ^ i) currmid hne hr
  have hev : (List.range 8).flatMap (dm2_wheel_update_note { wheel with turnacc := 0 }
      (wheel.pressed &&& not8 (wheel.pressed ||| 2 ^ i))
      ((not8 wheel.pressed &&& (wheel.pressed ||| 2 ^ i)) &&&
        (wheel.notoggle ||| not8 wheel.light))
      ((wheel.pressed &&& not8 (wheel.pressed ||| 2 ^ i)) &&&
        (wheel.notoggle ||| not8 wheel.whenreleased))) = [] := by
    apply dm2_wheel_update_note_no_note _ _ _ _ i hi
    · rw [e2]; exact Or.inl rfl
    · rw [e1]; exact two_pow_and_cases i _
    · rw [e2, Nat.zero_and]; exact Or.inl rfl
    · exact hnote
  have hmidev : ¬ (wheel.midpressed &&& not8 (currmid &&& DM2_MIDMASK) ≠ 0 ∧ wheel.midrel ≠ 0 ∧
      wheel.wheelused ≠ 0) := by
    rw [hmid, and_not8_self]
    exact fun h => h.1 rfl
  rw [hev, if_neg hmidev] at hw
  have hx : ¬ (wheel.exclusive ≠ 0 ∧
      wheel.whenreleased &&&
        ((wheel.pressed &&& not8 (wheel.pressed ||| 2 ^ i)) &&& not8 DM2_CLR) ≠ 0) :=
    fun h => h.1 hex
  refine ⟨w, hw, a1, by rw [a2, hmid], a3, a4, a5, ?_, ?_⟩
  · rw [a6, dm2_wheel_update_light _ _ _ hne, e1]
    simp only [Nat.testBit_or, Nat.testBit_and, testBit_not8, testBit_clr,
      Nat.testBit_two_pow_self, testBit_DM2_MID _ i h3, hi, h3, decide_True, decide_False,
      Bool.not_false, Bool.and_true, Bool.or_false, Bool.or_true]
  · rw [a7, if_pos hx, e1, e2]
    simp only [Nat.testBit_or, Nat.testBit_and, testBit_not8, testBit_clr,
      Nat.testBit_two_pow_self, testBit_DM2_MID _ i h3, Nat.zero_testBit, Nat.zero_and, hi, h3,
      hnt, hp, decide_True, decide_False, Bool.not_false, Bool.not_true, Bool.and_true,
      Bool.and_false, Bool.or_false, Bool.false_or, Bool.true_and, Bool.false_and]

/-- Releasing a toggling slot without note (not bit 3) on a non-exclusive wheel,
the other keys and the mid button unchanged: nothing is sent, the slot stays lit
exactly when it was in the release-target set, and leaves that set. -/
theorem dm2_wheel_update_toggle_release (wheel : dm2wheel) (p i currmid : Nat)
    (hi : i < 8) (h3 : i ≠ 3) (hpr : wheel.pressed = p ||| 2 ^ i) (hp : p.testBit i = false)
    (hnote : wheel.notes.getD i 0 = 0) (hnt : wheel.notoggle.testBit i = false)
    (hex : wheel.exclusive = 0) (hmid : currmid &&& DM2_MIDMASK = wheel.midpressed) :
    ∃ w : dm2wheel,
      dm2_wheel_update wheel p currmid = (w, []) ∧
      w.pressed = p ∧ w.midpressed = wheel.midpressed ∧
      w.notes = wheel.notes ∧ w.notoggle = wheel.notoggle ∧ w.exclusive = wheel.exclusive ∧
      w.light.testBit i = wheel.whenreleased.testBit i ∧
      w.whenreleased.testBit i = false := by
  have hne : ¬ (wheel.pressed = p ∧ wheel.midpressed = currmid &&& DM2_MIDMASK) := by
    rw [hpr]
    exact fun h => press_ne p i hp h.1
  have e1 : not8 wheel.pressed &&& p = 0 := by rw [hpr]; exact release_presses p i
  have e2 : wheel.pressed &&& not8 p = 2 ^ i := by rw [hpr]; exact release_releases p i hp hi
  have hr : (not8 wheel.pressed &&& p) &&& DM2_CLR = 0 := by
    rw [e1, Nat.zero_and]
  obtain ⟨w, hw, a1, a2, a3, a4, a5, a6, a7⟩ := dm2_wheel_update_no_reset wheel p currmid hne hr
  have hev : (List.range 8).flatMap (dm2_wheel_update_note { wheel with turnacc := 0 }
      (wheel.pressed &&& not8 p)
      ((not8 wheel.pressed &&& p) &&& (wheel.notoggle ||| not8 wheel.light))
      ((wheel.pressed &&& not8 p) &&& (wheel.notoggle ||| not8 wheel.whenreleased))) = [] := by
    apply dm2_wheel_update_note_no_note _ _ _ _ i hi
    · rw [e2]; exact Or.inr rfl
    · rw [e1, Nat.zero_and]; exact Or.inl rfl
    · rw [e2]; exact two_pow_and_cases i _
    · exact hnote
  have hmidev : ¬ (wheel.midpressed &&& not8 (currmid &&& DM2_MIDMASK) ≠ 0 ∧ wheel.midrel ≠ 0 ∧
      wheel.wheelused ≠ 0) := by
    rw [hmid, and_not8_self]
    exact fun h => h.1 rfl
  rw [hev, if_neg hmidev] at hw
  have hx : ¬ (wheel.exclusive ≠ 0 ∧
      wheel.whenreleased &&& ((wheel.pressed &&& not8 p) &&& not8 DM2_CLR) ≠ 0) :=
    fun h => h.1 hex
  refine ⟨w, hw, a1, by rw [a2, hmid], a3, a4, a5, ?_, ?_⟩
  · rw [a6, dm2_wheel_update_light _ _ _ hne, if_pos hx, e1, e2]
    simp only [Nat.testBit_or, Nat.testBit_and, testBit_not8, testBit_clr,
      Nat.testBit_two_pow_self, testBit_DM2_MID _ i h3, Nat.zero_testBit, Nat.zero_and, hi, h3,
      hnt, hp, decide_True, decide_False, Bool.not_false, Bool.not_true, Bool.and_true,
      Bool.and_false, Bool.or_false, Bool.false_or, Bool.true_and, Bool.false_and]
  · rw [a7, if_pos hx, e1, e2]
    simp only [Nat.testBit_or, Nat.testBit_and, testBit_not8, testBit_clr,
      Nat.testBit_two_pow_self, testBit_DM2_MID _ i h3, Nat.zero_testBit, Nat.zero_and, hi, h3,
      hnt, hp, decide_True, decide_False, Bool.not_false, Bool.not_true, Bool.and_true,
      Bool.and_false, Bool.or_false, Bool.false_or, Bool.true_and, Bool.false_and]

/-- C26: for a ring slot (not bit 3) without note and with toggling enabled, on a
non-exclusive wheel on which the slot is neither pressed nor lit, with no wheel
turn, the other keys and the mid button unchanged: after the first press the slot
is lit, after the first release it is still lit (locked), after the second press it
is lit, and after the second release it is unlit; none of the four
`dm2_wheel_update` calls sends anything. -/
theorem dm2_wheel_toggle_lock_cycle (wheel : dm2wheel) (i currmid : Nat)
    (hi : i < 8) (h3 : i ≠ 3) (hp : wheel.pressed.testBit i = false)
    (hl : wheel.light.testBit i = false) (hnote : wheel.notes.getD i 0 = 0)
    (hnt : wheel.notoggle.testBit i = false) (hex : wheel.exclusive = 0)
    (hmid : currmid &&& DM2_MIDMASK = wheel.midpressed) :
    ∃ w1 w2 w3 w4 : dm2wheel,
      dm2_wheel_update wheel (wheel.pressed ||| 2 ^ i) currmid = (w1, []) ∧
      w1.light.testBit i = true ∧
      dm2_wheel_update w1 wheel.pressed currmid = (w2, []) ∧
      w2.light.testBit i = true ∧
      dm2_wheel_update w2 (wheel.pressed ||| 2 ^ i) currmid = (w3, []) ∧
      w3.light.testBit i = true ∧
      dm2_wheel_update w3 wheel.pressed currmid = (w4, []) ∧
      w4.light.testBit i = false := by
  obtain ⟨w1, u1, p1, m1, n1, t1, x1, l1, r1⟩ :=
    dm2_wheel_update_toggle_press wheel i currmid hi h3 hp hnote hnt hex hmid
  obtain ⟨w2, u2, p2, m2, n2, t2, x2, l2, r2⟩ :=
    dm2_wheel_update_toggle_release w1 wheel.pressed i currmid hi h3 p1 hp
      (by rw [n1]; exact hnote) (by rw [t1]; exact hnt) (by rw [x1]; exact hex)
      (by rw [m1]; exact hmid)
  obtain ⟨w3, u3, p3, m3, n3, t3, x3, l3, r3⟩ :=
    dm2_wheel_update_toggle_press w2 i currmid hi h3 (by rw [p2]; exact hp)
      (by rw [n2, n1]; exact hnote) (by rw [t2, t1]; exact hnt) (by rw [x2, x1]; exact hex)
      (by rw [m2, m1]; exact hmid)
  rw [p2] at u3 p3
  obtain ⟨w4, u4, p4, m4, n4, t4, x4, l4, r4⟩ :=
    dm2_wheel_update_toggle_release w3 wheel.pressed i currmid hi h3 p3 hp
      (by rw [n3, n2, n1]; exact hnote) (by rw [t3, t2, t1]; exact hnt)
      (by rw [x3, x2, x1]; exact hex) (by rw [m3, m2, m1]; exact hmid)
  refine ⟨w1, w2, w3, w4, u1, l1, u2, ?_, u3, l3, u4, ?_⟩
  · rw [l2, r1, hl]; rfl
  · rw [l4, r3, l2, r1, hl]; rfl

/-- Witness of C26: slot 0 of the first wheel of preset 1 (parameter 16, no note,
toggling enabled, not exclusive). -/
theorem dm2_wheel_toggle_lock_cycle_witness :
    ∃ w1 w2 w3 w4 : dm2wheel,
      dm2_wheel_update (dm2_internal_init dm2_zero (dm2_params_at 1)).wheels_0
          ((dm2_internal_init dm2_zero (dm2_params_at 1)).wheels_0.pressed ||| 2 ^ 0) 0 =
        (w1, []) ∧
      w1.light.testBit 0 = true ∧
      dm2_wheel_update w1 (dm2_internal_init dm2_zero (dm2_params_at 1)).wheels_0.pressed 0 =
        (w2, []) ∧
      w2.light.testBit 0 = true ∧
      dm2_wheel_update w2
          ((dm2_internal_init dm2_zero (dm2_params_at 1)).wheels_0.pressed ||| 2 ^ 0) 0 =
        (w3, []) ∧
      w3.light.testBit 0 = true ∧
      dm2_wheel_update w3 (dm2_internal_init dm2_zero (dm2_params_at 1)).wheels_0.pressed 0 =
        (w4, []) ∧
      w4.light.testBit 0 = false :=
  dm2_wheel_toggle_lock_cycle (dm2_internal_init dm2_zero (dm2_params_at 1)).wheels_0 0 0
    (by decide) (by decide) (by decide) (by decide) (by decide) (by decide) (by decide)
    (by decide)

/-! ## Wheel rings: no-toggle slots are lit while pressed -/

/-- The remapped mask `((m << 1) & 0xf0) | (m & 0x07)` of `dm2_wheel_init` has
bits only among 0..2 and 4..7. -/
theorem remap_testBit (m k : Nat)
    (h : ((((m * 2) &&& 0xf0) ||| (m &&& 0x07)) % 256).testBit k = true) : k < 8 ∧ k ≠ 3 := by
  have e : (256 : Nat) = 2 ^ 8 := by norm_num
  rw [e, Nat.testBit_mod_two_pow] at h
  simp only [Bool.and_eq_true, decide_eq_true_eq] at h
  refine ⟨h.1, ?_⟩
  intro h3
  have h2 := h.2
  rw [h3, Nat.testBit_or, Nat.testBit_and, Nat.testBit_and] at h2
  have f1 : Nat.testBit 0xf0 3 = false := by decide
  have f2 : Nat.testBit 0x07 3 = false := by decide
  rw [f1, f2] at h2
  simp at h2

/-- The function `dm2_wheel_update` keeps `notoggle` and stores the new mask in
`pressed`. -/
theorem dm2_wheel_update_keys (wheel : dm2wheel) (curr currmid : Nat) :
    (dm2_wheel_update wheel curr currmid).1.notoggle = wheel.notoggle ∧
      (dm2_wheel_update wheel curr currmid).1.pressed = curr := by
  have key : ∀ (nl : Nat) (st : dm2wheel × List midi_call),
      ((List.range 8).foldl (dm2_wheel_update_reset nl) st).1.notoggle = st.1.notoggle ∧
      ((List.range 8).foldl (dm2_wheel_update_reset nl) st).1.pressed = st.1.pressed := by
    intro nl st
    obtain ⟨m, hm⟩ := dm2_wheel_update_reset_frame nl (List.range 8) st
    rw [hm]
    exact ⟨rfl, rfl⟩
  unfold dm2_wheel_update
  simp only []
  by_cases hne : wheel.pressed = curr ∧ wheel.midpressed = currmid &&& DM2_MIDMASK
  · rw [if_pos hne]
    exact ⟨rfl, hne.1⟩
  · rw [if_neg hne]
    by_cases hr : (not8 wheel.pressed &&& curr) &&& DM2_CLR = 0
    · rw [if_pos hr]
      exact ⟨rfl, rfl⟩
    · rw [if_neg hr]
      exact ⟨(key _ _).1, (key _ _).2⟩

/-- The function `dm2_wheel_turn` keeps the key mask, the light mask and
`notoggle`. -/
theorem dm2_wheel_turn_keys (wheel : dm2wheel) (step : Nat) (r : dm2wheel × List midi_call)
    (hr : dm2_wheel_turn wheel step = some r) :
    r.1.pressed = wheel.pressed ∧ r.1.light = wheel.light ∧ r.1.notoggle = wheel.notoggle := by
  have key : ∀ (p : Nat) (d a : Int) (st : dm2wheel × List midi_call),
      ((List.range 8).foldl (dm2_wheel_turn_param p d a) st).1.pressed = st.1.pressed ∧
      ((List.range 8).foldl (dm2_wheel_turn_param p d a) st).1.light = st.1.light ∧
      ((List.range 8).foldl (dm2_wheel_turn_param p d a) st).1.notoggle = st.1.notoggle := by
    intro p d a st
    obtain ⟨m, hm⟩ := dm2_wheel_turn_loop_frame p d a (List.range 8) st
    rw [hm]
    exact ⟨rfl, rfl, rfl⟩
  unfold dm2_wheel_turn at hr
  simp only [] at hr
  split_ifs at hr
  all_goals simp only [Option.some.injEq] at hr
  all_goals rw [← hr]
  all_goals first
    | exact ⟨rfl, rfl, rfl⟩
    | exact ⟨(key _ _ _ _).1, (key _ _ _ _).2.1, (key _ _ _ _).2.2⟩

/-- After a `dm2_wheel_update`, a no-toggle slot (not bit 3, within the byte) is
lit exactly when it is pressed. -/
theorem dm2_wheel_update_notoggle_bit (wheel : dm2wheel) (curr currmid k : Nat)
    (hk : k < 8) (h3 : k ≠ 3) (hnt : wheel.notoggle.testBit k = true)
    (hne : ¬ (wheel.pressed = curr ∧ wheel.midpressed = currmid &&& DM2_MIDMASK)) :
    (dm2_wheel_update wheel curr currmid).1.light.testBit k = curr.testBit k := by
  rw [dm2_wheel_update_light wheel curr currmid hne]
  simp only [Nat.testBit_or, Nat.testBit_and, testBit_not8, testBit_clr,
    testBit_DM2_MID _ k h3, hnt, hk, h3, decide_True, decide_False, Bool.not_true,
    Bool.not_false, Bool.and_false, Bool.and_true, Bool.false_or, Bool.or_false,
    Bool.true_and]
  cases wheel.pressed.testBit k <;> cases curr.testBit k <;> rfl

/-- C27: in every wheel state reached from `dm2_wheel_init` by `dm2_wheel_update`
and `dm2_wheel_turn` calls, every slot whose bit is set in the remapped `notoggle`
mask is lit exactly when it is pressed, `(light XOR pressed) AND notoggle = 0`, and
the remapped `notoggle` mask does not contain bit 3. -/
theorem dm2_wheel_notoggle_lit (w0 : dm2wheel) (notes params : List Nat)
    (jogparam midup middown midrel exclusive relparams notoggle paramthresh cursorthresh : Nat)
    (ops : List wheel_op) (w : dm2wheel)
    (h : dm2_wheel_run (dm2_wheel_init w0 notes params jogparam midup middown midrel exclusive
      relparams notoggle paramthresh cursorthresh) ops = some w) :
    (w.light ^^^ w.pressed) &&& w.notoggle = 0 ∧ w.notoggle.testBit 3 = false := by
  have inv : ∀ (ops : List wheel_op) (a b : dm2wheel),
      (∀ k, a.notoggle.testBit k = true →
        (k < 8 ∧ k ≠ 3) ∧ a.light.testBit k = a.pressed.testBit k) →
      dm2_wheel_run a ops = some b →
      (∀ k, b.notoggle.testBit k = true →
        (k < 8 ∧ k ≠ 3) ∧ b.light.testBit k = b.pressed.testBit k) := by
    intro ops
    induction ops with
    | nil =>
      intro a b ha hb
      simp only [dm2_wheel_run, Option.some.injEq] at hb
      rw [← hb]; exact ha
    | cons op ops ih =>
      intro a b ha hb
      cases op with
      | update curr currmid =>
        simp only [dm2_wheel_run] at hb
        refine ih _ b ?_ hb
        obtain ⟨k1, k2⟩ := dm2_wheel_update_keys a curr currmid
        intro k hk
        rw [k1] at hk
        refine ⟨(ha k hk).1, ?_⟩
        by_cases hne : a.pressed = curr ∧ a.midpressed = currmid &&& DM2_MIDMASK
        · have hu : dm2_wheel_update a curr currmid = (a, []) := by
            unfold dm2_wheel_update
            simp only []
            rw [if_pos hne]
          rw [hu]
          exact (ha k hk).2
        · rw [k2]
          exact dm2_wheel_update_notoggle_bit a curr currmid k (ha k hk).1.1 (ha k hk).1.2 hk hne
      | turn step =>
        simp only [dm2_wheel_run] at hb
        split at hb
        · exact absurd hb (by simp)
        · rename_i r hr
          refine ih _ b ?_ hb
          obtain ⟨k1, k2, k3⟩ := dm2_wheel_turn_keys a step r hr
          intro k hk
          rw [k3] at hk
          rw [k1, k2]
          exact ha k hk
  have hinit : ∀ k, (dm2_wheel_init w0 notes params jogparam midup middown midrel exclusive
      relparams notoggle paramthresh cursorthresh).notoggle.testBit k = true →
      (k < 8 ∧ k ≠ 3) ∧
        (dm2_wheel_init w0 notes params jogparam midup middown midrel exclusive
          relparams notoggle paramthresh cursorthresh).light.testBit k =
        (dm2_wheel_init w0 notes params jogparam midup middown midrel exclusive
          relparams notoggle paramthresh cursorthresh).pressed.testBit k := by
    intro k hk
    exact ⟨remap_testBit notoggle k hk, rfl⟩
  have hw := inv ops _ w hinit h
  refine ⟨?_, ?_⟩
  · apply Nat.eq_of_testBit_eq
    intro k
    rw [Nat.testBit_and, Nat.testBit_xor, Nat.zero_testBit]
    cases hk : w.notoggle.testBit k
    · simp
    · rw [(hw k hk).2]
      simp
  · cases hk : w.notoggle.testBit 3
    · rfl
    · exact absurd rfl (hw 3 hk).1.2

/-- Witness of C27: the first wheel of the attached device after slot 0 was
pressed, the wheel turned, and slot 0 released while slot 7 was pressed. -/
theorem dm2_wheel_notoggle_lit_witness :
    (dm2_wheel_run_example.light ^^^ dm2_wheel_run_example.pressed) &&&
        dm2_wheel_run_example.notoggle = 0 ∧
      dm2_wheel_run_example.notoggle.testBit 3 = false :=
  dm2_wheel_notoggle_lit dm2wheel_zero (dm2_params_at 0).wheel0notes
    (dm2_params_at 0).wheel0params (dm2_params_at 0).wheel0jogparam (dm2_params_at 0).midup0
    (dm2_params_at 0).middown0 (dm2_params_at 0).midrel0 (dm2_params_at 0).excl0
    (dm2_params_at 0).relparams0 (dm2_params_at 0).notoggle0 (dm2_params_at 0).paramthresh
    (dm2_params_at 0).cursorthresh
    [wheel_op.update 0x01 0, wheel_op.turn 0xfc, wheel_op.update 0x80 0]
    dm2_wheel_run_example rfl

/-! ## LED layers: the idle animation -/

/-- What `dm2_leds_timer` does to the idle animation. -/
theorem dm2_leds_timer_idle (leds : dm2leds) :
    (dm2_leds_timer leds).idlelight =
        (if leds.idlelight ≠ 0 ∧ leds.idletimeout = 0 then
          (if leds.idlelight / 2 = 0 then 0x80 else leds.idlelight / 2)
        else leds.idlelight) ∧
      (dm2_leds_timer leds).idletimeout =
        (if leds.idlelight ≠ 0 then
          (if leds.idletimeout = 0 then DM2_LEDIDLEINT - 1 else leds.idletimeout - 1)
        else leds.idletimeout) := by
  unfold dm2_leds_timer
  simp only []
  by_cases h1 : leds.idlelight ≠ 0
  · by_cases h2 : leds.idletimeout = 0
    · by_cases h3 : leds.idlelight / 2 = 0
      · simp only [if_pos h1, if_pos h2, if_pos h3, if_pos (And.intro h1 h2)]
        split_ifs <;> exact ⟨rfl, rfl⟩
      · simp only [if_pos h1, if_pos h2, if_neg h3, if_pos (And.intro h1 h2)]
        split_ifs <;> exact ⟨rfl, rfl⟩
    · simp only [if_pos h1, if_neg h2, if_neg (fun h : leds.idlelight ≠ 0 ∧ _ => h2 h.2)]
      split_ifs <;> exact ⟨rfl, rfl⟩
  · simp only [if_neg h1, if_neg (fun h : leds.idlelight ≠ 0 ∧ _ => h1 h.1)]
    split_ifs <;> exact ⟨rfl, rfl⟩

/-- What `dm2_leds_update` does to the idle animation. -/
theorem dm2_leds_update_idle (leds : dm2leds) (note vel : Nat) :
    (dm2_leds_update leds note vel).idlelight =
        (if note = leds.idlenote then (if vel ≠ 0 then 0x80 else 0) else leds.idlelight) ∧
      (dm2_leds_update leds note vel).idletimeout = leds.idletimeout := by
  obtain ⟨_, _, _, _, s5, _, _, _, _, s10⟩ := dm2_leds_update_loop_spec note vel (List.range 8)
    (fun j hj => List.mem_range.mp hj) { leds with timeout := DM2_LEDTIMEOUT }
  simp only [] at s5 s10
  rw [dm2_leds_update_eq]
  by_cases hn : note = leds.idlenote
  · rw [if_pos hn, if_pos hn]
    simp only []
    exact ⟨trivial, s10⟩
  · rw [if_neg hn, if_neg hn]
    exact ⟨s5, s10⟩

/-- Shifting a single lit bit right by one position, 0x01 wrapping to 0x80. -/
theorem idle_shift (b : Nat) (hb : b < 8) :
    (if 2 ^ b / 2 = 0 then 0x80 else 2 ^ b / 2) = 2 ^ ((b + 7) % 8) := by
  interval_cases b <;> decide

/-- The idle animation after `n` consecutive calls of `dm2_leds_timer`, armed with
the bit `b` lit and the countdown at `c`: the bit has moved right once for each of
the calls number `c`, `c + 20`, `c + 40`, ... among them. -/
theorem dm2_leds_timers_idle (leds : dm2leds) (b c : Nat) (hb : b < 8) (hc : c < 20)
    (hl : leds.idlelight = 2 ^ b) (ht : leds.idletimeout = (c : Int)) (n : Nat) :
    (dm2_leds_timers leds n).idlelight = 2 ^ ((b + 7 * ((n + 19 - c) / 20)) % 8) ∧
      (dm2_leds_timers leds n).idletimeout = (((c + 20 * n - n) % 20 : Nat) : Int) := by
  induction n with
  | zero =>
    have e1 : (0 + 19 - c) / 20 = 0 := by omega
    have e2 : (b + 7 * 0) % 8 = b := by omega
    have e3 : (c + 20 * 0 - 0) % 20 = c := by omega
    simp only [dm2_leds_timers]
    rw [e1, e2, e3]
    exact ⟨hl, ht⟩
  | succ n ih =>
    obtain ⟨i1, i2⟩ := ih
    obtain ⟨t1, t2⟩ := dm2_leds_timer_idle (dm2_leds_timers leds n)
    have hne : (dm2_leds_timers leds n).idlelight ≠ 0 := by
      rw [i1]; exact two_pow_ne_zero _
    simp only [dm2_leds_timers]
    rw [t1, t2, if_pos hne]
    by_cases h0 : (dm2_leds_timers leds n).idletimeout = 0
    · rw [if_pos (And.intro hne h0), if_pos h0, i1,
        idle_shift _ (Nat.mod_lt _ (by norm_num))]
      rw [i2] at h0
      have h00 : (c + 20 * n - n) % 20 = 0 := by omega
      have e1 : (n + 1 + 19 - c) / 20 = (n + 19 - c) / 20 + 1 := by omega
      have e2 : (c + 20 * (n + 1) - (n + 1)) % 20 = 19 := by omega
      refine ⟨?_, ?_⟩
      · congr 1
        rw [e1]
        omega
      · rw [e2]
        rfl
    · rw [if_neg (fun h : _ ∧ _ => h0 h.2), if_neg h0, i1, i2]
      rw [i2] at h0
      have h00 : (c + 20 * n - n) % 20 ≠ 0 := by omega
      have e1 : (n + 1 + 19 - c) / 20 = (n + 19 - c) / 20 := by omega
      have e2 : (c + 20 * (n + 1) - (n + 1)) % 20 = (c + 20 * n - n) % 20 - 1 := by omega
      refine ⟨by rw [e1], ?_⟩
      rw [e2]
      omega

/-- C29: in every LED-layer state reached from `dm2_leds_init` by `dm2_leds_update`
and `dm2_leds_timer` calls, `idlelight` is 0 or has exactly one bit set and
`idletimeout` lies in 0..19; and when the idle animation is armed (bit `b` lit),
among the next 20 consecutive calls of `dm2_leds_timer` exactly one, the call
number `idletimeout + 1`, shifts the lit bit right by one position, 0x01 wrapping to
0x80, after 20 calls the countdown is back at its value, and after 160 calls the
lit bit and the countdown are back. -/
theorem dm2_leds_idle_animation (l0 : dm2leds) (notes : List Nat) (idlenote : Nat)
    (ops : List leds_op) :
    ((dm2_leds_run (dm2_leds_init l0 notes idlenote) ops).idlelight = 0 ∨
        ∃ b, b < 8 ∧ (dm2_leds_run (dm2_leds_init l0 notes idlenote) ops).idlelight = 2 ^ b) ∧
      0 ≤ (dm2_leds_run (dm2_leds_init l0 notes idlenote) ops).idletimeout ∧
      (dm2_leds_run (dm2_leds_init l0 notes idlenote) ops).idletimeout ≤ 19 ∧
      (∀ b, b < 8 → (dm2_leds_run (dm2_leds_init l0 notes idlenote) ops).idlelight = 2 ^ b →
        (∀ n, n ≤ 20 →
          (dm2_leds_timers (dm2_leds_run (dm2_leds_init l0 notes idlenote) ops) n).idlelight =
            (if n ≤ (dm2_leds_run (dm2_leds_init l0 notes idlenote) ops).idletimeout.toNat
              then 2 ^ b else 2 ^ ((b + 7) % 8))) ∧
        (dm2_leds_timers (dm2_leds_run (dm2_leds_init l0 notes idlenote) ops) 20).idletimeout =
          (dm2_leds_run (dm2_leds_init l0 notes idlenote) ops).idletimeout ∧
        (dm2_leds_timers (dm2_leds_run (dm2_leds_init l0 notes idlenote) ops) 160).idlelight =
          (dm2_leds_run (dm2_leds_init l0 notes idlenote) ops).idlelight ∧
        (dm2_leds_timers (dm2_leds_run (dm2_leds_init l0 notes idlenote) ops) 160).idletimeout =
          (dm2_leds_run (dm2_leds_init l0 notes idlenote) ops).idletimeout) := by
  have inv : ∀ (ops : List leds_op) (leds : dm2leds),
      ((leds.idlelight = 0 ∨ ∃ b, b < 8 ∧ leds.idlelight = 2 ^ b) ∧
        0 ≤ leds.idletimeout ∧ leds.idletimeout ≤ 19) →
      (((dm2_leds_run leds ops).idlelight = 0 ∨
          ∃ b, b < 8 ∧ (dm2_leds_run leds ops).idlelight = 2 ^ b) ∧
        0 ≤ (dm2_leds_run leds ops).idletimeout ∧ (dm2_leds_run leds ops).idletimeout ≤ 19) := by
    intro ops
    induction ops with
    | nil => intro leds h; exact h
    | cons op ops ih =>
      intro leds h
      obtain ⟨h1, h2, h3⟩ := h
      cases op with
      | update note vel =>
        simp only [dm2_leds_run]
        apply ih
        obtain ⟨u1, u2⟩ := dm2_leds_update_idle leds note vel
        rw [u1, u2]
        refine ⟨?_, h2, h3⟩
        split_ifs
        · exact Or.inr ⟨7, by norm_num, by norm_num⟩
        · exact Or.inl rfl
        · exact h1
      | timer =>
        simp only [dm2_leds_run]
        apply ih
        obtain ⟨t1, t2⟩ := dm2_leds_timer_idle leds
        rw [t1, t2]
        rcases h1 with h0 | ⟨b, hb, hl⟩
        · rw [if_neg (fun h : leds.idlelight ≠ 0 ∧ _ => h.1 h0), if_neg (not_not.mpr h0)]
          exact ⟨Or.inl h0, h2, h3⟩
        · have hne : leds.idlelight ≠ 0 := by rw [hl]; exact two_pow_ne_zero b
          rw [if_pos hne]
          by_cases hz : leds.idletimeout = 0
          · rw [if_pos (And.intro hne hz), if_pos hz, hl, idle_shift b hb]
            refine ⟨Or.inr ⟨(b + 7) % 8, Nat.mod_lt _ (by norm_num), rfl⟩, ?_, ?_⟩
            · decide
            · decide
          · rw [if_neg (fun h : _ ∧ _ => hz h.2), if_neg hz]
            refine ⟨Or.inr ⟨b, hb, hl⟩, ?_, ?_⟩ <;> omega
  have hinit : ((dm2_leds_init l0 notes idlenote).idlelight = 0 ∨
      ∃ b, b < 8 ∧ (dm2_leds_init l0 notes idlenote).idlelight = 2 ^ b) ∧
      0 ≤ (dm2_leds_init l0 notes idlenote).idletimeout ∧
      (dm2_leds_init l0 notes idlenote).idletimeout ≤ 19 :=
    ⟨Or.inl rfl, le_refl (0 : Int), (by decide : (0 : Int) ≤ 19)⟩
  obtain ⟨r1, r2, r3⟩ := inv ops _ hinit
  refine ⟨r1, r2, r3, ?_⟩
  intro b hb hl
  generalize dm2_leds_run (dm2_leds_init l0 notes idlenote) ops = leds at r2 r3 hl ⊢
  have hc : leds.idletimeout.toNat < 20 := by omega
  have ht : leds.idletimeout = (leds.idletimeout.toNat : Int) := by omega
  have key := dm2_leds_timers_idle leds b leds.idletimeout.toNat hb hc hl ht
  refine ⟨?_, ?_, ?_, ?_⟩
  · intro n hn
    rw [(key n).1]
    by_cases hle : n ≤ leds.idletimeout.toNat
    · have e : (n + 19 - leds.idletimeout.toNat) / 20 = 0 := by omega
      rw [if_pos hle, e]
      congr 1
      omega
    · have e : (n + 19 - leds.idletimeout.toNat) / 20 = 1 := by omega
      rw [if_neg hle, e]
  · rw [(key 20).2]
    omega
  · have e : (160 + 19 - leds.idletimeout.toNat) / 20 = 8 := by omega
    rw [(key 160).1, hl, e]
    congr 1
    omega
  · rw [(key 160).2]
    omega

/-! ## Main event handler: the byte-diff gating -/

set_option maxRecDepth 100000 in
/-- C30 counterexample: on the attached device the report in which slot 0 of the
first ring is pressed (no wheel step) leaves `wheelused = 0` in the gated tick but
`wheelused = 1` in the tick that calls every component update, because
`dm2_wheel_turn` with a zero step marks the wheel as used; and on the release in
the next tick the gated ticks send Note-On (16, 127) whereas the ungated ticks send
nothing. -/
theorem dm2_tick_gating_not_pure :
    (dm2_tick dm2_probe.dm2 dm2_report_press).map
        (fun t => (t.midi, t.dm2.wheels_0.wheelused)) = some ([], 0) ∧
      (dm2_tick_ungated dm2_probe.dm2 dm2_report_press).map
        (fun t => (t.midi, t.dm2.wheels_0.wheelused)) = some ([], 1) ∧
      ((dm2_tick dm2_probe.dm2 dm2_report_press).bind
        (fun t => dm2_tick t.dm2 dm2_report_rest)).map (fun t => t.midi) =
        some [⟨0x90, 16, 0x7f⟩] ∧
      ((dm2_tick_ungated dm2_probe.dm2 dm2_report_press).bind
        (fun t => dm2_tick_ungated t.dm2 dm2_report_rest)).map (fun t => t.midi) =
        some [] := by
  refine ⟨?_, ?_, ?_, ?_⟩ <;> decide

/-- A `dm2_wheel_update` with the stored key masks does nothing. -/
theorem dm2_wheel_update_same (wheel : dm2wheel) (curr currmid : Nat)
    (h : wheel.pressed = curr ∧ wheel.midpressed = currmid &&& DM2_MIDMASK) :
    dm2_wheel_update wheel curr currmid = (wheel, []) := by
  unfold dm2_wheel_update
  simp only []
  rw [if_pos h]

/-- A `dm2_buttons_update` with the stored mask does nothing. -/
theorem dm2_buttons_update_same (buttons : dm2buttons) (curr : Nat)
    (h : buttons.pressed = curr) : dm2_buttons_update buttons curr = (buttons, []) := by
  unfold dm2_buttons_update
  rw [if_pos h]

/-- A `dm2_slider_update` of a slider that rests at the raw value does nothing. -/
theorem dm2_slider_update_rest (slider : dm2slider) (v : Nat) (h : dm2_slider_rest slider v) :
    dm2_slider_update slider v = some (slider, []) := by
  obtain ⟨h1, h2, h3, h4⟩ := h
  have hset : dm2_slider_set slider v = slider := by
    rw [dm2_slider_set_eq, if_neg (by omega), if_neg (by omega), ← h1]
  unfold dm2_slider_update
  simp only [hset, h4, if_true]

/-- A `dm2_wheel_turn` with a zero step of a wheel in jog mode whose jog value is
at the centre does nothing. -/
theorem dm2_wheel_turn_idle (wheel : dm2wheel) (h : dm2_wheel_idle wheel) :
    dm2_wheel_turn wheel 0 = some (wheel, []) := by
  obtain ⟨a1, a2, a3, a4, a5, a6, a7, a8, a9, a10, a11, a12, a13, a14, a15, a16, a17, a18, a19,
    a20⟩ := wheel
  obtain ⟨h1, h2, h3, h4⟩ := h
  simp only [] at h1 h2 h3 h4
  subst h1 h2 h3 h4
  rfl

/-- C30 amended: when the key masks stored in the wheels and button banks are
those of the previous report, every slider whose byte is unchanged rests at that
byte, and every wheel whose step byte is zero in both reports is, after its
`dm2_wheel_update`, in jog mode with the jog value at the centre, the tick that
invokes every component update unconditionally returns the same result (state,
MIDI calls and LED write) as the gated `dm2_tasklet`. -/
theorem dm2_tasklet_gating (d : dm2) (hsync : dm2_synced d)
    (hs0 : d.curr_state.getD 5 0 = d.prev_state.getD 5 0 →
      dm2_slider_rest d.sliders_0 (d.curr_state.getD 5 0))
    (hs1 : d.curr_state.getD 6 0 = d.prev_state.getD 6 0 →
      dm2_slider_rest d.sliders_1 (d.curr_state.getD 6 0))
    (hs2 : d.curr_state.getD 7 0 = d.prev_state.getD 7 0 →
      dm2_slider_rest d.sliders_2 (d.curr_state.getD 7 0))
    (ht0 : d.curr_state.getD 8 0 = 0 → d.prev_state.getD 8 0 = 0 →
      dm2_wheel_idle
        (dm2_wheel_update d.wheels_0 (d.curr_state.getD 1 0) (d.curr_state.getD 3 0)).1)
    (ht1 : d.curr_state.getD 9 0 = 0 → d.prev_state.getD 9 0 = 0 →
      dm2_wheel_idle
        (dm2_wheel_update d.wheels_1 (d.curr_state.getD 0 0) (d.curr_state.getD 3 0)).1) :
    dm2_tasklet_ungated d = dm2_tasklet d := by
  obtain ⟨y1, y2, y3, y4, y5, y6⟩ := hsync
  have ew0 : (if d.curr_state.getD 1 0 ≠ d.prev_state.getD 1 0 ∨
        d.curr_state.getD 3 0 ≠ d.prev_state.getD 3 0 then
        dm2_wheel_update d.wheels_0 (d.curr_state.getD 1 0) (d.curr_state.getD 3 0)
      else (d.wheels_0, [])) =
      dm2_wheel_update d.wheels_0 (d.curr_state.getD 1 0) (d.curr_state.getD 3 0) := by
    split_ifs with h
    · rfl
    · have h1 : d.curr_state.getD 1 0 = d.prev_state.getD 1 0 := by
        by_contra hc; exact h (Or.inl hc)
      have h3 : d.curr_state.getD 3 0 = d.prev_state.getD 3 0 := by
        by_contra hc; exact h (Or.inr hc)
      rw [dm2_wheel_update_same]
      exact ⟨by rw [y1, h1], by rw [y2, h3]⟩
  have ew1 : (if d.curr_state.getD 0 0 ≠ d.prev_state.getD 0 0 ∨
        d.curr_state.getD 3 0 ≠ d.prev_state.getD 3 0 then
        dm2_wheel_update d.wheels_1 (d.curr_state.getD 0 0) (d.curr_state.getD 3 0)
      else (d.wheels_1, [])) =
      dm2_wheel_update d.wheels_1 (d.curr_state.getD 0 0) (d.curr_state.getD 3 0) := by
    split_ifs with h
    · rfl
    · have h1 : d.curr_state.getD 0 0 = d.prev_state.getD 0 0 := by
        by_contra hc; exact h (Or.inl hc)
      have h3 : d.curr_state.getD 3 0 = d.prev_state.getD 3 0 := by
        by_contra hc; exact h (Or.inr hc)
      rw [dm2_wheel_update_same]
      exact ⟨by rw [y3, h1], by rw [y4, h3]⟩
  have eb0 : (if d.curr_state.getD 2 0 ≠ d.prev_state.getD 2 0 then
        dm2_buttons_update d.buttons_0 (d.curr_state.getD 2 0)
      else (d.buttons_0, [])) = dm2_buttons_update d.buttons_0 (d.curr_state.getD 2 0) := by
    split_ifs with h
    · rfl
    · rw [dm2_buttons_update_same]
      rw [y5]; exact (not_not.mp h).symm
  have eb1 : (if d.curr_state.getD 3 0 ≠ d.prev_state.getD 3 0 then
        dm2_buttons_update d.buttons_1 (d.curr_state.getD 3 0)
      else (d.buttons_1, [])) = dm2_buttons_update d.buttons_1 (d.curr_state.getD 3 0) := by
    split_ifs with h
    · rfl
    · rw [dm2_buttons_update_same]
      rw [y6]; exact (not_not.mp h).symm
  have es : ∀ (k : Nat) (s : dm2slider),
      (d.curr_state.getD k 0 = d.prev_state.getD k 0 → dm2_slider_rest s (d.curr_state.getD k 0)) →
      run_if (decide (d.curr_state.getD k 0 ≠ d.prev_state.getD k 0))
          (fun s => dm2_slider_update s (d.curr_state.getD k 0)) s =
        dm2_slider_update s (d.curr_state.getD k 0) := by
    intro k s hs
    unfold run_if
    by_cases h : d.curr_state.getD k 0 = d.prev_state.getD k 0
    · rw [decide_eq_false (not_not.mpr h), if_neg Bool.false_ne_true]
      exact (dm2_slider_update_rest s _ (hs h)).symm
    · rw [decide_eq_true h, if_pos rfl]
  have et : ∀ (k : Nat) (w : dm2wheel),
      (d.curr_state.getD k 0 = 0 → d.prev_state.getD k 0 = 0 → dm2_wheel_idle w) →
      run_if (decide (d.curr_state.getD k 0 ≠ 0 ∨ d.prev_state.getD k 0 ≠ 0))
          (fun w => dm2_wheel_turn w (d.curr_state.getD k 0)) w =
        dm2_wheel_turn w (d.curr_state.getD k 0) := by
    intro k w hw
    unfold run_if
    by_cases h : d.curr_state.getD k 0 ≠ 0 ∨ d.prev_state.getD k 0 ≠ 0
    · rw [decide_eq_true h, if_pos rfl]
    · have h1 : d.curr_state.getD k 0 = 0 := by
        by_contra hc; exact h (Or.inl hc)
      have h2 : d.prev_state.getD k 0 = 0 := by
        by_contra hc; exact h (Or.inr hc)
      rw [decide_eq_false h, if_neg Bool.false_ne_true, h1]
      exact (dm2_wheel_turn_idle w (hw h1 h2)).symm
  unfold dm2_tasklet dm2_tasklet_ungated
  simp only [ew0, ew1, eb0, eb1, es 5 _ hs0, es 6 _ hs1, es 7 _ hs2, et 8 _ ht0, et 9 _ ht1]

/-- After `dm2_slider_update` with the raw value `v` the slider rests at `v`. -/
theorem dm2_slider_update_rests (slider : dm2slider) (v : Nat) (r : dm2slider × List midi_call)
    (h : dm2_slider_update slider v = some r) : dm2_slider_rest r.1 v := by
  cases hg : dm2_slider_get (dm2_slider_set slider v) with
  | none =>
    unfold dm2_slider_update at h
    simp only [hg] at h
    exact absurd h (by simp)
  | some x =>
    have hx := dm2_slider_get_range _ x hg
    rw [dm2_slider_update_eq slider v x hg] at h
    simp only [Option.some.injEq] at h
    rw [← h]
    have hcast : ((x.toNat : Nat) : Int) = x := by omega
    refine ⟨?_, ?_, ?_, ?_⟩
    · rw [dm2_slider_set_eq]
    · rw [dm2_slider_set_eq]
      simp only []
      split_ifs <;> omega
    · rw [dm2_slider_set_eq]
      simp only []
      split_ifs <;> omega
    · rw [dm2_slider_get_midival]
      simp only []
      rw [hg, hcast]

/-- The function `dm2_wheel_update` stores the mid button in `midpressed`. -/
theorem dm2_wheel_update_midpressed (wheel : dm2wheel) (curr currmid : Nat) :
    (dm2_wheel_update wheel curr currmid).1.midpressed = currmid &&& DM2_MIDMASK := by
  have key : ∀ (nl : Nat) (st : dm2wheel × List midi_call),
      ((List.range 8).foldl (dm2_wheel_update_reset nl) st).1.midpressed = st.1.midpressed := by
    intro nl st
    obtain ⟨m, hm⟩ := dm2_wheel_update_reset_frame nl (List.range 8) st
    rw [hm]
  unfold dm2_wheel_update
  simp only []
  by_cases hne : wheel.pressed = curr ∧ wheel.midpressed = currmid &&& DM2_MIDMASK
  · rw [if_pos hne]
    exact hne.2
  · rw [if_neg hne]
    by_cases hr : (not8 wheel.pressed &&& curr) &&& DM2_CLR = 0
    · rw [if_pos hr]
    · rw [if_neg hr]
      exact key _ _

/-- The function `dm2_wheel_turn` keeps `midpressed`. -/
theorem dm2_wheel_turn_midpressed (wheel : dm2wheel) (step : Nat)
    (r : dm2wheel × List midi_call) (hr : dm2_wheel_turn wheel step = some r) :
    r.1.midpressed = wheel.midpressed := by
  have key : ∀ (p : Nat) (d a : Int) (st : dm2wheel × List midi_call),
      ((List.range 8).foldl (dm2_wheel_turn_param p d a) st).1.midpressed = st.1.midpressed := by
    intro p d a st
    obtain ⟨m, hm⟩ := dm2_wheel_turn_loop_frame p d a (List.range 8) st
    rw [hm]
  unfold dm2_wheel_turn at hr
  simp only [] at hr
  split_ifs at hr
  all_goals simp only [Option.some.injEq] at hr
  all_goals rw [← hr]
  all_goals first
    | rfl
    | exact key _ _ _ _

/-- After `dm2_internal_init` the stored key masks are those of the cleared
previous report. -/
theorem dm2_internal_init_synced (d0 : dm2) (params : dm2_params) :
    dm2_synced (dm2_internal_init d0 params) := by
  refine ⟨rfl, ?_, rfl, ?_, rfl, rfl⟩
  all_goals show (0 : Nat) = (List.replicate 10 0).getD 3 0 &&& DM2_MIDMASK
  all_goals decide

/-- A tick keeps the stored key masks equal to those of the previous report. -/
theorem dm2_tick_synced (d : dm2) (r : List Nat) (t : tick_result) (h : dm2_synced d)
    (ht : dm2_tick d r = some t) : dm2_synced t.dm2 := by
  obtain ⟨y1, y2, y3, y4, y5, y6⟩ := h
  unfold dm2_tick dm2_tasklet at ht
  simp only [] at ht
  split at ht
  · exact absurd ht (by simp)
  split at ht
  · exact absurd ht (by simp)
  split at ht
  · exact absurd ht (by simp)
  split at ht
  · exact absurd ht (by simp)
  rename_i t0 e3
  split at ht
  · exact absurd ht (by simp)
  rename_i t1 e4
  simp only [Option.some.injEq] at ht
  have upd : ∀ (w : dm2wheel) (a b pa pb : Nat), w.pressed = pa → w.midpressed = pb &&& DM2_MIDMASK →
      (if a ≠ pa ∨ b ≠ pb then dm2_wheel_update w a b else (w, [])).1.pressed = a ∧
      (if a ≠ pa ∨ b ≠ pb then dm2_wheel_update w a b else (w, [])).1.midpressed =
        b &&& DM2_MIDMASK := by
    intro w a b pa pb h1 h2
    split_ifs with hc
    · exact ⟨(dm2_wheel_update_keys w a b).2, dm2_wheel_update_midpressed w a b⟩
    · have ha : a = pa := by by_contra hx; exact hc (Or.inl hx)
      have hb : b = pb := by by_contra hx; exact hc (Or.inr hx)
      exact ⟨by rw [h1, ha], by rw [h2, hb]⟩
  have trn : ∀ (c : Bool) (v : Nat) (w : dm2wheel) (q : dm2wheel × List midi_call),
      run_if c (fun w => dm2_wheel_turn w v) w = some q →
      q.1.pressed = w.pressed ∧ q.1.midpressed = w.midpressed := by
    intro c v w q hq
    unfold run_if at hq
    split_ifs at hq
    · exact ⟨(dm2_wheel_turn_keys w v q hq).1, dm2_wheel_turn_midpressed w v q hq⟩
    · simp only [Option.some.injEq] at hq
      rw [← hq]
      exact ⟨rfl, rfl⟩
  have btn : ∀ (bt : dm2buttons) (a pa : Nat), bt.pressed = pa →
      (if a ≠ pa then dm2_buttons_update bt a else (bt, [])).1.pressed = a := by
    intro bt a pa h1
    split_ifs with hc
    · unfold dm2_buttons_update
      split_ifs with hq
      · exact hq
      · rfl
    · rw [h1]; exact (not_not.mp hc).symm
  have snd : ∀ (w : dm2wheel) (l : dm2leds),
      (dm2_leds_send_half w l).1.pressed = w.pressed ∧
      (dm2_leds_send_half w l).1.midpressed = w.midpressed := by
    intro w l
    unfold dm2_leds_send_half
    simp only []
    split_ifs <;> exact ⟨rfl, rfl⟩
  obtain ⟨u0p, u0m⟩ := upd d.wheels_0 (r.getD 1 0) (r.getD 3 0) _ _ y1 y2
  obtain ⟨u1p, u1m⟩ := upd d.wheels_1 (r.getD 0 0) (r.getD 3 0) _ _ y3 y4
  obtain ⟨v0p, v0m⟩ := trn _ _ _ _ e3
  obtain ⟨v1p, v1m⟩ := trn _ _ _ _ e4
  have b0 := btn d.buttons_0 (r.getD 2 0) _ y5
  have b1 := btn d.buttons_1 (r.getD 3 0) _ y6
  rw [← ht]
  refine ⟨?_, ?_, ?_, ?_, ?_, ?_⟩
  · exact ((snd _ _).1.trans v0p).trans u0p
  · exact ((snd _ _).2.trans v0m).trans u0m
  · exact ((snd _ _).1.trans v1p).trans u1p
  · exact ((snd _ _).2.trans v1m).trans u1m
  · exact b0
  · exact b1

/-- Witness of C30 amended: the attached device after two ticks with the first
wheel turning, on the report in which the wheel has stopped: the sliders rest at 80
and the second wheel is idle. -/
theorem dm2_tasklet_gating_witness :
    dm2_tasklet_ungated dm2_rest_example = dm2_tasklet dm2_rest_example :=
  dm2_tasklet_gating dm2_rest_example (by unfold dm2_synced; decide)
    (by unfold dm2_slider_rest; decide) (by unfold dm2_slider_rest; decide)
    (by unfold dm2_slider_rest; decide) (by unfold dm2_wheel_idle; decide)
    (by unfold dm2_wheel_idle; decide)

/-! ## Outbound byte stream: round trip -/

/-- C31 counterexample: on the opened codec of the attached device (channel offset
0, `out_rstatus = 0`) the event (0xC0, 1, 2) is delivered as the bytes 0xC0, 1, 2,
from which a standard running-status decoder recovers two Program-Change messages
(0xC0, 1) and (0xC0, 2), not the triple; and the bytes 0xF0, 1, 2 of the event
(0xF0, 1, 2) give no channel message at all. -/
theorem dm2_midi_sends_program_change_splits :
    dm2_midi_open_example.input = true ∧ dm2_midi_open_example.out_rstatus = 0 ∧
      dm2_midi_open_example.chan = 0 ∧
      (dm2_midi_sends dm2_midi_open_example [⟨0xc0, 1, 2⟩]).2 = [0xc0, 1, 2] ∧
      std_midi_decode (dm2_midi_sends dm2_midi_open_example [⟨0xc0, 1, 2⟩]).2 =
        [(0xc0, [1]), (0xc0, [2])] ∧
      std_midi_decode (dm2_midi_sends dm2_midi_open_example [⟨0xc0, 1, 2⟩]).2 ≠
        [dm2_midi_message dm2_midi_open_example ⟨0xc0, 1, 2⟩] ∧
      (dm2_midi_sends dm2_midi_open_example [⟨0xf0, 1, 2⟩]).2 = [0xf0, 1, 2] ∧
      std_midi_decode (dm2_midi_sends dm2_midi_open_example [⟨0xf0, 1, 2⟩]).2 = [] := by
  decide

/-- The standard decoder on a concatenation. -/
theorem std_midi_decode_run_append (as bs : List Nat) :
    ∀ s : std_midi_decoder,
      std_midi_decode_run s (as ++ bs) =
        ((std_midi_decode_run (std_midi_decode_run s as).1 bs).1,
          (std_midi_decode_run s as).2 ++ (std_midi_decode_run (std_midi_decode_run s as).1 bs).2) := by
  induction as with
  | nil => intro s; rfl
  | cons a as ih =>
    intro s
    show std_midi_decode_run s (a :: (as ++ bs)) = _
    simp only [std_midi_decode_run]
    rw [ih]
    simp only [List.append_assoc]

/-- The standard decoder on a full three-byte message with a two-data status. -/
theorem std_midi_decode_run_full (s : std_midi_decoder) (st p v : Nat)
    (hs : two_data_status st) (hp : p < 128) (hv : v < 128) :
    std_midi_decode_run s [st, p, v] = (⟨st, none⟩, [(st, [p, v])]) := by
  have h1 : ¬ (0xf8 ≤ st) := by unfold two_data_status at hs; omega
  have h2 : ¬ (0xf0 ≤ st) := by unfold two_data_status at hs; omega
  have h3 : 0x80 ≤ st := by unfold two_data_status at hs; omega
  have h4 : ¬ (st = 0) := by omega
  have h5 : ¬ (0xc0 ≤ st ∧ st < 0xe0) := by unfold two_data_status at hs; omega
  have p1 : ¬ (0xf8 ≤ p) := by omega
  have p2 : ¬ (0xf0 ≤ p) := by omega
  have p3 : ¬ (0x80 ≤ p) := by omega
  have v1 : ¬ (0xf8 ≤ v) := by omega
  have v2 : ¬ (0xf0 ≤ v) := by omega
  have v3 : ¬ (0x80 ≤ v) := by omega
  simp [std_midi_decode_run, std_midi_decode_byte, std_midi_data_len, h1, h2, h3, h4, h5,
    p1, p2, p3, v1, v2, v3]

/-- The standard decoder on the two data bytes of a message sent with running
status. -/
theorem std_midi_decode_run_running (st p v : Nat)
    (hs : two_data_status st) (hp : p < 128) (hv : v < 128) :
    std_midi_decode_run ⟨st, none⟩ [p, v] = (⟨st, none⟩, [(st, [p, v])]) := by
  have h3 : 0x80 ≤ st := by unfold two_data_status at hs; omega
  have h4 : ¬ (st = 0) := by omega
  have h5 : ¬ (0xc0 ≤ st ∧ st < 0xe0) := by unfold two_data_status at hs; omega
  have p1 : ¬ (0xf8 ≤ p) := by omega
  have p2 : ¬ (0xf0 ≤ p) := by omega
  have p3 : ¬ (0x80 ≤ p) := by omega
  have v1 : ¬ (0xf8 ≤ v) := by omega
  have v2 : ¬ (0xf0 ≤ v) := by omega
  have v3 : ¬ (0x80 ≤ v) := by omega
  simp [std_midi_decode_run, std_midi_decode_byte, std_midi_data_len, h4, h5,
    p1, p2, p3, v1, v2, v3]

/-- One `dm2_midi_send` with a consumer attached, followed by the standard decoder
whose running status is the `out_rstatus` of the encoder: the decoder recovers the
message and its running status is again the `out_rstatus` of the encoder. -/
theorem dm2_midi_send_decode (m : dm2midi) (e : midi_call) (hin : m.input = true)
    (hs : two_data_status (dm2_midi_status m e.cmd)) (hp : e.param < 128) (hv : e.value < 128) :
    (dm2_midi_send m e.cmd e.param e.value).1 =
        { m with out_rstatus := dm2_midi_status m e.cmd } ∧
      std_midi_decode_run ⟨m.out_rstatus, none⟩
          ((dm2_midi_send m e.cmd e.param e.value).2.foldr (fun b bs => b ++ bs) []) =
        (⟨dm2_midi_status m e.cmd, none⟩, [dm2_midi_message m e]) := by
  have hin2 : ¬ (m.input = false) := by rw [hin]; exact Bool.noConfusion
  have hpm : e.param % 256 = e.param := Nat.mod_eq_of_lt (by omega)
  have hvm : e.value % 256 = e.value := Nat.mod_eq_of_lt (by omega)
  unfold dm2_midi_send
  simp only [if_neg hin2, hpm, hvm]
  refine ⟨rfl, ?_⟩
  unfold dm2_midi_message
  by_cases heq : (e.cmd % 256 + m.chan) % 256 = m.out_rstatus
  · rw [if_pos heq]
    have hst : dm2_midi_status m e.cmd = m.out_rstatus := heq
    rw [← hst]
    exact std_midi_decode_run_running _ _ _ hs hp hv
  · rw [if_neg heq]
    exact std_midi_decode_run_full _ _ _ _ hs hp hv

/-- A sequence of `dm2_midi_send` calls with two-data statuses and data bytes in
0..127, followed by the standard decoder whose running status is the `out_rstatus`
of the encoder: the decoder recovers the messages in order. -/
theorem dm2_midi_sends_decode (evs : List midi_call) :
    ∀ m : dm2midi, m.input = true →
      (∀ e ∈ evs, two_data_status (dm2_midi_status m e.cmd) ∧ e.param < 128 ∧ e.value < 128) →
      (std_midi_decode_run ⟨m.out_rstatus, none⟩ (dm2_midi_sends m evs).2).2 =
        evs.map (dm2_midi_message m) := by
  induction evs with
  | nil => intro m _ _; rfl
  | cons e es ih =>
    intro m hin hev
    obtain ⟨hs, hp, hv⟩ := hev e (List.mem_cons_self e es)
    obtain ⟨k1, k2⟩ := dm2_midi_send_decode m e hin hs hp hv
    simp only [dm2_midi_sends]
    rw [std_midi_decode_run_append, k2, k1]
    have hrest := ih { m with out_rstatus := dm2_midi_status m e.cmd } hin
      (fun x hx => hev x (List.mem_cons_of_mem e hx))
    simp only [List.map_cons, List.singleton_append, List.cons.injEq, true_and]
    exact hrest

/-- The calls made by the ticks of the driver round-trip: for each preset, the
calls of `dm2_midi_send` of any sequence of ticks from `dm2_internal_init`, sent
with a consumer attached, `out_rstatus = 0` and a channel offset in 0..15, are
recovered by a standard running-status decoder as (cmd + chan, param, value). -/
theorem dm2_ticks_round_trip (d0 : dm2) (p : Nat) (reports : List (List Nat)) (d : dm2)
    (evs : List midi_call) (m : dm2midi) (hp : p < DM2_NUMPRESETS)
    (h : dm2_ticks (dm2_internal_init d0 (dm2_params_at p)) reports = some (d, evs))
    (hin : m.input = true) (h0 : m.out_rstatus = 0) (hc : m.chan < 16) :
    std_midi_decode (dm2_midi_sends m evs).2 =
      evs.map (fun e => (e.cmd + m.chan, [e.param, e.value])) := by
  obtain ⟨_, k2⟩ := dm2_ticks_ok reports _ d evs (dm2_internal_init_ok d0 p hp) h
  have hst : ∀ e ∈ evs, dm2_midi_status m e.cmd = e.cmd + m.chan ∧
      two_data_status (dm2_midi_status m e.cmd) ∧ e.param < 128 ∧ e.value < 128 := by
    intro e he
    obtain ⟨hcmd, hpar, hval⟩ := k2 e he
    have e1 : dm2_midi_status m e.cmd = e.cmd + m.chan := by
      unfold dm2_midi_status
      omega
    refine ⟨e1, ?_, hpar, hval⟩
    rw [e1]
    unfold two_data_status
    omega
  have hd := dm2_midi_sends_decode evs m hin (fun e he => (hst e he).2)
  rw [h0] at hd
  unfold std_midi_decode
  rw [hd]
  apply List.map_congr_left
  intro e he
  unfold dm2_midi_message
  rw [(hst e he).1]

/-- C31 amended: for every sequence of events (cmd, param, value) whose status byte
`(cmd + chan) mod 256` is that of a channel message with two data bytes (0x80..0xBF
or 0xE0..0xEF: not Program Change, Channel Pressure or a system message) and whose
param and value are in 0..127, sent through `dm2_midi_send` with a consumer
attached and starting from `out_rstatus = 0`, a standard running-status decoder
applied to the concatenation of the delivered bytes recovers exactly the messages
(status, param, value), in order. -/
theorem dm2_midi_sends_round_trip (m : dm2midi) (evs : List midi_call)
    (hin : m.input = true) (h0 : m.out_rstatus = 0)
    (hev : ∀ e ∈ evs,
      two_data_status (dm2_midi_status m e.cmd) ∧ e.param < 128 ∧ e.value < 128) :
    std_midi_decode (dm2_midi_sends m evs).2 =
      evs.map (fun e => (dm2_midi_status m e.cmd, [e.param, e.value])) := by
  have h := dm2_midi_sends_decode evs m hin hev
  rw [h0] at h
  exact h

/-- Witness of C31 amended: two Note-Ons and a Control-Change on the opened codec of
the attached device. -/
theorem dm2_midi_sends_round_trip_witness :
    std_midi_decode (dm2_midi_sends dm2_midi_open_example dm2_midi_events_example).2 =
      dm2_midi_events_example.map
        (fun e => (dm2_midi_status dm2_midi_open_example e.cmd, [e.param, e.value])) :=
  dm2_midi_sends_round_trip dm2_midi_open_example dm2_midi_events_example
    (by decide) (by decide) (by unfold two_data_status; decide)

end DM2
